import Mathlib

/-!
# Arc engine: buoyancy geometry (`Arc/Physics/PhysicsUtils.h`)

A shallow embedding of `ArcEngine::PhysicsUtils` in exact arithmetic.

* Every `float` of the source is an element of a linearly ordered field `K`:
  `ℚ` or `ℝ`, the latter with `Real.cos`, `Real.sin` and `Real.sqrt` where the
  math library is needed.  Operations are exact there; what the
  source computes in `float` arithmetic is in the namespace `Binary32`.
* Every `std::vector<b2Vec2>` is a `List`; a vector passed by reference and
  written to is an argument and a component of the result.
* `b2Assert` failing is the result `none`.
* Every call that applies a force to a body is an entry of the returned list
  of force calls, in the order of the calls.

The definitions come first, in the order of the source, then the functions
whose results depend on rounding once more in `float` arithmetic (namespace
`Binary32`); the lemmas and the statements about the functions follow.
-/

set_option autoImplicit false

namespace ArcEngine

/-! ## Box2D vectors -/

/-- The two-component vector `b2Vec2` of Box2D. -/
@[ext]
structure b2Vec2 (K : Type) where
  x : K
  y : K
deriving DecidableEq

namespace b2Vec2

variable {K : Type} [LinearOrderedField K]

/-- Componentwise sum, `operator+` on `b2Vec2`. -/
instance : Add (b2Vec2 K) := ⟨fun a b => ⟨a.x + b.x, a.y + b.y⟩⟩

/-- Componentwise difference, `operator-` on `b2Vec2`. -/
instance : Sub (b2Vec2 K) := ⟨fun a b => ⟨a.x - b.x, a.y - b.y⟩⟩

/-- Unary minus, `b2Vec2::operator-()`. -/
instance : Neg (b2Vec2 K) := ⟨fun a => ⟨-a.x, -a.y⟩⟩

/-- Scalar times vector, `operator*(float, const b2Vec2&)`. -/
instance : HMul K (b2Vec2 K) (b2Vec2 K) := ⟨fun s a => ⟨s * a.x, s * a.y⟩⟩

/-- The zero vector, `b2Vec2(0.0f, 0.0f)`. -/
instance : Zero (b2Vec2 K) := ⟨⟨0, 0⟩⟩

instance : Inhabited (b2Vec2 K) := ⟨0⟩

end b2Vec2

variable {K : Type} [LinearOrderedField K]

/-- The functions of the C math library the source reaches through `glm::cos`,
`glm::sin` and (inside `b2Vec2::Length`) `b2Sqrt`.  They are a parameter of the
model: `Real.cos`, `Real.sin` and `Real.sqrt` over `ℝ`. -/
structure Libm (K : Type) where
  cos : K → K
  sin : K → K
  sqrt : K → K

/-- Modelled from the spec: the scalar cross product `b2Cross(a, b)` of Box2D
(`b2_math.h`, not part of the sources), `a.x * b.y - a.y * b.x`. -/
def b2Cross (a b : b2Vec2 K) : K := a.x * b.y - a.y * b.x

/-- Modelled from the spec: the cross product of a scalar and a vector,
`b2Cross(float s, const b2Vec2& a)` of Box2D, the perpendicular
`(-s * a.y, s * a.x)`. -/
def b2CrossSV (s : K) (a : b2Vec2 K) : b2Vec2 K := ⟨-s * a.y, s * a.x⟩

/-- Modelled from the spec: the dot product `b2Dot` of Box2D. -/
def b2Dot (a b : b2Vec2 K) : K := a.x * b.x + a.y * b.y

/-- Modelled from the spec: the constant `b2_epsilon` of Box2D (`b2_common.h`,
not part of the sources), the small positive epsilon of the spec; Box2D sets
it to `FLT_EPSILON`, which is `2⁻²³`. -/
def b2_epsilon : K := 1 / 8388608

/-- Modelled from the spec: `b2Vec2::operator*=(float)`, which scales both
components. -/
def b2Vec2.mulAssign (v : b2Vec2 K) (a : K) : b2Vec2 K := ⟨v.x * a, v.y * a⟩

/-- Modelled from the spec: `b2Vec2::Normalize` of Box2D, which returns the
length the vector had and scales the vector to unit length, leaving a vector
shorter than `b2_epsilon` as it is and returning `0` for it.  The result is
the pair of the returned length and the vector afterwards. -/
def b2Vec2.Normalize (m : Libm K) (v : b2Vec2 K) : K × b2Vec2 K :=
  let length := m.sqrt (v.x * v.x + v.y * v.y)
  if length < b2_epsilon then (0, v)
  else
    let invLength := 1 / length
    (length, ⟨v.x * invLength, v.y * invLength⟩)

/-! ## Shapes, bodies and fixtures -/

/-- The shape of a fixture, one constructor for each value of `b2Shape::Type`;
a circle carries `m_p` and `m_radius`, a polygon its first `m_count` entries of
`m_vertices`. -/
inductive b2Shape (K : Type) where
  | e_circle (m_p : b2Vec2 K) (m_radius : K)
  | e_edge
  | e_polygon (m_vertices : List (b2Vec2 K))
  | e_chain

/-- What the source asks of a `b2Body`: its position, the map from body-local
to world coordinates, and the velocity of the body at a world point. -/
structure b2Body (K : Type) where
  GetPosition : b2Vec2 K
  GetWorldPoint : b2Vec2 K → b2Vec2 K
  GetLinearVelocityFromWorldPoint : b2Vec2 K → b2Vec2 K

/-- A fixture: a shape attached to a body. -/
structure b2Fixture (K : Type) where
  GetShape : b2Shape K
  GetBody : b2Body K

/-- A call that `HandleBuoyancy` makes on the body of `fixture`. -/
inductive ForceCall (K : Type) where
  | ApplyForce (force point : b2Vec2 K) (wake : Bool)
  | ApplyForceToCenter (force : b2Vec2 K) (wake : Bool)

namespace PhysicsUtils

/-- `PhysicsUtils::Inside`: `p` lies strictly on the left of the directed line
from `cp1` to `cp2`. -/
def Inside (cp1 cp2 p : b2Vec2 K) : Bool :=
  decide ((cp2.x - cp1.x) * (p.y - cp1.y) > (cp2.y - cp1.y) * (p.x - cp1.x))

/-- `PhysicsUtils::Intersection`: the determinant formula for the meeting point
of the line through `cp1, cp2` and the line through `s, e`. -/
def Intersection (cp1 cp2 s e : b2Vec2 K) : b2Vec2 K :=
  let dc : b2Vec2 K := ⟨cp1.x - cp2.x, cp1.y - cp2.y⟩
  let dp : b2Vec2 K := ⟨s.x - e.x, s.y - e.y⟩
  let n1 := cp1.x * cp2.y - cp1.y * cp2.x
  let n2 := s.x * e.y - s.y * e.x
  let n3 := 1 / (dc.x * dp.y - dc.y * dp.x)
  ⟨(n1 * dp.x - n2 * dc.x) * n3, (n1 * dp.y - n2 * dc.y) * n3⟩

/-- The inner loop of `FindIntersectionOfFixtures` (lines 111-125): the walk
over the remaining elements `e` of `inputList` with `s` the element before,
returning what the walk appends to `outputVertices`. -/
def clipWalk (cp1 cp2 : b2Vec2 K) : b2Vec2 K → List (b2Vec2 K) → List (b2Vec2 K)
  | _, [] => []
  | s, e :: rest =>
    (if Inside cp1 cp2 e then
      (if !Inside cp1 cp2 s then [Intersection cp1 cp2 s e] else []) ++ [e]
    else if Inside cp1 cp2 s then [Intersection cp1 cp2 s e]
    else []) ++ clipWalk cp1 cp2 e rest

/-- The outer loop of `FindIntersectionOfFixtures` (lines 103-129) over the
remaining clip vertices `cp2`, with the `return` after it.  `getLast?` is
`none` exactly when `outputVertices.empty()`, otherwise it is
`inputList[inputList.size() - 1]`. -/
def clipLoop : b2Vec2 K → List (b2Vec2 K) → List (b2Vec2 K) → Bool × List (b2Vec2 K)
  | _, [], outputVertices => (!outputVertices.isEmpty, outputVertices)
  | cp1, cp2 :: rest, outputVertices =>
    match outputVertices.getLast? with
    | none => (false, outputVertices)
    | some s => clipLoop cp2 rest (clipWalk cp1 cp2 s outputVertices)


variable [FloorRing K]

/-- The constant `twoPi` of `VerticesFromCircle`: the `float` literal
`6.28318530718f`, whose value is the binary32 number nearest to that decimal,
`13176795 / 2097152 = 6.2831854820251465`. -/
def twoPi : K := 13176795 / 2097152

/-- `PhysicsUtils::VerticesFromCircle`: the result is the returned flag and
`vertices` after the call.  `polyCount` is the integer `ceil` gives, and the
loop runs for `i = 0, ..., polyCount - 1`, not at all for `polyCount = 0`.
The circles of Box2D have `m_radius >= 0` and the resolution passed is `16`,
so `polyCount >= 0`; a negative `polyCount`, for which `reserve` would throw,
is outside the model, which appends nothing there.  The product and the count
are taken exactly here, the count as an unbounded integer;
`Binary32.VerticesFromCircle` has the rounded product and the 32-bit count of
the source, which agree with these while the product needs no rounding and the
count is below `2 ^ 31`. -/
def VerticesFromCircle (m : Libm K) (fixture : b2Fixture K) (vertices : List (b2Vec2 K))
    (resolution : K) : Bool × List (b2Vec2 K) :=
  match fixture.GetShape with
  | b2Shape.e_circle _ m_radius =>
    let position := fixture.GetBody.GetPosition
    let radius := m_radius
    let polyCountFloat := resolution * radius
    let polyCount : ℤ := ⌈polyCountFloat⌉
    let deltaRadians := twoPi / (polyCount : K)
    (true, vertices ++ (List.range polyCount.toNat).map fun (i : ℕ) =>
      let radians := deltaRadians * (i : K)
      let point : b2Vec2 K := ⟨m.cos radians, m.sin radians⟩
      position + radius * point)
  | _ => (false, vertices)

/-- One `switch` of `FindIntersectionOfFixtures` (lines 68-81 and 84-97): the
vertex list after the world-space vertices of the fixture are appended, or
`none` in the `default` case, where the function returns `false`. -/
def fillVertices (m : Libm K) (f : b2Fixture K) (vertices : List (b2Vec2 K)) :
    Option (List (b2Vec2 K)) :=
  match f.GetShape with
  | b2Shape.e_polygon m_vertices => some (vertices ++ m_vertices.map f.GetBody.GetWorldPoint)
  | b2Shape.e_circle _ _ => some (VerticesFromCircle m f vertices 16).2
  | _ => none

/-- `PhysicsUtils::FindIntersectionOfFixtures`: the result is the returned
flag and `outputVertices` after the call; the argument `outputVertices` is the
vector as the caller hands it in. -/
def FindIntersectionOfFixtures (m : Libm K) (fA fB : b2Fixture K)
    (outputVertices : List (b2Vec2 K)) : Bool × List (b2Vec2 K) :=
  match fillVertices m fA outputVertices with
  | none => (false, outputVertices)
  | some outputVertices =>
    match fillVertices m fB [] with
    | none => (false, outputVertices)
    | some clipPolygon =>
      match clipPolygon.getLast? with
      | none => (false, outputVertices)
      | some cp1 => clipLoop cp1 clipPolygon outputVertices

/-- The body of the loop of `ComputeCentroid` (lines 151-165) at index `i`,
on the pair of the accumulator `c` and `area`. -/
def centroidStep (vs : List (b2Vec2 K)) (acc : b2Vec2 K × K) (i : ℕ) : b2Vec2 K × K :=
  let count := vs.length
  let pRef : b2Vec2 K := ⟨0, 0⟩
  let inv3 : K := 1 / 3
  let p1 := pRef
  let p2 := vs.getD i 0
  let p3 := if i + 1 < count then vs.getD (i + 1) 0 else vs.getD 0 0
  let e1 := p2 - p1
  let e2 := p3 - p1
  let D := b2Cross e1 e2
  let triangleArea := (1 / 2) * D
  (acc.1 + (triangleArea * inv3) * (p1 + p2 + p3), acc.2 + triangleArea)

/-- `PhysicsUtils::ComputeCentroid`: `none` when `b2Assert(count >= 3)` fails,
otherwise the returned centroid and the value left in `area`. -/
def ComputeCentroid (vs : List (b2Vec2 K)) : Option (b2Vec2 K × K) :=
  let count := vs.length
  if count < 3 then none
  else
    let r := (List.range count).foldl (centroidStep vs) (0, 0)
    if r.2 > b2_epsilon then some (r.1.mulAssign (1 / r.2), r.2)
    else some (r.1, 0)

/-- The relative velocity `velDir` of the body against the fluid at the
midpoint of edge `i` of the intersection polygon (lines 198-204). -/
def edgeVelDir (fluid fixture : b2Fixture K) (intersectionPoints : List (b2Vec2 K)) (i : ℕ) :
    b2Vec2 K :=
  let v0 := intersectionPoints.getD i 0
  let v1 := intersectionPoints.getD ((i + 1) % intersectionPoints.length) 0
  let midPoint := (1 / 2 : K) * (v0 + v1)
  fixture.GetBody.GetLinearVelocityFromWorldPoint midPoint -
    fluid.GetBody.GetLinearVelocityFromWorldPoint midPoint

/-- The value `dragDot` of edge `i` of the intersection polygon (lines 206-209). -/
def edgeDragDot (fluid fixture : b2Fixture K) (gravityMultiplier : K)
    (intersectionPoints : List (b2Vec2 K)) (i : ℕ) : K :=
  let v0 := intersectionPoints.getD i 0
  let v1 := intersectionPoints.getD ((i + 1) % intersectionPoints.length) 0
  let velDir := edgeVelDir fluid fixture intersectionPoints i
  let edge := v1 - v0
  let normal := b2CrossSV (-gravityMultiplier) edge
  b2Dot normal velDir

/-- The body of the drag loop of `HandleBuoyancy` (lines 197-224) at index
`i`: the calls it makes on the body of `fixture`. -/
def edgeForces (m : Libm K) (fluid fixture : b2Fixture K)
    (gravityMultiplier density dragMultiplier : K)
    (intersectionPoints : List (b2Vec2 K)) (i : ℕ) : List (ForceCall K) :=
  let v0 := intersectionPoints.getD i 0
  let v1 := intersectionPoints.getD ((i + 1) % intersectionPoints.length) 0
  let midPoint := (1 / 2 : K) * (v0 + v1)
  let velDir := edgeVelDir fluid fixture intersectionPoints i
  let edge := v1 - v0
  let dragDot := edgeDragDot fluid fixture gravityMultiplier intersectionPoints i
  if dragDot < 0 then []
  else
    let nv := velDir.Normalize m
    let vel := nv.1
    let velDir := nv.2
    let ne := edge.Normalize m
    let edgeLength := ne.1
    let edge := ne.2
    let dragMag := dragDot * edgeLength * density * vel * vel
    let dragForce := (dragMag * dragMultiplier) * (-velDir)
    let liftMag := b2Dot edge velDir * dragMag
    let liftDir := b2CrossSV gravityMultiplier velDir
    let liftForce := liftMag * liftDir
    [ForceCall.ApplyForce dragForce midPoint true, ForceCall.ApplyForce liftForce midPoint true]

/-- `PhysicsUtils::HandleBuoyancy`: the calls made on the body of `fixture`, in
order; `none` when the assertion of `ComputeCentroid` fails. -/
def HandleBuoyancy (m : Libm K) (fluid fixture : b2Fixture K) (gravity : b2Vec2 K)
    (flipGravity : Bool) (density dragMultiplier flowMagnitude flowAngleInRadians : K) :
    Option (List (ForceCall K)) :=
  let found := FindIntersectionOfFixtures m fluid fixture []
  let intersectionPoints := found.2
  if found.1 then
    match ComputeCentroid intersectionPoints with
    | none => none
    | some (centroid, area) =>
      let gravityMultiplier : K := if flipGravity then -1 else 1
      let displacedMass := density * area
      let buoyancyForce := (displacedMass * gravityMultiplier) * (-gravity)
      let flowForce := flowMagnitude *
        (⟨m.cos flowAngleInRadians, m.sin flowAngleInRadians⟩ : b2Vec2 K)
      some (ForceCall.ApplyForce buoyancyForce centroid true ::
        ForceCall.ApplyForceToCenter flowForce true ::
        ((List.range intersectionPoints.length).map
          (edgeForces m fluid fixture gravityMultiplier density dragMultiplier
            intersectionPoints)).flatten)
  else some []

/-! ## Inputs used in the evaluations -/

/-- A body at the origin, not rotated and at rest: local and world coordinates
coincide. -/
def bodyAtRest : b2Body K := ⟨0, id, fun _ => 0⟩

/-- A polygon fixture on `bodyAtRest` with the given vertices. -/
def polygonFixture (vs : List (b2Vec2 K)) : b2Fixture K := ⟨b2Shape.e_polygon vs, bodyAtRest⟩

/-- The unit square `(0,0), (1,0), (1,1), (0,1)`. -/
def unitSquare : List (b2Vec2 K) := [⟨0, 0⟩, ⟨1, 0⟩, ⟨1, 1⟩, ⟨0, 1⟩]

/-- A body at the origin, not rotated, every point of which moves with
velocity `(0, -1)`: a body sinking without spin. -/
def sinkingBody : b2Body K := ⟨0, id, fun _ => ⟨0, -1⟩⟩

/-- A polygon fixture on `sinkingBody` with the given vertices. -/
def sinkingFixture (vs : List (b2Vec2 K)) : b2Fixture K := ⟨b2Shape.e_polygon vs, sinkingBody⟩

/-- A fixture whose shape is an edge, a kind the clipper does not support. -/
def edgeFixture : b2Fixture K := ⟨b2Shape.e_edge, bodyAtRest⟩

/-- A circle fixture of the given radius on a body at `position`. -/
def circleFixture (position : b2Vec2 K) (radius : K) : b2Fixture K :=
  ⟨b2Shape.e_circle 0 radius, ⟨position, id, fun _ => 0⟩⟩

/-- The unit square moved by `(1, 0)`: it shares an edge with the unit square. -/
def touchingSquare : List (b2Vec2 K) := [⟨1, 0⟩, ⟨2, 0⟩, ⟨2, 1⟩, ⟨1, 1⟩]

/-- The unit square moved by `(2, 0)`, apart from the unit square. -/
def farSquare : List (b2Vec2 K) := [⟨2, 0⟩, ⟨3, 0⟩, ⟨3, 1⟩, ⟨2, 1⟩]

/-- The overlap of `unitSquare` and `shiftedSquare`, in the order the clipper
outputs it. -/
def overlapSquare : List (b2Vec2 K) := [⟨1/2, 1/2⟩, ⟨1, 1/2⟩, ⟨1, 1⟩, ⟨1/2, 1⟩]

/-- The unit square moved by `(0.5, 0.5)`. -/
def shiftedSquare : List (b2Vec2 K) := [⟨1/2, 1/2⟩, ⟨3/2, 1/2⟩, ⟨3/2, 3/2⟩, ⟨1/2, 3/2⟩]

/-- The square `(0.25,0.25)..(0.75,0.75)`, strictly inside the unit square. -/
def innerSquare : List (b2Vec2 K) := [⟨1/4, 1/4⟩, ⟨3/4, 1/4⟩, ⟨3/4, 3/4⟩, ⟨1/4, 3/4⟩]

/-! ## Vocabulary of the geometric statements -/

/-- The shape kinds `FindIntersectionOfFixtures` resolves to a polygon. -/
def isPolygonOrCircle : b2Shape K → Bool
  | b2Shape.e_polygon _ => true
  | b2Shape.e_circle _ _ => true
  | _ => false

/-- The value of `gravityMultiplier` in `HandleBuoyancy`. -/
def gravityMultiplierOf (flipGravity : Bool) : K := if flipGravity then -1 else 1

/-- The consecutive pairs `(cp1, cp2)` the clipping loop visits when it starts
with `cp1` and walks the clip vertices `cp2` of the list. -/
def edgesFrom : b2Vec2 K → List (b2Vec2 K) → List (b2Vec2 K × b2Vec2 K)
  | _, [] => []
  | cp1, cp2 :: rest => (cp1, cp2) :: edgesFrom cp2 rest

/-- The edges of a clip polygon in the order of the clipping loop: the last
vertex paired with the first, then each vertex paired with the next. -/
def clipEdges (clipPolygon : List (b2Vec2 K)) : List (b2Vec2 K × b2Vec2 K) :=
  match clipPolygon.getLast? with
  | none => []
  | some cp1 => edgesFrom cp1 clipPolygon

/-- The point `p` is on the inner side of the clip edge `(cp1, cp2)` or on its
line: the test of `Inside` with `≥` in place of `>`. -/
def OnInnerSide (cp1 cp2 p : b2Vec2 K) : Prop :=
  (cp2.x - cp1.x) * (p.y - cp1.y) ≥ (cp2.y - cp1.y) * (p.x - cp1.x)

/-- A predicate on points that is closed under taking points of a segment. -/
def SegClosed (P : b2Vec2 K → Prop) : Prop :=
  ∀ (a b : b2Vec2 K) (t : K), 0 ≤ t → t ≤ 1 → P a → P b →
    P ⟨a.x + t * (b.x - a.x), a.y + t * (b.y - a.y)⟩

/-- A vector as a point of the plane `K × K`. -/
def toPair (v : b2Vec2 K) : K × K := (v.x, v.y)

/-- The region a vertex list spans: the convex hull of its points. -/
def hull (vs : List (b2Vec2 K)) : Set (K × K) := convexHull K {q | ∃ v ∈ vs, toPair v = q}

/-- The `i`-th vertex of a polygon, indices taken cyclically. -/
def vertexAt (vs : List (b2Vec2 K)) (i : ℕ) : b2Vec2 K := vs.getD (i % vs.length) 0

/-- A convex polygon listed counter-clockwise: at least three vertices, every
vertex on the left of every edge or on its line, and for every edge a vertex
strictly on its left (the polygon is not flat and no edge is a single point).
Vertices in line with their neighbours are allowed. -/
def ConvexCCW (vs : List (b2Vec2 K)) : Prop :=
  3 ≤ vs.length ∧
    (∀ e ∈ clipEdges vs, ∀ v ∈ vs, 0 ≤ b2Cross (e.2 - e.1) (v - e.1)) ∧
    (∀ e ∈ clipEdges vs, ∃ v ∈ vs, 0 < b2Cross (e.2 - e.1) (v - e.1))

/-- A convex polygon listed clockwise: as `ConvexCCW`, with the right side in
place of the left side. -/
def ConvexCW (vs : List (b2Vec2 K)) : Prop :=
  3 ≤ vs.length ∧
    (∀ e ∈ clipEdges vs, ∀ v ∈ vs, b2Cross (e.2 - e.1) (v - e.1) ≤ 0) ∧
    (∀ e ∈ clipEdges vs, ∃ v ∈ vs, b2Cross (e.2 - e.1) (v - e.1) < 0)

/-- A convex polygon, in either winding order. -/
def ConvexPolygon (vs : List (b2Vec2 K)) : Prop := ConvexCCW vs ∨ ConvexCW vs

/-- Moving from a point of `P` towards a point of `Q`, every point after the
start is in `Q`. -/
def OpenSeg (P Q : b2Vec2 K → Prop) : Prop :=
  ∀ (w q : b2Vec2 K) (t : K), 0 < t → t ≤ 1 → P w → Q q →
    Q ⟨w.x + t * (q.x - w.x), w.y + t * (q.y - w.y)⟩

/-- The point `p` is on the `σ` side of every edge of the polygon or on its
line: the left side for `σ = 1`, the right side for `σ = -1`. -/
def WeaklyOnSide (σ : K) (vs : List (b2Vec2 K)) (p : b2Vec2 K) : Prop :=
  ∀ e ∈ clipEdges vs, 0 ≤ σ * b2Cross (e.2 - e.1) (p - e.1)

/-- The point `p` is strictly on the `σ` side of every edge of the polygon. -/
def StrictlyOnSide (σ : K) (vs : List (b2Vec2 K)) (p : b2Vec2 K) : Prop :=
  ∀ e ∈ clipEdges vs, 0 < σ * b2Cross (e.2 - e.1) (p - e.1)

/-- The point `p` is strictly inside the polygon: strictly on the left of every
edge (a polygon listed counter-clockwise) or strictly on the right of every
edge (a polygon listed clockwise). -/
def StrictlyInside (vs : List (b2Vec2 K)) (p : b2Vec2 K) : Prop :=
  StrictlyOnSide 1 vs p ∨ StrictlyOnSide (-1) vs p

/-- The subject `S` and the clip polygon `C` do not overlap: their hulls have
no point in common, or `S` is a convex polygon and no point is strictly inside
both (the polygons may touch along their boundaries). -/
def DoNotOverlap (S C : List (b2Vec2 K)) : Prop :=
  Disjoint (hull S) (hull C) ∨
    (ConvexPolygon S ∧ ∀ q, ¬ (StrictlyInside S q ∧ StrictlyInside C q))

/-! ## Vocabulary of the statements on areas, calls and forces -/

/-- The pair of the accumulator `c` and the sum `area` that the loop of
`ComputeCentroid` leaves (lines 149-166), before `area` is tested against
`b2_epsilon`. -/
def centroidSums (vs : List (b2Vec2 K)) : b2Vec2 K × K :=
  (List.range vs.length).foldl (centroidStep vs) (0, 0)

/-- The polygon moved by the vector `t`. -/
def translatePolygon (t : b2Vec2 K) (vs : List (b2Vec2 K)) : List (b2Vec2 K) :=
  vs.map fun v => v + t

/-- The pairs `(s, e)` at which the inner loop of `FindIntersectionOfFixtures`
(lines 111-125) calls `Intersection(cp1, cp2, s, e)`, in the order of the
calls: the loop of `clipWalk`, recording the arguments of each call. -/
def intersectionCalls :
    b2Vec2 K → b2Vec2 K → b2Vec2 K → List (b2Vec2 K) → List (b2Vec2 K × b2Vec2 K)
  | _, _, _, [] => []
  | cp1, cp2, s, e :: rest =>
    (if Inside cp1 cp2 e then
      (if !Inside cp1 cp2 s then [(s, e)] else [])
    else if Inside cp1 cp2 s then [(s, e)]
    else []) ++ intersectionCalls cp1 cp2 e rest

/-- The force a recorded call applies. -/
def forceOf : ForceCall K → b2Vec2 K
  | ForceCall.ApplyForce force _ _ => force
  | ForceCall.ApplyForceToCenter force _ => force

/-- Whether a recorded call is `ApplyForceToCenter`. -/
def isApplyForceToCenter : ForceCall K → Bool
  | ForceCall.ApplyForce _ _ _ => false
  | ForceCall.ApplyForceToCenter _ _ => true

/-- A body none of whose points moves. -/
def AtRest (body : b2Body K) : Prop :=
  ∀ p, body.GetLinearVelocityFromWorldPoint p = 0

/-- The values `outputVertices` has at the end of each pass of the outer loop
of `FindIntersectionOfFixtures` (line 126), one for each clip edge the loop
gets through, in order: the loop of `clipLoop`, recording the vector. -/
def clipStates : b2Vec2 K → List (b2Vec2 K) → List (b2Vec2 K) → List (List (b2Vec2 K))
  | _, [], _ => []
  | cp1, cp2 :: rest, outputVertices =>
    match outputVertices.getLast? with
    | none => []
    | some s =>
      clipWalk cp1 cp2 s outputVertices ::
        clipStates cp2 rest (clipWalk cp1 cp2 s outputVertices)

/-- The pairs `(s, e)` of all calls `Intersection(cp1, cp2, s, e)` the outer
loop of `FindIntersectionOfFixtures` makes, in order: the loop of `clipLoop`,
recording the calls of each pass. -/
def clipLoopCalls :
    b2Vec2 K → List (b2Vec2 K) → List (b2Vec2 K) → List (b2Vec2 K × b2Vec2 K)
  | _, [], _ => []
  | cp1, cp2 :: rest, outputVertices =>
    match outputVertices.getLast? with
    | none => []
    | some s =>
      intersectionCalls cp1 cp2 s outputVertices ++
        clipLoopCalls cp2 rest (clipWalk cp1 cp2 s outputVertices)

/-- The pairs `(s, e)` of all calls `Intersection(cp1, cp2, s, e)` that
`FindIntersectionOfFixtures` makes, in order: the function itself, recording
the calls of its loop in place of the result. -/
def IntersectionCallsOfFixtures (m : Libm K) (fA fB : b2Fixture K)
    (outputVertices : List (b2Vec2 K)) : List (b2Vec2 K × b2Vec2 K) :=
  match fillVertices m fA outputVertices with
  | none => []
  | some outputVertices =>
    match fillVertices m fB [] with
    | none => []
    | some clipPolygon =>
      match clipPolygon.getLast? with
      | none => []
      | some cp1 => clipLoopCalls cp1 clipPolygon outputVertices

end PhysicsUtils

/-! ## The same functions in `float` arithmetic

The definitions above take every operation exactly.  The namespace `Binary32`
has the functions of the source whose results depend on rounding, with every
`float` operation rounded to IEEE 754 binary32 (round to nearest, ties to
even, no fused operations) and `int` a 32-bit integer.  A finite `float` is
the rational it stands for; a result is `none` when the run leaves the finite
numbers (an infinity or a NaN arises), when a cast is undefined or when the
run ends in an exception or a failed assertion. -/

namespace Binary32

/-- The integer nearest to `q`, the even one of the two when `q` is halfway
between two integers. -/
def roundHalfEven (q : ℚ) : ℤ :=
  let f := ⌊q⌋
  let r := q - f
  if r < 1 / 2 then f else if 1 / 2 < r then f + 1 else if f % 2 = 0 then f else f + 1

/-- With `fuel ≥ n` the position of the leading binary digit of `n > 0`, that is
`⌊log₂ n⌋`. -/
def log2Fuel : ℕ → ℕ → ℕ
  | 0, _ => 0
  | fuel + 1, n => if n < 2 then 0 else log2Fuel fuel (n / 2) + 1

/-- The binary exponent of a rational `x ≠ 0`: the integer `e` with
`2 ^ e ≤ |x| < 2 ^ (e + 1)`.  The difference `k` of the positions of the leading
digits of numerator and denominator is `e` or `e + 1`. -/
def binaryExponent (x : ℚ) : ℤ :=
  let k : ℤ := (log2Fuel x.num.natAbs x.num.natAbs : ℤ) - (log2Fuel x.den x.den : ℤ)
  if (2 : ℚ) ^ k ≤ |x| then k else k - 1

/-- The `float` nearest to the rational `x`: IEEE 754 binary32 with 24
significant binary digits, rounding to nearest with ties to even, exponents from
`-126` (below which the spacing stays `2 ^ (-149)`) to `127`; `none` when the
result is infinite. -/
def float32 (x : ℚ) : Option ℚ :=
  if x = 0 then some 0
  else
    let e := max (binaryExponent x) (-126)
    let ulp : ℚ := 2 ^ (e - 23)
    let y := roundHalfEven (x / ulp) * ulp
    if |y| < 2 ^ (128 : ℕ) then some y else none

/-- The `float` sum `a + b`. -/
def add (a b : ℚ) : Option ℚ := float32 (a + b)

/-- The `float` difference `a - b`. -/
def sub (a b : ℚ) : Option ℚ := float32 (a - b)

/-- The `float` product `a * b`. -/
def mul (a b : ℚ) : Option ℚ := float32 (a * b)

/-- The `float` quotient `a / b`, which is infinite or not a number for
`b = 0`. -/
def div (a b : ℚ) : Option ℚ := if b = 0 then none else float32 (a / b)

instance : DecidableEq (b2Vec2 ℚ) := fun a b =>
  decidable_of_iff (a.x = b.x ∧ a.y = b.y)
    ⟨fun h => b2Vec2.ext h.1 h.2, fun h => h ▸ ⟨rfl, rfl⟩⟩

/-- The `float` value of `a * b - c * d`: two products and their difference,
each rounded. -/
def mulSub (a b c d : ℚ) : Option ℚ := do
  let p ← mul a b
  let q ← mul c d
  sub p q

/-- The difference of two vectors, `operator-` of `b2Vec2`, in `float`
arithmetic. -/
def vsub (a b : b2Vec2 ℚ) : Option (b2Vec2 ℚ) := do
  let x ← sub a.x b.x
  let y ← sub a.y b.y
  pure ⟨x, y⟩

/-- The sum of two vectors, `operator+` of `b2Vec2`, in `float` arithmetic. -/
def vadd (a b : b2Vec2 ℚ) : Option (b2Vec2 ℚ) := do
  let x ← add a.x b.x
  let y ← add a.y b.y
  pure ⟨x, y⟩

/-- A scalar times a vector, `operator*(float, const b2Vec2&)`, in `float`
arithmetic. -/
def smul (s : ℚ) (a : b2Vec2 ℚ) : Option (b2Vec2 ℚ) := do
  let x ← mul s a.x
  let y ← mul s a.y
  pure ⟨x, y⟩

/-- `PhysicsUtils::Inside` (line 16) in `float` arithmetic. -/
def Inside (cp1 cp2 p : b2Vec2 ℚ) : Option Bool := do
  let a ← sub cp2.x cp1.x
  let b ← sub p.y cp1.y
  let l ← mul a b
  let c ← sub cp2.y cp1.y
  let d ← sub p.x cp1.x
  let r ← mul c d
  pure (decide (l > r))

/-- `PhysicsUtils::Intersection` (lines 23-28) in `float` arithmetic. -/
def Intersection (cp1 cp2 s e : b2Vec2 ℚ) : Option (b2Vec2 ℚ) := do
  let dc ← vsub cp1 cp2
  let dp ← vsub s e
  let n1 ← mulSub cp1.x cp2.y cp1.y cp2.x
  let n2 ← mulSub s.x e.y s.y e.x
  let d ← mulSub dc.x dp.y dc.y dp.x
  let n3 ← div 1 d
  let xn ← mulSub n1 dp.x n2 dc.x
  let x ← mul xn n3
  let yn ← mulSub n1 dp.y n2 dc.y
  let y ← mul yn n3
  pure ⟨x, y⟩

/-- The body of the inner loop of `FindIntersectionOfFixtures` (lines 113-123)
in `float` arithmetic: what one pass appends to `outputVertices`. -/
def clipEmit (cp1 cp2 s e : b2Vec2 ℚ) : Option (List (b2Vec2 ℚ)) := do
  if ← Inside cp1 cp2 e then
    if !(← Inside cp1 cp2 s) then
      let p ← Intersection cp1 cp2 s e
      pure [p, e]
    else pure [e]
  else if ← Inside cp1 cp2 s then
    let p ← Intersection cp1 cp2 s e
    pure [p]
  else pure []

/-- The inner loop of `FindIntersectionOfFixtures` (lines 111-125) in `float`
arithmetic. -/
def clipWalk (cp1 cp2 : b2Vec2 ℚ) : b2Vec2 ℚ → List (b2Vec2 ℚ) → Option (List (b2Vec2 ℚ))
  | _, [] => some []
  | s, e :: rest => do
    let appended ← clipEmit cp1 cp2 s e
    let others ← clipWalk cp1 cp2 e rest
    pure (appended ++ others)

/-- The outer loop of `FindIntersectionOfFixtures` (lines 103-129) in `float`
arithmetic. -/
def clipLoop : b2Vec2 ℚ → List (b2Vec2 ℚ) → List (b2Vec2 ℚ) → Option (Bool × List (b2Vec2 ℚ))
  | _, [], outputVertices => some (!outputVertices.isEmpty, outputVertices)
  | cp1, cp2 :: rest, outputVertices =>
    match outputVertices.getLast? with
    | none => some (false, outputVertices)
    | some s => do
      let outputVertices ← clipWalk cp1 cp2 s outputVertices
      clipLoop cp2 rest outputVertices

/-- The value of `polyCount` in `VerticesFromCircle` (lines 42-43): the `float`
product `resolution * radius`, its ceiling, and the cast to `int`, which is
undefined (`none`) outside the range of a 32-bit `int`. -/
def polyCount (resolution radius : ℚ) : Option ℤ := do
  let polyCountFloat ← mul resolution radius
  let count : ℤ := ⌈polyCountFloat⌉
  if -2 ^ (31 : ℕ) ≤ count ∧ count < 2 ^ (31 : ℕ) then pure count else none

/-- The point that pass `i` of the loop of `VerticesFromCircle` appends (lines
45 and 50-52) in `float` arithmetic; `m.cos` and `m.sin` are `glm::cos` and
`glm::sin` on `float`. -/
def circlePoint (m : Libm ℚ) (position : b2Vec2 ℚ) (radius : ℚ) (polyCount : ℤ) (i : ℕ) :
    Option (b2Vec2 ℚ) := do
  let count ← float32 polyCount
  let deltaRadians ← div PhysicsUtils.twoPi count
  let index ← float32 i
  let radians ← mul deltaRadians index
  let point : b2Vec2 ℚ := ⟨m.cos radians, m.sin radians⟩
  let offset ← smul radius point
  vadd position offset

/-- The list of the values when every one of them is finite. -/
def allFinite : List (Option (b2Vec2 ℚ)) → Option (List (b2Vec2 ℚ))
  | [] => some []
  | none :: _ => none
  | some v :: rest => (allFinite rest).map fun vs => v :: vs

/-- `PhysicsUtils::VerticesFromCircle` in `float` arithmetic: the returned flag
and `vertices` after the call; `none` when the cast to `int` is undefined, when
`reserve` throws for a negative `polyCount`, or when a value is not finite. -/
def VerticesFromCircle (m : Libm ℚ) (fixture : b2Fixture ℚ) (vertices : List (b2Vec2 ℚ))
    (resolution : ℚ) : Option (Bool × List (b2Vec2 ℚ)) :=
  match fixture.GetShape with
  | b2Shape.e_circle _ m_radius => do
    let position := fixture.GetBody.GetPosition
    let radius := m_radius
    let polyCount ← polyCount resolution radius
    if polyCount < 0 then none
    else
      let points ← allFinite ((List.range polyCount.toNat).map
        (circlePoint m position radius polyCount))
      pure (true, vertices ++ points)
  | _ => some (false, vertices)

/-- One `switch` of `FindIntersectionOfFixtures` (lines 68-81 and 84-97) in
`float` arithmetic: `some none` is the `default` case, where the function
returns `false`, and `none` a run that `VerticesFromCircle` does not finish.
The world points of a polygon are what `GetWorldPoint` of the body gives. -/
def fillVertices (m : Libm ℚ) (f : b2Fixture ℚ) (vertices : List (b2Vec2 ℚ)) :
    Option (Option (List (b2Vec2 ℚ))) :=
  match f.GetShape with
  | b2Shape.e_polygon m_vertices =>
    some (some (vertices ++ m_vertices.map f.GetBody.GetWorldPoint))
  | b2Shape.e_circle _ _ => (VerticesFromCircle m f vertices 16).map fun r => some r.2
  | _ => some none

/-- `PhysicsUtils::FindIntersectionOfFixtures` in `float` arithmetic: the
returned flag and `outputVertices` after the call; `none` when a value is not
finite or `VerticesFromCircle` does not finish. -/
def FindIntersectionOfFixtures (m : Libm ℚ) (fA fB : b2Fixture ℚ)
    (outputVertices : List (b2Vec2 ℚ)) : Option (Bool × List (b2Vec2 ℚ)) := do
  match ← fillVertices m fA outputVertices with
  | none => pure (false, outputVertices)
  | some outputVertices =>
    match ← fillVertices m fB [] with
    | none => pure (false, outputVertices)
    | some clipPolygon =>
      match clipPolygon.getLast? with
      | none => pure (false, outputVertices)
      | some cp1 => clipLoop cp1 clipPolygon outputVertices

/-- One pass of the loop of `ComputeCentroid` (lines 149-166) in `float`
arithmetic, on the pair of `c` and `area`. -/
def centroidStep (vs : List (b2Vec2 ℚ)) (acc : b2Vec2 ℚ × ℚ) (i : ℕ) :
    Option (b2Vec2 ℚ × ℚ) := do
  let p1 : b2Vec2 ℚ := 0
  let p2 := vs.getD i 0
  let p3 := if i + 1 < vs.length then vs.getD (i + 1) 0 else vs.getD 0 0
  let e1 ← vsub p2 p1
  let e2 ← vsub p3 p1
  let D ← mulSub e1.x e2.y e1.y e2.x
  let triangleArea ← mul (1 / 2) D
  let area ← add acc.2 triangleArea
  let inv3 ← div 1 3
  let weight ← mul triangleArea inv3
  let p12 ← vadd p1 p2
  let p123 ← vadd p12 p3
  let term ← smul weight p123
  let c ← vadd acc.1 term
  pure (c, area)

/-- `PhysicsUtils::ComputeCentroid` in `float` arithmetic: the pair of the
returned vector and `area` after the call; `none` when the assertion
`count >= 3` fails or a value is not finite. -/
def ComputeCentroid (vs : List (b2Vec2 ℚ)) : Option (b2Vec2 ℚ × ℚ) :=
  if vs.length < 3 then none
  else do
    let r ← (List.range vs.length).foldlM (centroidStep vs) (0, 0)
    if r.2 > b2_epsilon then
      let inv ← div 1 r.2
      let c ← smul inv r.1
      pure (c, r.2)
    else pure (r.1, 0)

/-- The math library as far as the evaluations in `float` arithmetic reach it:
they call `glm::cos` and `glm::sin` at the angle `0` only, where the values are
`1` and `0`. -/
def libmAtZero : Libm ℚ := ⟨fun _ => 1, fun _ => 0, fun _ => 0⟩

end Binary32

/-! ## Components of vector expressions -/

namespace b2Vec2

@[simp] theorem add_x (a b : b2Vec2 K) : (a + b).x = a.x + b.x := rfl
@[simp] theorem add_y (a b : b2Vec2 K) : (a + b).y = a.y + b.y := rfl
@[simp] theorem sub_x (a b : b2Vec2 K) : (a - b).x = a.x - b.x := rfl
@[simp] theorem sub_y (a b : b2Vec2 K) : (a - b).y = a.y - b.y := rfl
@[simp] theorem neg_x (a : b2Vec2 K) : (-a).x = -a.x := rfl
@[simp] theorem neg_y (a : b2Vec2 K) : (-a).y = -a.y := rfl
@[simp] theorem smul_x (s : K) (a : b2Vec2 K) : (s * a).x = s * a.x := rfl
@[simp] theorem smul_y (s : K) (a : b2Vec2 K) : (s * a).y = s * a.y := rfl
@[simp] theorem zero_x : (0 : b2Vec2 K).x = 0 := rfl
@[simp] theorem zero_y : (0 : b2Vec2 K).y = 0 := rfl

end b2Vec2

/-! ## Evaluation lemmas -/

section Lemmas

open PhysicsUtils

theorem b2_epsilon_pos : (0 : K) < b2_epsilon := by
  unfold b2_epsilon; norm_num

theorem fillVertices_polygon [FloorRing K] (m : Libm K) (vs out : List (b2Vec2 K)) :
    fillVertices m (polygonFixture vs) out = some (out ++ vs) := by
  simp [fillVertices, polygonFixture, bodyAtRest]

theorem ComputeCentroid_triangle_acc (a b c : b2Vec2 K) :
    (List.range 3).foldl (centroidStep [a, b, c]) (0, 0) =
      (⟨(1/6) * (b2Cross a b * (a.x + b.x) + b2Cross b c * (b.x + c.x) + b2Cross c a * (c.x + a.x)),
        (1/6) * (b2Cross a b * (a.y + b.y) + b2Cross b c * (b.y + c.y) + b2Cross c a * (c.y + a.y))⟩,
       (1/2) * b2Cross (b - a) (c - a)) := by
  simp only [List.range_succ, List.range_zero, List.nil_append, List.cons_append,
    List.foldl_cons, List.foldl_nil, centroidStep, b2Cross]
  refine Prod.ext (b2Vec2.ext ?_ ?_) ?_ <;> norm_num <;> ring

/-! ## The clipping walk keeps convex regions -/

theorem Inside_iff (cp1 cp2 p : b2Vec2 K) :
    Inside cp1 cp2 p = true ↔ 0 < b2Cross (cp2 - cp1) (p - cp1) := by
  simp only [Inside, b2Cross, decide_eq_true_eq, b2Vec2.sub_x, b2Vec2.sub_y, gt_iff_lt]
  constructor <;> intro h <;> linarith

theorem Inside_false_iff (cp1 cp2 p : b2Vec2 K) :
    Inside cp1 cp2 p = false ↔ b2Cross (cp2 - cp1) (p - cp1) ≤ 0 := by
  rw [← not_iff_not]
  simp only [Bool.not_eq_false, Inside_iff, not_le]

theorem OnInnerSide_iff (cp1 cp2 p : b2Vec2 K) :
    OnInnerSide cp1 cp2 p ↔ 0 ≤ b2Cross (cp2 - cp1) (p - cp1) := by
  simp only [OnInnerSide, b2Cross, b2Vec2.sub_x, b2Vec2.sub_y, ge_iff_le]
  constructor <;> intro h <;> linarith

/-- When `s` and `e` are on different sides, the denominator of `Intersection`
is not zero and the point returned is a point of the segment from `s` to `e`
on the line through `cp1` and `cp2`. -/
theorem Intersection_segment (cp1 cp2 s e : b2Vec2 K)
    (h : Inside cp1 cp2 s ≠ Inside cp1 cp2 e) :
    ∃ t : K, 0 ≤ t ∧ t ≤ 1 ∧
      Intersection cp1 cp2 s e = ⟨s.x + t * (e.x - s.x), s.y + t * (e.y - s.y)⟩ ∧
      b2Cross (cp2 - cp1) (Intersection cp1 cp2 s e - cp1) = 0 := by
  set fs := b2Cross (cp2 - cp1) (s - cp1) with hfs
  set fe := b2Cross (cp2 - cp1) (e - cp1) with hfe
  have hden : (cp1.x - cp2.x) * (s.y - e.y) - (cp1.y - cp2.y) * (s.x - e.x) = fe - fs := by
    simp only [hfs, hfe, b2Cross, b2Vec2.sub_x, b2Vec2.sub_y]; ring
  have hcase : (0 < fs ∧ fe ≤ 0) ∨ (fs ≤ 0 ∧ 0 < fe) := by
    cases hs : Inside cp1 cp2 s <;> cases he : Inside cp1 cp2 e
    · exact absurd (hs.trans he.symm) h
    · exact Or.inr ⟨(Inside_false_iff _ _ _).1 hs, (Inside_iff _ _ _).1 he⟩
    · exact Or.inl ⟨(Inside_iff _ _ _).1 hs, (Inside_false_iff _ _ _).1 he⟩
    · exact absurd (hs.trans he.symm) h
  have hne : fe - fs ≠ 0 := by
    rcases hcase with ⟨h1, h2⟩ | ⟨h1, h2⟩
    · exact ne_of_lt (by linarith)
    · exact ne_of_gt (by linarith)
  have hne2 : (cp1.x - cp2.x) * (s.y - e.y) - (cp1.y - cp2.y) * (s.x - e.x) ≠ 0 := by
    rw [hden]; exact hne
  refine ⟨-fs / (fe - fs), ?_, ?_, ?_, ?_⟩
  · rcases hcase with ⟨h1, h2⟩ | ⟨h1, h2⟩
    · exact div_nonneg_of_nonpos (by linarith) (by linarith)
    · exact div_nonneg (by linarith) (by linarith)
  · rcases hcase with ⟨h1, h2⟩ | ⟨h1, h2⟩
    · rw [div_le_one_of_neg (by linarith)]; linarith
    · rw [div_le_one (by linarith)]; linarith
  · simp only [Intersection]
    refine b2Vec2.ext ?_ ?_
    · simp only
      rw [← hden]
      field_simp
      simp only [hfs, b2Cross, b2Vec2.sub_x, b2Vec2.sub_y]
      ring
    · simp only
      rw [← hden]
      field_simp
      simp only [hfs, b2Cross, b2Vec2.sub_x, b2Vec2.sub_y]
      ring
  · simp only [Intersection, b2Cross, b2Vec2.sub_x, b2Vec2.sub_y]
    field_simp
    ring

theorem segClosed_OnInnerSide (cp1 cp2 : b2Vec2 K) : SegClosed (OnInnerSide cp1 cp2) := by
  intro a b t ht0 ht1 ha hb
  rw [OnInnerSide_iff] at ha hb ⊢
  have key : b2Cross (cp2 - cp1)
      ((⟨a.x + t * (b.x - a.x), a.y + t * (b.y - a.y)⟩ : b2Vec2 K) - cp1)
      = (1 - t) * b2Cross (cp2 - cp1) (a - cp1) + t * b2Cross (cp2 - cp1) (b - cp1) := by
    simp only [b2Cross, b2Vec2.sub_x, b2Vec2.sub_y]; ring
  rw [key]
  have h1 : 0 ≤ (1 - t) * b2Cross (cp2 - cp1) (a - cp1) := mul_nonneg (by linarith) ha
  have h2 : 0 ≤ t * b2Cross (cp2 - cp1) (b - cp1) := mul_nonneg ht0 hb
  linarith

theorem segClosed_hull (vs : List (b2Vec2 K)) : SegClosed (fun p => toPair p ∈ hull vs) := by
  intro a b t ht0 ht1 ha hb
  have hc : Convex K (hull vs) := convex_convexHull K _
  have := hc.add_smul_sub_mem ha hb ⟨ht0, ht1⟩
  simpa [toPair, Prod.smul_mk, smul_eq_mul] using this

theorem mem_hull_of_mem {vs : List (b2Vec2 K)} {v : b2Vec2 K} (h : v ∈ vs) :
    toPair v ∈ hull vs :=
  subset_convexHull K _ ⟨v, h, rfl⟩

theorem clipWalk_mem (P : b2Vec2 K → Prop) (hP : SegClosed P) (cp1 cp2 : b2Vec2 K) :
    ∀ (L : List (b2Vec2 K)) (s : b2Vec2 K), P s → (∀ v ∈ L, P v) →
      ∀ p ∈ clipWalk cp1 cp2 s L, P p := by
  intro L
  induction L with
  | nil => intro s _ _ p hp; simp [clipWalk] at hp
  | cons e rest ih =>
    intro s hs hL p hp
    have he : P e := hL e (List.mem_cons_self _ _)
    have hrest : ∀ v ∈ rest, P v := fun v hv => hL v (List.mem_cons_of_mem _ hv)
    have hI : Inside cp1 cp2 s ≠ Inside cp1 cp2 e → P (Intersection cp1 cp2 s e) := by
      intro hne
      obtain ⟨t, ht0, ht1, heq, _⟩ := Intersection_segment cp1 cp2 s e hne
      rw [heq]
      exact hP s e t ht0 ht1 hs he
    simp only [clipWalk, List.mem_append] at hp
    rcases hp with hp | hp
    · cases hie : Inside cp1 cp2 e <;> cases his : Inside cp1 cp2 s <;>
        simp [hie, his] at hp
      · subst hp; exact hI (by simp [hie, his])
      · rcases hp with hp | hp
        · subst hp; exact hI (by simp [hie, his])
        · subst hp; exact he
      · subst hp; exact he
    · exact ih e he hrest p hp

theorem clipWalk_inner (cp1 cp2 : b2Vec2 K) :
    ∀ (L : List (b2Vec2 K)) (s : b2Vec2 K), ∀ p ∈ clipWalk cp1 cp2 s L,
      OnInnerSide cp1 cp2 p := by
  intro L
  induction L with
  | nil => intro s p hp; simp [clipWalk] at hp
  | cons e rest ih =>
    intro s p hp
    have hI : Inside cp1 cp2 s ≠ Inside cp1 cp2 e →
        OnInnerSide cp1 cp2 (Intersection cp1 cp2 s e) := by
      intro hne
      obtain ⟨t, _, _, _, h0⟩ := Intersection_segment cp1 cp2 s e hne
      rw [OnInnerSide_iff, h0]
    have hin : Inside cp1 cp2 e = true → OnInnerSide cp1 cp2 e := by
      intro h
      rw [OnInnerSide_iff]
      exact le_of_lt ((Inside_iff _ _ _).1 h)
    simp only [clipWalk, List.mem_append] at hp
    rcases hp with hp | hp
    · cases hie : Inside cp1 cp2 e <;> cases his : Inside cp1 cp2 s <;>
        simp [hie, his] at hp
      · subst hp; exact hI (by simp [hie, his])
      · rcases hp with hp | hp
        · subst hp; exact hI (by simp [hie, his])
        · subst hp; exact hin hie
      · subst hp; exact hin hie
    · exact ih e p hp

theorem clipLoop_mem (P : b2Vec2 K → Prop) (hP : SegClosed P) :
    ∀ (L : List (b2Vec2 K)) (cp1 : b2Vec2 K) (out : List (b2Vec2 K)), (∀ v ∈ out, P v) →
      ∀ p ∈ (clipLoop cp1 L out).2, P p := by
  intro L
  induction L with
  | nil => intro cp1 out h p hp; exact h p (by simpa [clipLoop] using hp)
  | cons cp2 rest ih =>
    intro cp1 out h p hp
    cases hl : out.getLast? with
    | none => simp only [clipLoop, hl] at hp; exact h p hp
    | some s =>
      simp only [clipLoop, hl] at hp
      have hs : P s := h s (List.mem_of_getLast?_eq_some hl)
      exact ih cp2 _ (clipWalk_mem P hP cp1 cp2 out s hs h) p hp

theorem clipLoop_inner :
    ∀ (L : List (b2Vec2 K)) (cp1 : b2Vec2 K) (out : List (b2Vec2 K)),
      ∀ p ∈ (clipLoop cp1 L out).2, L ≠ [] → out ≠ [] →
      ∀ e ∈ edgesFrom cp1 L, OnInnerSide e.1 e.2 p := by
  intro L
  induction L with
  | nil => intro cp1 out p _ hL; exact absurd rfl hL
  | cons cp2 rest ih =>
    intro cp1 out p hp _ hout e he
    cases hl : out.getLast? with
    | none => exact absurd (List.getLast?_eq_none_iff.1 hl) hout
    | some s =>
      simp only [clipLoop, hl] at hp
      simp only [edgesFrom, List.mem_cons] at he
      rcases he with he | he
      · subst he
        exact clipLoop_mem _ (segClosed_OnInnerSide cp1 cp2) rest cp2 _
          (clipWalk_inner cp1 cp2 out s) p hp
      · cases rest with
        | nil => simp [edgesFrom] at he
        | cons c r =>
          by_cases hw : clipWalk cp1 cp2 s out = []
          · rw [hw] at hp; simp [clipLoop] at hp
          · exact ih cp2 _ p hp (List.cons_ne_nil _ _) hw e he

theorem clipLoop_flag :
    ∀ (L : List (b2Vec2 K)) (cp1 : b2Vec2 K) (out : List (b2Vec2 K)),
      (clipLoop cp1 L out).1 = !(clipLoop cp1 L out).2.isEmpty := by
  intro L
  induction L with
  | nil => intro cp1 out; simp [clipLoop]
  | cons cp2 rest ih =>
    intro cp1 out
    cases hl : out.getLast? with
    | none =>
      have : out = [] := List.getLast?_eq_none_iff.1 hl
      subst this
      simp [clipLoop]
    | some s => simp only [clipLoop, hl]; exact ih cp2 _

/-! ## The edges of a polygon -/

omit [LinearOrderedField K] in
theorem edgesFrom_head_mem (c x : b2Vec2 K) (L : List (b2Vec2 K)) :
    (c, x) ∈ edgesFrom c (x :: L) := by
  simp [edgesFrom]

theorem edgesFrom_consecutive_mem :
    ∀ (L : List (b2Vec2 K)) (c : b2Vec2 K) (i : ℕ), i + 1 < L.length →
      (L.getD i 0, L.getD (i + 1) 0) ∈ edgesFrom c L := by
  intro L
  induction L with
  | nil => intro c i h; simp at h
  | cons x L ih =>
    intro c i h
    cases i with
    | zero =>
      cases L with
      | nil => simp at h
      | cons y L2 => simp [edgesFrom]
    | succ k =>
      have hk : k + 1 < L.length := by simpa using h
      have := ih x k hk
      simp only [edgesFrom, List.mem_cons]
      right
      simpa using this

theorem clipEdges_consecutive_mem (B : List (b2Vec2 K)) (i : ℕ) (h : i + 1 < B.length) :
    (B.getD i 0, B.getD (i + 1) 0) ∈ clipEdges B := by
  unfold clipEdges
  cases hl : B.getLast? with
  | none =>
    have : B = [] := List.getLast?_eq_none_iff.1 hl
    subst this
    simp at h
  | some c => exact edgesFrom_consecutive_mem B c i h

theorem clipEdges_closing_mem (B : List (b2Vec2 K)) (h : 0 < B.length) :
    (B.getD (B.length - 1) 0, B.getD 0 0) ∈ clipEdges B := by
  unfold clipEdges
  cases B with
  | nil => simp at h
  | cons x L =>
    have hl : (x :: L).getLast? = some ((x :: L).getD ((x :: L).length - 1) 0) := by
      rw [List.getLast?_eq_getElem?, List.getD_eq_getElem?_getD]
      have : (x :: L).length - 1 < (x :: L).length := by simp
      rw [List.getElem?_eq_getElem this]
      rfl
    rw [hl]
    exact edgesFrom_head_mem _ x L

theorem vertexAt_of_lt (B : List (b2Vec2 K)) (i : ℕ) (h : i < B.length) :
    vertexAt B i = B.getD i 0 := by
  simp [vertexAt, Nat.mod_eq_of_lt h]

theorem vertexAt_mem (B : List (b2Vec2 K)) (i : ℕ) (h : i < B.length) : vertexAt B i ∈ B := by
  rw [vertexAt_of_lt B i h, List.getD_eq_getElem?_getD, List.getElem?_eq_getElem h]
  exact List.getElem_mem _

theorem clipEdges_vertexAt_mem (B : List (b2Vec2 K)) (i : ℕ) (h : i < B.length) :
    (vertexAt B i, vertexAt B (i + 1)) ∈ clipEdges B := by
  by_cases h1 : i + 1 < B.length
  · rw [vertexAt_of_lt B i h, vertexAt_of_lt B (i + 1) h1]
    exact clipEdges_consecutive_mem B i h1
  · have hi : i = B.length - 1 := by omega
    have h2 : vertexAt B (i + 1) = B.getD 0 0 := by
      have : i + 1 = B.length := by omega
      simp [vertexAt, this]
    rw [vertexAt_of_lt B i h, h2, hi]
    exact clipEdges_closing_mem B (by omega)

theorem convexPolygon_exists_last {C : List (b2Vec2 K)} (hC : ConvexPolygon C) :
    ∃ cp1, C.getLast? = some cp1 := by
  have hn : 3 ≤ C.length := by
    rcases hC with h | h <;> exact h.1
  cases h : C.getLast? with
  | none =>
    have : C = [] := List.getLast?_eq_none_iff.1 h
    subst this
    simp at hn
  | some c => exact ⟨c, rfl⟩

/-! ## Convex combinations -/

theorem segClosed_combo {P : b2Vec2 K → Prop} (hP : SegClosed P) (a b c : b2Vec2 K) (x y : K)
    (hx : 0 ≤ x) (hy : 0 ≤ y) (hxy : x + y ≤ 1) (ha : P a) (hb : P b) (hc : P c) :
    P ⟨a.x + x * (b.x - a.x) + y * (c.x - a.x), a.y + x * (b.y - a.y) + y * (c.y - a.y)⟩ := by
  rcases eq_or_lt_of_le (add_nonneg hx hy) with h0 | hpos
  · have hx0 : x = 0 := by linarith
    have hy0 : y = 0 := by linarith
    subst hx0 hy0
    simpa using ha
  · have hq := hP b c (y / (x + y)) (div_nonneg hy (le_of_lt hpos))
      ((div_le_one hpos).2 (by linarith)) hb hc
    have hp := hP a _ (x + y) (le_of_lt hpos) hxy ha hq
    have hne : x + y ≠ 0 := ne_of_gt hpos
    have e1 : a.x + (x + y) * (b.x + y / (x + y) * (c.x - b.x) - a.x)
        = a.x + x * (b.x - a.x) + y * (c.x - a.x) := by
      field_simp
      ring
    have e2 : a.y + (x + y) * (b.y + y / (x + y) * (c.y - b.y) - a.y)
        = a.y + x * (b.y - a.y) + y * (c.y - a.y) := by
      field_simp
      ring
    simpa only [e1, e2] using hp

/-- A point on the left of the two rays from `a` bounding the triangle
`a, b, c` and on the inner side of the edge from `b` to `c` is a convex
combination of the three corners. -/
theorem segClosed_triangle {P : b2Vec2 K → Prop} (hP : SegClosed P) (a b c p : b2Vec2 K)
    (hD : 0 < b2Cross (b - a) (c - a))
    (hα : 0 ≤ b2Cross (b - a) (p - a)) (hβ : b2Cross (c - a) (p - a) ≤ 0)
    (hγ : 0 ≤ b2Cross (c - b) (p - b))
    (ha : P a) (hb : P b) (hc : P c) : P p := by
  set D := b2Cross (b - a) (c - a) with hDdef
  set α := b2Cross (b - a) (p - a) with hαdef
  set β := b2Cross (c - a) (p - a) with hβdef
  have hγ2 : b2Cross (c - b) (p - b) = D + β - α := by
    simp only [hDdef, hαdef, hβdef, b2Cross, b2Vec2.sub_x, b2Vec2.sub_y]; ring
  have hne : D ≠ 0 := ne_of_gt hD
  have h := segClosed_combo hP a b c (-β / D) (α / D) (div_nonneg (by linarith) (le_of_lt hD))
    (div_nonneg hα (le_of_lt hD))
    (by rw [← add_div, div_le_one hD]; linarith) ha hb hc
  have ex : a.x + -β / D * (b.x - a.x) + α / D * (c.x - a.x) = p.x := by
    field_simp
    simp only [hDdef, hαdef, hβdef, b2Cross, b2Vec2.sub_x, b2Vec2.sub_y]; ring
  have ey : a.y + -β / D * (b.y - a.y) + α / D * (c.y - a.y) = p.y := by
    field_simp
    simp only [hDdef, hαdef, hβdef, b2Cross, b2Vec2.sub_x, b2Vec2.sub_y]; ring
  rw [ex, ey] at h
  exact h

theorem hull_subset_of_forall (vs : List (b2Vec2 K)) (t : Set (K × K)) (ht : Convex K t)
    (h : ∀ v ∈ vs, toPair v ∈ t) : hull vs ⊆ t := by
  apply convexHull_min _ ht
  rintro q ⟨v, hv, rfl⟩
  exact h v hv

/-- An affine function that is positive at every vertex is positive on the
hull. -/
theorem hull_pos (B : List (b2Vec2 K)) (a b c : K)
    (h : ∀ v ∈ B, 0 < a * v.x + b * v.y + c) (q : b2Vec2 K) (hq : toPair q ∈ hull B) :
    0 < a * q.x + b * q.y + c := by
  have hconv : Convex K {w : K × K | -c < a * w.1 + b * w.2} := by
    apply convex_halfSpace_gt
    exact IsLinearMap.mk (fun x y => by simp only [Prod.fst_add, Prod.snd_add]; ring)
      (fun t x => by simp only [Prod.smul_fst, Prod.smul_snd, smul_eq_mul]; ring)
  have hsub := hull_subset_of_forall B _ hconv (fun v hv => by
    have := h v hv
    simp only [toPair, Set.mem_setOf_eq]
    linarith)
  have := hsub hq
  simp only [toPair, Set.mem_setOf_eq] at this
  linarith

/-! ## Signs around a polygon -/

theorem cyc_sign_change (d : ℕ → K) (n : ℕ) (hpos : ¬ ∀ i < n, 0 < d i)
    (hneg : ¬ ∀ i < n, d i < 0) :
    ∃ i, i < n ∧ 0 ≤ d i ∧ d ((i + 1) % n) ≤ 0 := by
  by_contra hno
  push_neg at hno hneg
  obtain ⟨j, hj, hdj⟩ := hneg
  have hn : 0 < n := by omega
  have step : ∀ k : ℕ, 0 ≤ d ((j + k) % n) ∧ (1 ≤ k → 0 < d ((j + k) % n)) := by
    intro k
    induction k with
    | zero =>
      refine ⟨?_, fun h => absurd h (by omega)⟩
      rw [Nat.add_zero, Nat.mod_eq_of_lt hj]
      exact hdj
    | succ k ih =>
      have hlt : (j + k) % n < n := Nat.mod_lt _ hn
      have := hno ((j + k) % n) hlt ih.1
      have e : ((j + k) % n + 1) % n = (j + (k + 1)) % n := by
        rw [Nat.mod_add_mod, Nat.add_assoc]
      rw [e] at this
      exact ⟨le_of_lt this, fun _ => this⟩
  apply hpos
  intro i hi
  have := (step (i + n - j)).2 (by omega)
  have e : (j + (i + n - j)) % n = i := by
    have : j + (i + n - j) = i + n := by omega
    rw [this, Nat.add_mod_right, Nat.mod_eq_of_lt hi]
  rwa [e] at this

theorem cyc_increasing_false (d : ℕ → K) (n : ℕ) (hn : 0 < n)
    (h : ∀ i < n, d i < d ((i + 1) % n)) : False := by
  have step : ∀ k : ℕ, k < n → d 0 ≤ d k := by
    intro k
    induction k with
    | zero => intro _; exact le_refl _
    | succ k ih =>
      intro hk
      have := h k (by omega)
      rw [Nat.mod_eq_of_lt hk] at this
      exact le_trans (ih (by omega)) (le_of_lt this)
  have h1 := h (n - 1) (by omega)
  have e : (n - 1 + 1) % n = 0 := by
    have : n - 1 + 1 = n := by omega
    rw [this, Nat.mod_self]
  rw [e] at h1
  have h2 := step (n - 1) (by omega)
  exact absurd h1 (not_lt.2 h2)

/-! ## The half-planes of a convex polygon -/

theorem segClosed_weaklyOnSide (σ : K) (B : List (b2Vec2 K)) :
    SegClosed (WeaklyOnSide σ B) := by
  intro a b t ht0 ht1 ha hb e he
  have key : σ * b2Cross (e.2 - e.1)
      ((⟨a.x + t * (b.x - a.x), a.y + t * (b.y - a.y)⟩ : b2Vec2 K) - e.1)
      = (1 - t) * (σ * b2Cross (e.2 - e.1) (a - e.1)) + t * (σ * b2Cross (e.2 - e.1) (b - e.1)) := by
    simp only [b2Cross, b2Vec2.sub_x, b2Vec2.sub_y]; ring
  rw [key]
  have h1 := mul_nonneg (show (0 : K) ≤ 1 - t by linarith) (ha e he)
  have h2 := mul_nonneg ht0 (hb e he)
  linarith

theorem openSeg_onSide (σ : K) (B : List (b2Vec2 K)) :
    OpenSeg (WeaklyOnSide σ B) (StrictlyOnSide σ B) := by
  intro w q t ht0 ht1 hw hq e he
  have key : σ * b2Cross (e.2 - e.1)
      ((⟨w.x + t * (q.x - w.x), w.y + t * (q.y - w.y)⟩ : b2Vec2 K) - e.1)
      = (1 - t) * (σ * b2Cross (e.2 - e.1) (w - e.1)) + t * (σ * b2Cross (e.2 - e.1) (q - e.1)) := by
    simp only [b2Cross, b2Vec2.sub_x, b2Vec2.sub_y]; ring
  rw [key]
  have h1 := mul_nonneg (show (0 : K) ≤ 1 - t by linarith) (hw e he)
  have h2 := mul_pos ht0 (hq e he)
  linarith

/-- A polygon all of whose vertices are weakly on the `σ` side of every edge,
with a vertex strictly on that side for every edge, has a point of its hull
strictly on the `σ` side of every edge. -/
theorem exists_interior (σ : K) (B : List (b2Vec2 K)) (hne : B ≠ [])
    (hW : ∀ e ∈ clipEdges B, ∀ v ∈ B, 0 ≤ σ * b2Cross (e.2 - e.1) (v - e.1))
    (hS : ∀ e ∈ clipEdges B, ∃ v ∈ B, 0 < σ * b2Cross (e.2 - e.1) (v - e.1)) :
    ∃ q, toPair q ∈ hull B ∧ StrictlyOnSide σ B q := by
  have hvW : ∀ v ∈ B, WeaklyOnSide σ B v := fun v hv e he => hW e he v hv
  have main : ∀ E : List (b2Vec2 K × b2Vec2 K), (∀ e ∈ E, e ∈ clipEdges B) →
      ∃ q, toPair q ∈ hull B ∧ WeaklyOnSide σ B q ∧
        ∀ e ∈ E, 0 < σ * b2Cross (e.2 - e.1) (q - e.1) := by
    intro E
    induction E with
    | nil =>
      intro _
      obtain ⟨v, hv⟩ := List.exists_mem_of_ne_nil B hne
      exact ⟨v, mem_hull_of_mem hv, hvW v hv, by simp⟩
    | cons e E ih =>
      intro hE
      obtain ⟨q, hqH, hqW, hqS⟩ := ih (fun e' he' => hE e' (List.mem_cons_of_mem _ he'))
      have heB : e ∈ clipEdges B := hE e (List.mem_cons_self _ _)
      obtain ⟨v, hv, hvS⟩ := hS e heB
      have half0 : (0 : K) ≤ 1 / 2 := by norm_num
      have half1 : (1 / 2 : K) ≤ 1 := by norm_num
      refine ⟨⟨q.x + 1 / 2 * (v.x - q.x), q.y + 1 / 2 * (v.y - q.y)⟩,
        segClosed_hull B q v (1 / 2) half0 half1 hqH (mem_hull_of_mem hv),
        segClosed_weaklyOnSide σ B q v (1 / 2) half0 half1 hqW (hvW v hv), ?_⟩
      intro e' he'
      have key : σ * b2Cross (e'.2 - e'.1)
          ((⟨q.x + 1 / 2 * (v.x - q.x), q.y + 1 / 2 * (v.y - q.y)⟩ : b2Vec2 K) - e'.1)
          = (σ * b2Cross (e'.2 - e'.1) (q - e'.1) + σ * b2Cross (e'.2 - e'.1) (v - e'.1)) / 2 := by
        simp only [b2Cross, b2Vec2.sub_x, b2Vec2.sub_y]; ring
      rw [key]
      apply div_pos _ (by norm_num : (0 : K) < 2)
      rcases List.mem_cons.1 he' with rfl | h
      · have := hqW e' heB
        linarith
      · have h1 := hqS e' h
        have h2 := hvW v hv e' (hE e' he')
        linarith
  obtain ⟨q, hqH, _, hqS⟩ := main (clipEdges B) (fun e he => he)
  exact ⟨q, hqH, hqS⟩

/-- A point on the inner side of every edge of a convex polygon listed
counter-clockwise is in the hull of its vertices. -/
theorem inner_subset_hull (B : List (b2Vec2 K)) (hB : ConvexCCW B) (p : b2Vec2 K)
    (hp : ∀ e ∈ clipEdges B, OnInnerSide e.1 e.2 p) : toPair p ∈ hull B := by
  obtain ⟨hn, hW, hS⟩ := hB
  have hne : B ≠ [] := by
    intro h; subst h; simp at hn
  obtain ⟨q, hqH, hqS⟩ := exists_interior 1 B hne (fun e he v hv => by simpa using hW e he v hv)
    (fun e he => by simpa using hS e he)
  have hvert : ∀ v ∈ B, ∃ i, i < B.length ∧ vertexAt B i = v := by
    intro v hv
    obtain ⟨j, hj, rfl⟩ := List.getElem_of_mem hv
    refine ⟨j, hj, ?_⟩
    rw [vertexAt_of_lt B j hj, List.getD_eq_getElem?_getD, List.getElem?_eq_getElem hj]
    rfl
  have hpos : ¬ ∀ i < B.length, 0 < b2Cross (vertexAt B i - q) (p - q) := by
    intro hall
    have := hull_pos B (p.y - q.y) (-(p.x - q.x)) (-(q.x * (p.y - q.y)) + q.y * (p.x - q.x))
      (fun v hv => by
        obtain ⟨i, hi, rfl⟩ := hvert v hv
        have := hall i hi
        simp only [b2Cross, b2Vec2.sub_x, b2Vec2.sub_y] at this
        linarith) q hqH
    linarith
  have hneg : ¬ ∀ i < B.length, b2Cross (vertexAt B i - q) (p - q) < 0 := by
    intro hall
    have := hull_pos B (-(p.y - q.y)) (p.x - q.x) (q.x * (p.y - q.y) - q.y * (p.x - q.x))
      (fun v hv => by
        obtain ⟨i, hi, rfl⟩ := hvert v hv
        have := hall i hi
        simp only [b2Cross, b2Vec2.sub_x, b2Vec2.sub_y] at this
        linarith) q hqH
    linarith
  obtain ⟨i, hi, hα, hβ⟩ :=
    cyc_sign_change (fun i => b2Cross (vertexAt B i - q) (p - q)) B.length hpos hneg
  have hβ2 : b2Cross (vertexAt B (i + 1) - q) (p - q) ≤ 0 := by
    have e : vertexAt B ((i + 1) % B.length) = vertexAt B (i + 1) := by
      simp [vertexAt]
    simpa only [e] using hβ
  have hedge := clipEdges_vertexAt_mem B i hi
  have hD : 0 < b2Cross (vertexAt B i - q) (vertexAt B (i + 1) - q) := by
    have := hqS _ hedge
    simp only [b2Cross, b2Vec2.sub_x, b2Vec2.sub_y] at this ⊢
    linarith
  have hγ : 0 ≤ b2Cross (vertexAt B (i + 1) - vertexAt B i) (p - vertexAt B i) :=
    (OnInnerSide_iff _ _ _).1 (hp _ hedge)
  have hm : (i + 1) % B.length < B.length := Nat.mod_lt _ (by omega)
  have hc : toPair (vertexAt B (i + 1)) ∈ hull B := by
    have e : vertexAt B (i + 1) = vertexAt B ((i + 1) % B.length) := by
      simp [vertexAt]
    rw [e]
    exact mem_hull_of_mem (vertexAt_mem B _ hm)
  exact segClosed_triangle (segClosed_hull B) q (vertexAt B i) (vertexAt B (i + 1)) p hD hα hβ2
    hγ hqH (mem_hull_of_mem (vertexAt_mem B i hi)) hc

/-- No point is on the inner side of every edge of a convex polygon listed
clockwise. -/
theorem inner_empty_of_cw (B : List (b2Vec2 K)) (hB : ConvexCW B) (p : b2Vec2 K)
    (hp : ∀ e ∈ clipEdges B, OnInnerSide e.1 e.2 p) : False := by
  obtain ⟨hn, hW, hS⟩ := hB
  have hne : B ≠ [] := by
    intro h; subst h; simp at hn
  obtain ⟨q, _, hqS⟩ := exists_interior (-1) B hne
    (fun e he v hv => by have := hW e he v hv; linarith)
    (fun e he => by
      obtain ⟨v, hv, h⟩ := hS e he
      exact ⟨v, hv, by linarith⟩)
  apply cyc_increasing_false (fun i => b2Cross (vertexAt B i - q) (p - q)) B.length (by omega)
  intro i hi
  have hedge := clipEdges_vertexAt_mem B i hi
  have h1 := hqS _ hedge
  have h2 := (OnInnerSide_iff _ _ _).1 (hp _ hedge)
  have e : vertexAt B ((i + 1) % B.length) = vertexAt B (i + 1) := by
    simp [vertexAt]
  simp only [e]
  simp only [b2Cross, b2Vec2.sub_x, b2Vec2.sub_y] at h1 h2 ⊢
  linarith

/-! ## The clipper on polygons that do not overlap -/

theorem FindIntersectionOfFixtures_eq_clipLoop [FloorRing K] (m : Libm K) (fA fB : b2Fixture K)
    (S C : List (b2Vec2 K)) (cp1 : b2Vec2 K)
    (hA : fillVertices m fA [] = some S) (hB : fillVertices m fB [] = some C)
    (hl : C.getLast? = some cp1) :
    FindIntersectionOfFixtures m fA fB [] = clipLoop cp1 C S := by
  simp only [FindIntersectionOfFixtures, hA, hB, hl]

theorem clipLoop_nil_out (L : List (b2Vec2 K)) (cp1 : b2Vec2 K) :
    clipLoop cp1 L [] = (false, []) := by
  cases L <;> simp [clipLoop]

/-- Every point the clipping loop leaves is in the hull of the subject and on
the inner side of every clip edge. -/
theorem clipLoop_output (C S : List (b2Vec2 K)) (cp1 : b2Vec2 K)
    (hl : C.getLast? = some cp1) (p : b2Vec2 K) (hp : p ∈ (clipLoop cp1 C S).2) :
    (∀ e ∈ clipEdges C, OnInnerSide e.1 e.2 p) ∧ toPair p ∈ hull S := by
  have hC : C ≠ [] := by
    intro h; subst h; simp at hl
  have hS : S ≠ [] := by
    intro h; subst h; rw [clipLoop_nil_out] at hp; simp at hp
  refine ⟨?_, ?_⟩
  · simp only [clipEdges, hl]
    exact clipLoop_inner C cp1 S p hp hC hS
  · exact clipLoop_mem _ (segClosed_hull S) C cp1 S (fun v hv => mem_hull_of_mem hv) p hp

theorem clipWalk_nonempty (cp1 cp2 : b2Vec2 K) :
    ∀ (L : List (b2Vec2 K)) (s : b2Vec2 K), clipWalk cp1 cp2 s L ≠ [] →
      Inside cp1 cp2 s = true ∨ ∃ w ∈ L, Inside cp1 cp2 w = true := by
  intro L
  induction L with
  | nil => intro s h; simp [clipWalk] at h
  | cons e rest ih =>
    intro s h
    cases hie : Inside cp1 cp2 e
    · cases his : Inside cp1 cp2 s
      · simp only [clipWalk, hie, his, Bool.false_eq_true, if_false, List.nil_append] at h
        rcases ih e h with h1 | ⟨w, hw, hw2⟩
        · rw [hie] at h1; exact absurd h1 (by simp)
        · exact Or.inr ⟨w, List.mem_cons_of_mem _ hw, hw2⟩
      · exact Or.inl rfl
    · exact Or.inr ⟨e, List.mem_cons_self _ _, hie⟩

/-- From a point of `P` strictly inside a clip edge and a point of `Q`, a point
of `Q` strictly inside that clip edge. -/
theorem strict_step {P Q : b2Vec2 K → Prop} (hPQ : OpenSeg P Q) (cp1 cp2 w q : b2Vec2 K)
    (hw : P w) (hwi : Inside cp1 cp2 w = true) (hq : Q q) :
    ∃ q2, Q q2 ∧ Inside cp1 cp2 q2 = true := by
  rw [Inside_iff] at hwi
  rcases lt_or_le 0 (b2Cross (cp2 - cp1) (q - cp1)) with hpos | hneg
  · exact ⟨q, hq, (Inside_iff _ _ _).2 hpos⟩
  · set fw := b2Cross (cp2 - cp1) (w - cp1) with hfw
    set fq := b2Cross (cp2 - cp1) (q - cp1) with hfq
    have hden : 0 < 2 * (fw - fq) := by linarith
    have ht0 : 0 < fw / (2 * (fw - fq)) := div_pos hwi hden
    have ht1 : fw / (2 * (fw - fq)) ≤ 1 := by
      rw [div_le_one hden]; linarith
    refine ⟨_, hPQ w q _ ht0 ht1 hw hq, ?_⟩
    rw [Inside_iff]
    have key : b2Cross (cp2 - cp1)
        ((⟨w.x + fw / (2 * (fw - fq)) * (q.x - w.x),
          w.y + fw / (2 * (fw - fq)) * (q.y - w.y)⟩ : b2Vec2 K) - cp1)
        = fw + fw / (2 * (fw - fq)) * (fq - fw) := by
      simp only [hfw, hfq, b2Cross, b2Vec2.sub_x, b2Vec2.sub_y]; ring
    rw [key]
    have : fw / (2 * (fw - fq)) * (fq - fw) = -(fw / 2) := by
      field_simp
      ring
    rw [this]
    linarith

theorem clipLoop_interior :
    ∀ (L : List (b2Vec2 K)) (P Q : b2Vec2 K → Prop), SegClosed P → OpenSeg P Q →
      ∀ (cp1 : b2Vec2 K) (out : List (b2Vec2 K)), (∀ v ∈ out, P v) → (∃ q, Q q) →
        (clipLoop cp1 L out).2 ≠ [] →
        ∃ q, Q q ∧ ∀ e ∈ edgesFrom cp1 L, Inside e.1 e.2 q = true := by
  intro L
  induction L with
  | nil =>
    intro P Q _ _ cp1 out _ hq _
    obtain ⟨q, hq⟩ := hq
    exact ⟨q, hq, by simp [edgesFrom]⟩
  | cons cp2 rest ih =>
    intro P Q hP hPQ cp1 out hout hq hne
    obtain ⟨q, hq⟩ := hq
    cases hl : out.getLast? with
    | none =>
      have : out = [] := List.getLast?_eq_none_iff.1 hl
      subst this
      simp [clipLoop] at hne
    | some s =>
      simp only [clipLoop, hl] at hne
      have hs : s ∈ out := List.mem_of_getLast?_eq_some hl
      have hwalk : clipWalk cp1 cp2 s out ≠ [] := by
        intro h0
        rw [h0, clipLoop_nil_out] at hne
        exact hne rfl
      obtain ⟨w, hwmem, hwi⟩ : ∃ w ∈ out, Inside cp1 cp2 w = true := by
        rcases clipWalk_nonempty cp1 cp2 out s hwalk with h | ⟨w, hw, hw2⟩
        · exact ⟨s, hs, h⟩
        · exact ⟨w, hw, hw2⟩
      obtain ⟨q2, hq2, hq2i⟩ := strict_step hPQ cp1 cp2 w q (hout w hwmem) hwi hq
      have hP2 : SegClosed (fun p => P p ∧ OnInnerSide cp1 cp2 p) := by
        intro a b t ht0 ht1 ha hb
        exact ⟨hP a b t ht0 ht1 ha.1 hb.1, segClosed_OnInnerSide cp1 cp2 a b t ht0 ht1 ha.2 hb.2⟩
      have hPQ2 : OpenSeg (fun p => P p ∧ OnInnerSide cp1 cp2 p)
          (fun p => Q p ∧ Inside cp1 cp2 p = true) := by
        intro a b t ht0 ht1 ha hb
        refine ⟨hPQ a b t ht0 ht1 ha.1 hb.1, ?_⟩
        have h1 := (OnInnerSide_iff _ _ _).1 ha.2
        have h2 := (Inside_iff _ _ _).1 hb.2
        rw [Inside_iff]
        have key : b2Cross (cp2 - cp1)
            ((⟨a.x + t * (b.x - a.x), a.y + t * (b.y - a.y)⟩ : b2Vec2 K) - cp1)
            = (1 - t) * b2Cross (cp2 - cp1) (a - cp1) + t * b2Cross (cp2 - cp1) (b - cp1) := by
          simp only [b2Cross, b2Vec2.sub_x, b2Vec2.sub_y]; ring
        rw [key]
        have h3 := mul_nonneg (show (0 : K) ≤ 1 - t by linarith) h1
        have h4 := mul_pos ht0 h2
        linarith
      have hout2 : ∀ v ∈ clipWalk cp1 cp2 s out, P v ∧ OnInnerSide cp1 cp2 v := fun v hv =>
        ⟨clipWalk_mem P hP cp1 cp2 out s (hout s hs) hout v hv,
          clipWalk_inner cp1 cp2 out s v hv⟩
      obtain ⟨q3, ⟨hq3, hq3i⟩, hq3e⟩ := ih _ _ hP2 hPQ2 cp2 _ hout2 ⟨q2, hq2, hq2i⟩ hne
      refine ⟨q3, hq3, ?_⟩
      intro e he
      simp only [edgesFrom, List.mem_cons] at he
      rcases he with rfl | he
      · exact hq3i
      · exact hq3e e he

/-- With a convex subject and a convex clip polygon that have no point
strictly inside both, the clipper returns `false` and an empty output. -/
theorem FindIntersectionOfFixtures_touching [FloorRing K] (m : Libm K) (fA fB : b2Fixture K)
    (S C : List (b2Vec2 K))
    (hA : fillVertices m fA [] = some S) (hB : fillVertices m fB [] = some C)
    (hS : ConvexPolygon S) (hC : ConvexPolygon C)
    (hno : ∀ q, ¬ (StrictlyInside S q ∧ StrictlyInside C q)) :
    FindIntersectionOfFixtures m fA fB [] = (false, []) := by
  obtain ⟨cp1, hl⟩ := convexPolygon_exists_last hC
  rw [FindIntersectionOfFixtures_eq_clipLoop m fA fB S C cp1 hA hB hl]
  have hflag := clipLoop_flag C cp1 S
  cases hout : (clipLoop cp1 C S).2 with
  | nil =>
    refine Prod.ext ?_ hout
    rw [hflag, hout]; rfl
  | cons p rest =>
    exfalso
    have hne : (clipLoop cp1 C S).2 ≠ [] := by rw [hout]; exact List.cons_ne_nil _ _
    rcases hC with hccw | hcw
    · have main : ∀ σ : K, (σ = 1 ∨ σ = -1) → S ≠ [] →
          (∀ e ∈ clipEdges S, ∀ v ∈ S, 0 ≤ σ * b2Cross (e.2 - e.1) (v - e.1)) →
          (∀ e ∈ clipEdges S, ∃ v ∈ S, 0 < σ * b2Cross (e.2 - e.1) (v - e.1)) → False := by
        intro σ hσ hSne hW hSt
        obtain ⟨q0, _, hq0⟩ := exists_interior σ S hSne hW hSt
        obtain ⟨q, hq, hqe⟩ := clipLoop_interior C _ _ (segClosed_weaklyOnSide σ S)
          (openSeg_onSide σ S) cp1 S (fun v hv e he => hW e he v hv) ⟨q0, hq0⟩ hne
        refine hno q ⟨?_, Or.inl ?_⟩
        · rcases hσ with rfl | rfl
          · exact Or.inl hq
          · exact Or.inr hq
        · intro e he
          simp only [clipEdges, hl] at he
          have := (Inside_iff _ _ _).1 (hqe e he)
          simpa using this
      have hSne : S ≠ [] := by
        obtain ⟨c, hc⟩ := convexPolygon_exists_last hS
        intro h; subst h; simp at hc
      rcases hS with h | h
      · exact main 1 (Or.inl rfl) hSne (fun e he v hv => by simpa using h.2.1 e he v hv)
          (fun e he => by simpa using h.2.2 e he)
      · exact main (-1) (Or.inr rfl) hSne
          (fun e he v hv => by have := h.2.1 e he v hv; linarith)
          (fun e he => by
            obtain ⟨v, hv, h3⟩ := h.2.2 e he
            exact ⟨v, hv, by linarith⟩)
    · have hp : p ∈ (clipLoop cp1 C S).2 := by rw [hout]; exact List.mem_cons_self _ _
      exact inner_empty_of_cw C hcw p (clipLoop_output C S cp1 hl p hp).1

/-- With a convex clip polygon whose hull has no point in common with the
hull of the subject, the clipper returns `false` and an empty output. -/
theorem FindIntersectionOfFixtures_disjoint [FloorRing K] (m : Libm K) (fA fB : b2Fixture K)
    (S C : List (b2Vec2 K))
    (hA : fillVertices m fA [] = some S) (hB : fillVertices m fB [] = some C)
    (hC : ConvexPolygon C) (hdis : Disjoint (hull S) (hull C)) :
    FindIntersectionOfFixtures m fA fB [] = (false, []) := by
  obtain ⟨cp1, hl⟩ := convexPolygon_exists_last hC
  rw [FindIntersectionOfFixtures_eq_clipLoop m fA fB S C cp1 hA hB hl]
  have hflag := clipLoop_flag C cp1 S
  cases hout : (clipLoop cp1 C S).2 with
  | nil =>
    refine Prod.ext ?_ hout
    rw [hflag, hout]; rfl
  | cons p rest =>
    exfalso
    have hp : p ∈ (clipLoop cp1 C S).2 := by rw [hout]; exact List.mem_cons_self _ _
    obtain ⟨hin, hS⟩ := clipLoop_output C S cp1 hl p hp
    rcases hC with hccw | hcw
    · exact Set.disjoint_left.1 hdis hS (inner_subset_hull C hccw p hin)
    · exact inner_empty_of_cw C hcw p hin

theorem FindIntersectionOfFixtures_doNotOverlap [FloorRing K] (m : Libm K)
    (fA fB : b2Fixture K) (S C : List (b2Vec2 K))
    (hA : fillVertices m fA [] = some S) (hB : fillVertices m fB [] = some C)
    (hC : ConvexPolygon C) (h : DoNotOverlap S C) :
    FindIntersectionOfFixtures m fA fB [] = (false, []) := by
  rcases h with h | ⟨hS, hno⟩
  · exact FindIntersectionOfFixtures_disjoint m fA fB S C hA hB hC h
  · exact FindIntersectionOfFixtures_touching m fA fB S C hA hB hS hC hno

/-! ## The squares of the evaluations -/

/-- An axis-parallel square listed counter-clockwise from its lower left
corner is a convex polygon. -/
theorem convexCCW_square (x y w : K) (hw : 0 < w) :
    ConvexCCW [(⟨x, y⟩ : b2Vec2 K), ⟨x + w, y⟩, ⟨x + w, y + w⟩, ⟨x, y + w⟩] := by
  have hsq : 0 < w * w := mul_pos hw hw
  have he : clipEdges [(⟨x, y⟩ : b2Vec2 K), ⟨x + w, y⟩, ⟨x + w, y + w⟩, ⟨x, y + w⟩] =
      [(⟨x, y + w⟩, ⟨x, y⟩), (⟨x, y⟩, ⟨x + w, y⟩), (⟨x + w, y⟩, ⟨x + w, y + w⟩),
        (⟨x + w, y + w⟩, ⟨x, y + w⟩)] := by
    simp [clipEdges, edgesFrom]
  refine ⟨by simp, ?_, ?_⟩
  · intro e he2 v hv
    rw [he] at he2
    simp only [List.mem_cons, List.mem_singleton, List.not_mem_nil, or_false] at he2 hv
    rcases he2 with rfl | rfl | rfl | rfl <;> rcases hv with rfl | rfl | rfl | rfl <;>
      simp only [b2Cross, b2Vec2.sub_x, b2Vec2.sub_y] <;> nlinarith
  · intro e he2
    rw [he] at he2
    simp only [List.mem_cons, List.mem_singleton, List.not_mem_nil, or_false] at he2
    rcases he2 with rfl | rfl | rfl | rfl
    · exact ⟨⟨x + w, y⟩, by simp, by simp only [b2Cross, b2Vec2.sub_x, b2Vec2.sub_y]; nlinarith⟩
    · exact ⟨⟨x, y + w⟩, by simp, by simp only [b2Cross, b2Vec2.sub_x, b2Vec2.sub_y]; nlinarith⟩
    · exact ⟨⟨x, y⟩, by simp, by simp only [b2Cross, b2Vec2.sub_x, b2Vec2.sub_y]; nlinarith⟩
    · exact ⟨⟨x, y⟩, by simp, by simp only [b2Cross, b2Vec2.sub_x, b2Vec2.sub_y]; nlinarith⟩

theorem convexPolygon_square (x y w : K) (hw : 0 < w) :
    ConvexPolygon [(⟨x, y⟩ : b2Vec2 K), ⟨x + w, y⟩, ⟨x + w, y + w⟩, ⟨x, y + w⟩] :=
  Or.inl (convexCCW_square x y w hw)

theorem convexPolygon_unitSquare : ConvexPolygon (unitSquare : List (b2Vec2 K)) := by
  have := convexPolygon_square (0 : K) 0 1 one_pos
  simpa [unitSquare] using this

theorem convexPolygon_touchingSquare : ConvexPolygon (touchingSquare : List (b2Vec2 K)) := by
  have := convexPolygon_square (1 : K) 0 1 one_pos
  norm_num at this
  simpa [touchingSquare] using this

theorem convexPolygon_farSquare : ConvexPolygon (farSquare : List (b2Vec2 K)) := by
  have := convexPolygon_square (2 : K) 0 1 one_pos
  norm_num at this
  simpa [farSquare] using this

theorem disjoint_unitSquare_farSquare :
    Disjoint (hull (unitSquare : List (b2Vec2 K))) (hull (farSquare : List (b2Vec2 K))) := by
  have h1 : hull (unitSquare : List (b2Vec2 K)) ⊆ {q | q.1 ≤ 1} := by
    apply hull_subset_of_forall _ _ (convex_halfSpace_le (IsLinearMap.mk (fun _ _ => rfl)
      (fun _ _ => rfl)) 1)
    intro v hv
    simp only [unitSquare, List.mem_cons, List.mem_singleton, List.not_mem_nil, or_false] at hv
    rcases hv with rfl | rfl | rfl | rfl <;> simp [toPair]
  have h2 : hull (farSquare : List (b2Vec2 K)) ⊆ {q | 2 ≤ q.1} := by
    apply hull_subset_of_forall _ _ (convex_halfSpace_ge (IsLinearMap.mk (fun _ _ => rfl)
      (fun _ _ => rfl)) 2)
    intro v hv
    simp only [farSquare, List.mem_cons, List.mem_singleton, List.not_mem_nil, or_false] at hv
    rcases hv with rfl | rfl | rfl | rfl <;> norm_num [toPair]
  rw [Set.disjoint_left]
  intro q hq1 hq2
  have a1 : q.1 ≤ 1 := h1 hq1
  have a2 : 2 ≤ q.1 := h2 hq2
  linarith

theorem doNotOverlap_unitSquare_touchingSquare :
    DoNotOverlap (unitSquare : List (b2Vec2 K)) touchingSquare := by
  refine Or.inr ⟨convexPolygon_unitSquare, ?_⟩
  rintro q ⟨h1, h2⟩
  have e1 : clipEdges (unitSquare : List (b2Vec2 K)) =
      [(⟨0, 1⟩, ⟨0, 0⟩), (⟨0, 0⟩, ⟨1, 0⟩), (⟨1, 0⟩, ⟨1, 1⟩), (⟨1, 1⟩, ⟨0, 1⟩)] := by
    simp [clipEdges, unitSquare, edgesFrom]
  have e2 : clipEdges (touchingSquare : List (b2Vec2 K)) =
      [(⟨1, 1⟩, ⟨1, 0⟩), (⟨1, 0⟩, ⟨2, 0⟩), (⟨2, 0⟩, ⟨2, 1⟩), (⟨2, 1⟩, ⟨1, 1⟩)] := by
    simp [clipEdges, touchingSquare, edgesFrom]
  have hx1 : q.x < 1 := by
    rcases h1 with h | h
    · have := h (⟨1, 0⟩, ⟨1, 1⟩) (by rw [e1]; simp)
      simp [b2Cross] at this
      linarith
    · have a := h (⟨0, 0⟩, ⟨1, 0⟩) (by rw [e1]; simp)
      have b := h (⟨1, 1⟩, ⟨0, 1⟩) (by rw [e1]; simp)
      simp [b2Cross] at a b
      linarith
  have hx2 : 1 < q.x := by
    rcases h2 with h | h
    · have := h (⟨1, 1⟩, ⟨1, 0⟩) (by rw [e2]; simp)
      simp [b2Cross] at this
      linarith
    · have a := h (⟨1, 0⟩, ⟨2, 0⟩) (by rw [e2]; simp)
      have b := h (⟨2, 1⟩, ⟨1, 1⟩) (by rw [e2]; simp)
      simp [b2Cross] at a b
      linarith
  linarith

/-! ## `HandleBuoyancy` -/

theorem fillVertices_sinking [FloorRing K] (m : Libm K) (vs out : List (b2Vec2 K)) :
    fillVertices m (sinkingFixture vs) out = some (out ++ vs) := by
  simp [fillVertices, sinkingFixture, sinkingBody]

theorem clipLoop_squares :
    clipLoop (⟨1/2, 3/2⟩ : b2Vec2 K) shiftedSquare unitSquare = (true, overlapSquare) := by
  norm_num [unitSquare, shiftedSquare, overlapSquare, clipLoop, clipWalk, Inside, Intersection]

theorem FindIntersectionOfFixtures_squares [FloorRing K] (m : Libm K) :
    FindIntersectionOfFixtures m (polygonFixture unitSquare) (polygonFixture shiftedSquare) []
      = (true, overlapSquare) := by
  have hl : (shiftedSquare : List (b2Vec2 K)).getLast? = some ⟨1/2, 3/2⟩ := by
    simp [shiftedSquare]
  exact (FindIntersectionOfFixtures_eq_clipLoop m _ _ unitSquare shiftedSquare ⟨1/2, 3/2⟩
    (fillVertices_polygon m unitSquare []) (fillVertices_polygon m shiftedSquare []) hl).trans
    clipLoop_squares

theorem FindIntersectionOfFixtures_sinking [FloorRing K] (m : Libm K) :
    FindIntersectionOfFixtures m (polygonFixture unitSquare) (sinkingFixture shiftedSquare) []
      = (true, overlapSquare) := by
  have hl : (shiftedSquare : List (b2Vec2 K)).getLast? = some ⟨1/2, 3/2⟩ := by
    simp [shiftedSquare]
  exact (FindIntersectionOfFixtures_eq_clipLoop m _ _ unitSquare shiftedSquare ⟨1/2, 3/2⟩
    (fillVertices_polygon m unitSquare []) (fillVertices_sinking m shiftedSquare []) hl).trans
    clipLoop_squares

theorem ComputeCentroid_overlapSquare :
    ComputeCentroid (overlapSquare : List (b2Vec2 K)) = some (⟨3/4, 3/4⟩, 1/4) := by
  norm_num [overlapSquare, ComputeCentroid, List.range_succ, centroidStep, b2Cross, b2_epsilon,
    b2Vec2.mulAssign]

theorem HandleBuoyancy_of_not_found [FloorRing K] (m : Libm K) (fluid fixture : b2Fixture K)
    (gravity : b2Vec2 K) (flipGravity : Bool)
    (density dragMultiplier flowMagnitude flowAngleInRadians : K)
    (h : (FindIntersectionOfFixtures m fluid fixture []).1 = false) :
    HandleBuoyancy m fluid fixture gravity flipGravity density dragMultiplier flowMagnitude
      flowAngleInRadians = some [] := by
  simp [HandleBuoyancy, h]

theorem HandleBuoyancy_of_found [FloorRing K] (m : Libm K) (fluid fixture : b2Fixture K)
    (gravity : b2Vec2 K) (flipGravity : Bool)
    (density dragMultiplier flowMagnitude flowAngleInRadians : K)
    (pts : List (b2Vec2 K)) (centroid : b2Vec2 K) (area : K)
    (hfound : FindIntersectionOfFixtures m fluid fixture [] = (true, pts))
    (hc : ComputeCentroid pts = some (centroid, area)) :
    HandleBuoyancy m fluid fixture gravity flipGravity density dragMultiplier flowMagnitude
      flowAngleInRadians =
      some (ForceCall.ApplyForce
          ((density * area * gravityMultiplierOf flipGravity) * (-gravity)) centroid true ::
        ForceCall.ApplyForceToCenter
          (flowMagnitude * (⟨m.cos flowAngleInRadians, m.sin flowAngleInRadians⟩ : b2Vec2 K))
          true ::
        ((List.range pts.length).map
          (edgeForces m fluid fixture (gravityMultiplierOf flipGravity) density dragMultiplier
            pts)).flatten) := by
  simp [HandleBuoyancy, hfound, hc, gravityMultiplierOf]

theorem fillVertices_none_of_unsupported [FloorRing K] (m : Libm K) (f : b2Fixture K)
    (out : List (b2Vec2 K)) (h : isPolygonOrCircle f.GetShape = false) :
    fillVertices m f out = none := by
  unfold fillVertices
  cases hs : f.GetShape <;> simp_all [isPolygonOrCircle]

theorem FindIntersectionOfFixtures_unsupported [FloorRing K] (m : Libm K) (fA fB : b2Fixture K)
    (out : List (b2Vec2 K))
    (h : isPolygonOrCircle fA.GetShape = false ∨ isPolygonOrCircle fB.GetShape = false) :
    (FindIntersectionOfFixtures m fA fB out).1 = false := by
  unfold FindIntersectionOfFixtures
  rcases h with h | h
  · rw [fillVertices_none_of_unsupported m fA out h]
  · rw [fillVertices_none_of_unsupported m fB [] h]
    cases fillVertices m fA out <;> rfl

theorem ComputeCentroid_isSome (vs : List (b2Vec2 K)) (h : 3 ≤ vs.length) :
    (ComputeCentroid vs).isSome = true := by
  unfold ComputeCentroid
  have : ¬ vs.length < 3 := by omega
  simp only [this, if_false]
  split <;> rfl

theorem ComputeCentroid_eq_none_iff (vs : List (b2Vec2 K)) :
    ComputeCentroid vs = none ↔ vs.length < 3 := by
  unfold ComputeCentroid
  constructor
  · intro h
    by_contra hlt
    simp only [hlt, if_false] at h
    split at h <;> simp at h
  · intro h
    simp [h]

theorem edgeForces_of_neg (m : Libm K) (fluid fixture : b2Fixture K)
    (gravityMultiplier density dragMultiplier : K) (pts : List (b2Vec2 K)) (i : ℕ)
    (h : edgeDragDot fluid fixture gravityMultiplier pts i < 0) :
    edgeForces m fluid fixture gravityMultiplier density dragMultiplier pts i = [] := by
  simp [edgeForces, h]

theorem edgeForces_of_nonneg (m : Libm K) (fluid fixture : b2Fixture K)
    (gravityMultiplier density dragMultiplier : K) (pts : List (b2Vec2 K)) (i : ℕ)
    (h : 0 ≤ edgeDragDot fluid fixture gravityMultiplier pts i) :
    ∃ dragForce liftForce midPoint,
      edgeForces m fluid fixture gravityMultiplier density dragMultiplier pts i =
        [ForceCall.ApplyForce dragForce midPoint true,
         ForceCall.ApplyForce liftForce midPoint true] := by
  have : ¬ edgeDragDot fluid fixture gravityMultiplier pts i < 0 := not_lt.2 h
  simp only [edgeForces, this, if_false]
  exact ⟨_, _, _, rfl⟩

/-! ## `VerticesFromCircle` -/

theorem VerticesFromCircle_circle [FloorRing K] (m : Libm K) (c : b2Vec2 K) (radius : K)
    (body : b2Body K) (vertices : List (b2Vec2 K)) (resolution : K) :
    VerticesFromCircle m ⟨b2Shape.e_circle c radius, body⟩ vertices resolution =
      (true, vertices ++ (List.range ⌈resolution * radius⌉.toNat).map fun (i : ℕ) =>
        body.GetPosition + radius *
          (⟨m.cos (twoPi / (⌈resolution * radius⌉ : K) * (i : K)),
            m.sin (twoPi / (⌈resolution * radius⌉ : K) * (i : K))⟩ : b2Vec2 K)) := by
  simp [VerticesFromCircle]

theorem getD_append_map_range (vertices : List (b2Vec2 K)) (f : ℕ → b2Vec2 K) (n i : ℕ)
    (hi : i < n) :
    (vertices ++ (List.range n).map f).getD (vertices.length + i) 0 = f i := by
  rw [List.getD_eq_getElem?_getD, List.getElem?_append_right (by omega)]
  simp [hi]

/-- The constant `twoPi` exceeds `2 * pi` by more than `1.7 * 10⁻⁷` and less than
`1.8 * 10⁻⁷`. -/
theorem twoPi_close :
    17 / 10 ^ 8 < (twoPi : ℝ) - 2 * Real.pi ∧ (twoPi : ℝ) - 2 * Real.pi < 18 / 10 ^ 8 := by
  have h1 := Real.pi_gt_d20
  have h2 := Real.pi_lt_d20
  unfold twoPi
  constructor <;> norm_num at h1 h2 ⊢ <;> linarith

/-! ## The sums of `ComputeCentroid` -/

theorem ComputeCentroid_eq_sums (vs : List (b2Vec2 K)) :
    ComputeCentroid vs =
      if vs.length < 3 then none
      else if (centroidSums vs).2 > b2_epsilon then
        some ((centroidSums vs).1.mulAssign (1 / (centroidSums vs).2), (centroidSums vs).2)
      else some ((centroidSums vs).1, 0) := rfl

/-- One step of the loop of `ComputeCentroid` at an index inside the polygon,
with the wrapping written through `vertexAt`. -/
theorem centroidStep_eq (vs : List (b2Vec2 K)) (acc : b2Vec2 K × K) (i : ℕ)
    (hi : i < vs.length) :
    centroidStep vs acc i =
      (⟨acc.1.x + 1 / 2 * b2Cross (vertexAt vs i) (vertexAt vs (i + 1)) * (1 / 3) *
          ((vertexAt vs i).x + (vertexAt vs (i + 1)).x),
        acc.1.y + 1 / 2 * b2Cross (vertexAt vs i) (vertexAt vs (i + 1)) * (1 / 3) *
          ((vertexAt vs i).y + (vertexAt vs (i + 1)).y)⟩,
       acc.2 + 1 / 2 * b2Cross (vertexAt vs i) (vertexAt vs (i + 1))) := by
  have h1 : vertexAt vs i = vs.getD i 0 := vertexAt_of_lt vs i hi
  have h2 : vertexAt vs (i + 1) = if i + 1 < vs.length then vs.getD (i + 1) 0 else vs.getD 0 0 := by
    by_cases h : i + 1 < vs.length
    · simp only [h, if_true]; exact vertexAt_of_lt vs (i + 1) h
    · have : i + 1 = vs.length := by omega
      simp [vertexAt, this]
  rw [h1, h2]
  simp only [centroidStep, b2Cross, b2Vec2.sub_x, b2Vec2.sub_y, sub_zero]
  refine Prod.ext (b2Vec2.ext ?_ ?_) rfl <;> simp

theorem foldl_centroidStep (vs : List (b2Vec2 K)) (k : ℕ) (hk : k ≤ vs.length) :
    (List.range k).foldl (centroidStep vs) (0, 0) =
      (⟨Finset.sum (Finset.range k) (fun i =>
          1 / 2 * b2Cross (vertexAt vs i) (vertexAt vs (i + 1)) * (1 / 3) *
            ((vertexAt vs i).x + (vertexAt vs (i + 1)).x)),
        Finset.sum (Finset.range k) (fun i =>
          1 / 2 * b2Cross (vertexAt vs i) (vertexAt vs (i + 1)) * (1 / 3) *
            ((vertexAt vs i).y + (vertexAt vs (i + 1)).y))⟩,
       Finset.sum (Finset.range k) (fun i =>
          1 / 2 * b2Cross (vertexAt vs i) (vertexAt vs (i + 1)))) := by
  induction k with
  | zero => simp; rfl
  | succ k ih =>
    rw [List.range_succ, List.foldl_append, ih (by omega)]
    simp only [List.foldl_cons, List.foldl_nil]
    rw [centroidStep_eq vs _ k (by omega)]
    simp only [Finset.sum_range_succ]

/-- A sum around a polygon does not change when every index moves to the next. -/
theorem sum_cyclic_shift (f : ℕ → K) (n : ℕ) :
    Finset.sum (Finset.range n) (fun i => f ((i + 1) % n)) = Finset.sum (Finset.range n) f := by
  cases n with
  | zero => simp
  | succ m =>
    rw [Finset.sum_range_succ, Finset.sum_range_succ' f m, Nat.mod_self]
    congr 1
    apply Finset.sum_congr rfl
    intro i hi
    rw [Nat.mod_eq_of_lt (by have := Finset.mem_range.1 hi; omega)]

theorem vertexAt_succ_mod (vs : List (b2Vec2 K)) (i : ℕ) :
    vertexAt vs ((i + 1) % vs.length) = vertexAt vs (i + 1) := by
  simp [vertexAt]

/-- A sum of differences `h v_i - h v_(i+1)` around a polygon is zero. -/
theorem sum_cyclic_telescope (h : b2Vec2 K → K) (vs : List (b2Vec2 K)) :
    Finset.sum (Finset.range vs.length)
      (fun i => h (vertexAt vs i) - h (vertexAt vs (i + 1))) = 0 := by
  rw [Finset.sum_sub_distrib]
  have := sum_cyclic_shift (fun i => h (vertexAt vs i)) vs.length
  simp only [vertexAt_succ_mod] at this
  rw [this, sub_self]


/-! ### Translating a polygon -/

theorem length_translate (t : b2Vec2 K) (vs : List (b2Vec2 K)) :
    (translatePolygon t vs).length = vs.length := by
  simp [translatePolygon]

theorem vertexAt_translate (t : b2Vec2 K) (vs : List (b2Vec2 K)) (hne : vs ≠ []) (i : ℕ) :
    vertexAt (translatePolygon t vs) i = vertexAt vs i + t := by
  have hpos : 0 < vs.length := List.length_pos.2 hne
  have hlt : i % vs.length < vs.length := Nat.mod_lt _ hpos
  simp only [vertexAt, length_translate]
  rw [List.getD_eq_getElem?_getD, List.getD_eq_getElem?_getD]
  simp [translatePolygon, List.getElem?_eq_getElem hlt]

theorem centroidSums_translate (t : b2Vec2 K) (vs : List (b2Vec2 K)) (hne : vs ≠ []) :
    centroidSums (translatePolygon t vs) =
      (⟨(centroidSums vs).1.x + (centroidSums vs).2 * t.x,
        (centroidSums vs).1.y + (centroidSums vs).2 * t.y⟩, (centroidSums vs).2) := by
  unfold centroidSums
  rw [foldl_centroidStep _ _ (le_refl _), foldl_centroidStep vs _ (le_refl _), length_translate]
  simp only [vertexAt_translate t vs hne]
  have hA := sum_cyclic_telescope (fun a => 1 / 2 * b2Cross a t) vs
  have hX := sum_cyclic_telescope
    (fun a => 1 / 6 * (a.x ^ 2 * t.y - t.x * a.x * a.y + 2 * t.x * b2Cross a t)) vs
  have hY := sum_cyclic_telescope
    (fun a => 1 / 6 * (t.y * a.x * a.y - t.x * a.y ^ 2 + 2 * t.y * b2Cross a t)) vs
  refine Prod.ext (b2Vec2.ext ?_ ?_) ?_
  · simp only
    rw [Finset.sum_mul, ← Finset.sum_add_distrib, ← sub_eq_zero, ← Finset.sum_sub_distrib,
      ← hX]
    apply Finset.sum_congr rfl
    intro i _
    simp only [b2Cross, b2Vec2.add_x, b2Vec2.add_y]
    ring
  · simp only
    rw [Finset.sum_mul, ← Finset.sum_add_distrib, ← sub_eq_zero, ← Finset.sum_sub_distrib,
      ← hY]
    apply Finset.sum_congr rfl
    intro i _
    simp only [b2Cross, b2Vec2.add_x, b2Vec2.add_y]
    ring
  · simp only
    rw [← sub_eq_zero, ← Finset.sum_sub_distrib, ← hA]
    apply Finset.sum_congr rfl
    intro i _
    simp only [b2Cross, b2Vec2.add_x, b2Vec2.add_y]
    ring

/-! ### Reversing a polygon -/

theorem fillVertices_append [FloorRing K] (m : Libm K) (f : b2Fixture K)
    (out : List (b2Vec2 K)) :
    fillVertices m f out = (fillVertices m f []).map (fun S => out ++ S) := by
  unfold fillVertices
  cases hs : f.GetShape with
  | e_circle c r =>
    simp only [Option.map_some']
    have h1 := VerticesFromCircle_circle m c r f.GetBody out 16
    have h2 := VerticesFromCircle_circle m c r f.GetBody [] 16
    have hf : f = ⟨b2Shape.e_circle c r, f.GetBody⟩ := by
      cases f; simp_all
    rw [hf, h1, h2]
    simp
  | e_edge => rfl
  | e_polygon vs => simp
  | e_chain => rfl

theorem FindIntersectionOfFixtures_entry [FloorRing K] (m : Libm K) (fA fB : b2Fixture K)
    (out S C : List (b2Vec2 K)) (cp1 : b2Vec2 K)
    (hA : fillVertices m fA [] = some S) (hB : fillVertices m fB [] = some C)
    (hl : C.getLast? = some cp1) :
    FindIntersectionOfFixtures m fA fB out = clipLoop cp1 C (out ++ S) := by
  have hA2 : fillVertices m fA out = some (out ++ S) := by
    rw [fillVertices_append, hA]; rfl
  simp only [FindIntersectionOfFixtures, hA2, hB, hl]

theorem FindIntersectionOfFixtures_empty_clip [FloorRing K] (m : Libm K) (fA fB : b2Fixture K)
    (out S : List (b2Vec2 K))
    (hA : fillVertices m fA [] = some S) (hB : fillVertices m fB [] = some []) :
    FindIntersectionOfFixtures m fA fB out = (false, out ++ S) := by
  have hA2 : fillVertices m fA out = some (out ++ S) := by
    rw [fillVertices_append, hA]; rfl
  simp only [FindIntersectionOfFixtures, hA2, hB, List.getLast?_nil]

theorem fillVertices_circle_zero [FloorRing K] (m : Libm K) (position : b2Vec2 K) :
    fillVertices m (circleFixture position 0) [] = some [] := by
  simp [fillVertices, circleFixture, VerticesFromCircle_circle]

/-! ## A clip polygon in reverse order -/

theorem clipLoop_squares_again :
    clipLoop (⟨1/2, 3/2⟩ : b2Vec2 K) shiftedSquare (overlapSquare ++ unitSquare)
      = (true, overlapSquare ++ overlapSquare) := by
  norm_num [unitSquare, shiftedSquare, overlapSquare, clipLoop, clipWalk, Inside, Intersection]

theorem clipLoop_far_entry :
    clipLoop (⟨0, 1⟩ : b2Vec2 K) unitSquare ([⟨1/2, 1/2⟩] ++ farSquare)
      = (true, [⟨1, 2/3⟩, ⟨1/2, 1/2⟩, ⟨1, 1/3⟩]) := by
  norm_num [unitSquare, farSquare, clipLoop, clipWalk, Inside, Intersection]

theorem clipLoop_far :
    clipLoop (⟨0, 1⟩ : b2Vec2 K) unitSquare farSquare = (false, []) := by
  norm_num [unitSquare, farSquare, clipLoop, clipWalk, Inside, Intersection]

theorem intersectionCalls_differ :
    ∀ (L : List (b2Vec2 K)) (cp1 cp2 s0 : b2Vec2 K) (p : b2Vec2 K × b2Vec2 K),
      p ∈ intersectionCalls cp1 cp2 s0 L → Inside cp1 cp2 p.1 ≠ Inside cp1 cp2 p.2 := by
  intro L
  induction L with
  | nil => intro cp1 cp2 s0 p hp; simp [intersectionCalls] at hp
  | cons e rest ih =>
    intro cp1 cp2 s0 p hp
    simp only [intersectionCalls, List.mem_append] at hp
    rcases hp with hp | hp
    · by_cases he : Inside cp1 cp2 e = true
      · by_cases hs : Inside cp1 cp2 s0 = true
        · simp [he, hs] at hp
        · simp [he, hs] at hp
          subst hp
          simp [he, hs]
      · by_cases hs : Inside cp1 cp2 s0 = true
        · simp [he, hs] at hp
          subst hp
          simp [he, hs]
        · simp [he, hs] at hp
    · exact ih cp1 cp2 e p hp

theorem denominator_ne_zero (cp1 cp2 s e : b2Vec2 K)
    (h : Inside cp1 cp2 s ≠ Inside cp1 cp2 e) :
    (cp1.x - cp2.x) * (s.y - e.y) - (cp1.y - cp2.y) * (s.x - e.x) ≠ 0 := by
  intro h0
  apply h
  have hs := Inside_iff cp1 cp2 s
  have he := Inside_iff cp1 cp2 e
  have hse : b2Cross (cp2 - cp1) (s - cp1) = b2Cross (cp2 - cp1) (e - cp1) := by
    simp only [b2Cross, b2Vec2.sub_x, b2Vec2.sub_y]
    linear_combination -h0
  rw [hse] at hs
  rw [Bool.eq_iff_iff, hs, he]

theorem edgeVelDir_at_rest (fluid fixture : b2Fixture K) (pts : List (b2Vec2 K)) (i : ℕ)
    (hfl : AtRest fluid.GetBody) (hfx : AtRest fixture.GetBody) :
    edgeVelDir fluid fixture pts i = 0 := by
  simp only [edgeVelDir, hfl _, hfx _]
  refine b2Vec2.ext ?_ ?_ <;> simp

theorem edgeForces_at_rest (m : Libm K) (fluid fixture : b2Fixture K)
    (gravityMultiplier density dragMultiplier : K) (pts : List (b2Vec2 K)) (i : ℕ)
    (hfl : AtRest fluid.GetBody) (hfx : AtRest fixture.GetBody) :
    ∀ c ∈ edgeForces m fluid fixture gravityMultiplier density dragMultiplier pts i,
      forceOf c = 0 := by
  have hv := edgeVelDir_at_rest fluid fixture pts i hfl hfx
  have hd : edgeDragDot fluid fixture gravityMultiplier pts i = 0 := by
    simp [edgeDragDot, hv, b2Dot]
  intro c hc
  simp only [edgeForces, hd, lt_irrefl, if_false, List.mem_cons, List.mem_singleton,
    List.mem_nil_iff, or_false] at hc
  rcases hc with rfl | rfl
  · refine b2Vec2.ext ?_ ?_ <;> simp [forceOf]
  · refine b2Vec2.ext ?_ ?_ <;> simp [forceOf]

theorem edgeForces_not_toCenter (m : Libm K) (fluid fixture : b2Fixture K)
    (gravityMultiplier density dragMultiplier : K) (pts : List (b2Vec2 K)) (i : ℕ) :
    ∀ c ∈ edgeForces m fluid fixture gravityMultiplier density dragMultiplier pts i,
      isApplyForceToCenter c = false := by
  intro c hc
  by_cases h : edgeDragDot fluid fixture gravityMultiplier pts i < 0
  · rw [edgeForces_of_neg m fluid fixture gravityMultiplier density dragMultiplier pts i h] at hc
    simp at hc
  · obtain ⟨d, l, mp, he⟩ := edgeForces_of_nonneg m fluid fixture gravityMultiplier density
      dragMultiplier pts i (not_lt.1 h)
    rw [he] at hc
    simp only [List.mem_cons, List.mem_singleton, List.mem_nil_iff, or_false] at hc
    rcases hc with rfl | rfl <;> rfl

/-! ## The number of vertices the clipping loop leaves -/

theorem clipWalk_length_ge (cp1 cp2 : b2Vec2 K) :
    ∀ (L : List (b2Vec2 K)) (s : b2Vec2 K),
      L.countP (Inside cp1 cp2) +
          (if Inside cp1 cp2 s = Inside cp1 cp2 (L.getLastD s) then 0 else 1) ≤
        (clipWalk cp1 cp2 s L).length := by
  intro L
  induction L with
  | nil => intro s; simp [clipWalk]
  | cons e rest ih =>
    intro s
    have h := ih e
    rw [List.getLastD_cons]
    generalize Inside cp1 cp2 (rest.getLastD e) = t at h ⊢
    cases hs : Inside cp1 cp2 s <;> cases he : Inside cp1 cp2 e <;> cases t <;>
      simp [clipWalk, hs, he, List.countP_cons] at h ⊢ <;> omega

theorem clipWalk_length_mixed (cp1 cp2 : b2Vec2 K) :
    ∀ (L : List (b2Vec2 K)) (s : b2Vec2 K),
      (∃ e ∈ L, Inside cp1 cp2 e ≠ Inside cp1 cp2 s) →
      Inside cp1 cp2 (L.getLastD s) = Inside cp1 cp2 s →
      L.countP (Inside cp1 cp2) + 2 ≤ (clipWalk cp1 cp2 s L).length := by
  intro L
  induction L with
  | nil => intro s h; simp at h
  | cons e rest ih =>
    intro s hex hlast
    rw [List.getLastD_cons] at hlast
    by_cases hes : Inside cp1 cp2 e = Inside cp1 cp2 s
    · have hex2 : ∃ w ∈ rest, Inside cp1 cp2 w ≠ Inside cp1 cp2 e := by
        obtain ⟨w, hw, hne⟩ := hex
        rcases List.mem_cons.1 hw with rfl | hw
        · exact absurd hes hne
        · exact ⟨w, hw, by rw [hes]; exact hne⟩
      have h := ih e hex2 (by rw [hlast, hes])
      cases hs : Inside cp1 cp2 s <;> cases he : Inside cp1 cp2 e <;>
        simp [clipWalk, hs, he, List.countP_cons] at h hes ⊢ <;> omega
    · have h := clipWalk_length_ge cp1 cp2 rest e
      rw [hlast] at h
      cases hs : Inside cp1 cp2 s <;> cases he : Inside cp1 cp2 e <;>
        simp [clipWalk, hs, he, List.countP_cons] at h hes ⊢ <;> omega

/-- One pass of the clipping walk over a list of three or more vertices, begun
at its last vertex, leaves no vertex or at least three. -/
theorem clipWalk_empty_or_three (cp1 cp2 s : b2Vec2 K) (L : List (b2Vec2 K))
    (hl : L.getLast? = some s) (h3 : 3 ≤ L.length) :
    clipWalk cp1 cp2 s L = [] ∨ 3 ≤ (clipWalk cp1 cp2 s L).length := by
  have hsL : s ∈ L := List.mem_of_getLast?_eq_some hl
  have hlast : L.getLastD s = s := by
    rw [List.getLastD_eq_getLast?, hl]; rfl
  by_cases hex : ∃ e ∈ L, Inside cp1 cp2 e ≠ Inside cp1 cp2 s
  · right
    have h := clipWalk_length_mixed cp1 cp2 L s hex (by rw [hlast])
    have hpos : 0 < L.countP (Inside cp1 cp2) := by
      obtain ⟨e, he, hne⟩ := hex
      rw [List.countP_pos_iff]
      cases hs : Inside cp1 cp2 s
      · refine ⟨e, he, ?_⟩
        rw [hs] at hne
        simpa using hne
      · exact ⟨s, hsL, hs⟩
    omega
  · have hall : ∀ e ∈ L, Inside cp1 cp2 e = Inside cp1 cp2 s := by
      intro e he
      by_contra hne
      exact hex ⟨e, he, hne⟩
    cases hs : Inside cp1 cp2 s
    · left
      by_contra hne
      rcases clipWalk_nonempty cp1 cp2 L s hne with h | ⟨w, hw, hwi⟩
      · rw [hs] at h; exact absurd h (by simp)
      · rw [hall w hw, hs] at hwi; exact absurd hwi (by simp)
    · right
      have h := clipWalk_length_ge cp1 cp2 L s
      have hc : L.countP (Inside cp1 cp2) = L.length := by
        rw [List.countP_eq_length]
        intro e he
        rw [hall e he, hs]
      omega

/-- The output of the clipping loop is the last recorded value of the vector,
or the vector it started with when no pass was made. -/
theorem clipLoop_eq_last_state :
    ∀ (C : List (b2Vec2 K)) (cp1 : b2Vec2 K) (out : List (b2Vec2 K)),
      (clipLoop cp1 C out).2 = (clipStates cp1 C out).getLastD out := by
  intro C
  induction C with
  | nil => intro cp1 out; simp [clipLoop, clipStates]
  | cons cp2 rest ih =>
    intro cp1 out
    cases hl : out.getLast? with
    | none => simp [clipLoop, clipStates, hl]
    | some s =>
      simp only [clipLoop, clipStates, hl, List.getLastD_cons]
      exact ih cp2 _

theorem clipStates_empty_or_three :
    ∀ (C : List (b2Vec2 K)) (cp1 : b2Vec2 K) (out : List (b2Vec2 K)),
      (out = [] ∨ 3 ≤ out.length) →
      ∀ L ∈ clipStates cp1 C out, L = [] ∨ 3 ≤ L.length := by
  intro C
  induction C with
  | nil => intro cp1 out _ L hL; simp [clipStates] at hL
  | cons cp2 rest ih =>
    intro cp1 out hout L hL
    cases hl : out.getLast? with
    | none => simp [clipStates, hl] at hL
    | some s =>
      have h3 : 3 ≤ out.length := by
        rcases hout with h | h
        · subst h; simp at hl
        · exact h
      have hw := clipWalk_empty_or_three cp1 cp2 s out hl h3
      simp only [clipStates, hl, List.mem_cons] at hL
      rcases hL with rfl | hL
      · exact hw
      · exact ih cp2 _ hw L hL

theorem clipLoop_empty_or_three (C : List (b2Vec2 K)) (cp1 : b2Vec2 K) (out : List (b2Vec2 K))
    (hout : out = [] ∨ 3 ≤ out.length) :
    (clipLoop cp1 C out).2 = [] ∨ 3 ≤ (clipLoop cp1 C out).2.length := by
  rw [clipLoop_eq_last_state]
  cases h : clipStates cp1 C out with
  | nil => simpa using hout
  | cons a r =>
    have hm : (a :: r).getLastD out ∈ clipStates cp1 C out := by
      rw [h, List.getLastD_cons]
      have : (a :: r).getLast? = some (r.getLastD a) := by
        rw [List.getLast?_cons, List.getLastD_eq_getLast?]
      exact List.mem_of_getLast?_eq_some this
    exact clipStates_empty_or_three C cp1 out hout _ hm

/-! ## A subject inside every clip edge -/

/-- A pass of the clipping walk over vertices that are all inside the clip
edge copies them and calls `Intersection` at none of them. -/
theorem clipWalk_all_inside (cp1 cp2 : b2Vec2 K) :
    ∀ (L : List (b2Vec2 K)) (s : b2Vec2 K), Inside cp1 cp2 s = true →
      (∀ e ∈ L, Inside cp1 cp2 e = true) →
      clipWalk cp1 cp2 s L = L ∧ intersectionCalls cp1 cp2 s L = [] := by
  intro L
  induction L with
  | nil => intro s _ _; simp [clipWalk, intersectionCalls]
  | cons e rest ih =>
    intro s hs hall
    have he : Inside cp1 cp2 e = true := hall e (List.mem_cons_self _ _)
    obtain ⟨h1, h2⟩ := ih e he (fun w hw => hall w (List.mem_cons_of_mem _ hw))
    simp [clipWalk, intersectionCalls, hs, he, h1, h2]

theorem clipLoop_all_inside :
    ∀ (C : List (b2Vec2 K)) (cp1 : b2Vec2 K) (S : List (b2Vec2 K)), S ≠ [] →
      (∀ e ∈ edgesFrom cp1 C, ∀ v ∈ S, Inside e.1 e.2 v = true) →
      clipLoop cp1 C S = (true, S) ∧ clipLoopCalls cp1 C S = [] := by
  intro C
  induction C with
  | nil =>
    intro cp1 S hS _
    cases S with
    | nil => exact absurd rfl hS
    | cons a r => simp [clipLoop, clipLoopCalls]
  | cons cp2 rest ih =>
    intro cp1 S hS hall
    cases hl : S.getLast? with
    | none => simp at hl; exact absurd hl hS
    | some s =>
      have hin : ∀ v ∈ S, Inside cp1 cp2 v = true := fun v hv =>
        hall (cp1, cp2) (by simp [edgesFrom]) v hv
      obtain ⟨h1, h2⟩ := clipWalk_all_inside cp1 cp2 S s
        (hin s (List.mem_of_getLast?_eq_some hl)) hin
      obtain ⟨h3, h4⟩ := ih cp2 S hS (fun e he v hv =>
        hall e (by simp only [edgesFrom, List.mem_cons]; exact Or.inr he) v hv)
      simp only [clipLoop, clipLoopCalls, hl, h1, h2, h3, h4, List.nil_append, and_self]

/-! ## Triangles -/

/-- A triangle with positive signed area is a convex polygon listed
counter-clockwise. -/
theorem convexCCW_triangle (a b c : b2Vec2 K) (h : 0 < b2Cross (b - a) (c - a)) :
    ConvexCCW [a, b, c] := by
  have he : clipEdges [a, b, c] = [(c, a), (a, b), (b, c)] := by
    simp [clipEdges, edgesFrom]
  simp only [b2Cross, b2Vec2.sub_x, b2Vec2.sub_y] at h
  refine ⟨by simp, ?_, ?_⟩
  · intro e he2 v hv
    rw [he] at he2
    simp only [List.mem_cons, List.mem_singleton, List.not_mem_nil, or_false] at he2 hv
    rcases he2 with rfl | rfl | rfl <;> rcases hv with rfl | rfl | rfl <;>
      simp only [b2Cross, b2Vec2.sub_x, b2Vec2.sub_y] <;> nlinarith
  · intro e he2
    rw [he] at he2
    simp only [List.mem_cons, List.mem_singleton, List.not_mem_nil, or_false] at he2
    rcases he2 with rfl | rfl | rfl
    · exact ⟨b, by simp, by simp only [b2Cross, b2Vec2.sub_x, b2Vec2.sub_y]; nlinarith⟩
    · exact ⟨c, by simp, by simp only [b2Cross, b2Vec2.sub_x, b2Vec2.sub_y]; nlinarith⟩
    · exact ⟨a, by simp, by simp only [b2Cross, b2Vec2.sub_x, b2Vec2.sub_y]; nlinarith⟩

/-- Two vertex lists that an affine function separates have disjoint hulls. -/
theorem disjoint_hull_of_separated (S C : List (b2Vec2 K)) (a b c : K)
    (hS : ∀ v ∈ S, 0 < a * v.x + b * v.y + c) (hC : ∀ v ∈ C, a * v.x + b * v.y + c < 0) :
    Disjoint (hull S) (hull C) := by
  rw [Set.disjoint_left]
  intro q hqS hqC
  have h1 := hull_pos S a b c hS ⟨q.1, q.2⟩ hqS
  have h2 := hull_pos C (-a) (-b) (-c) (fun v hv => by have := hC v hv; linarith) ⟨q.1, q.2⟩ hqC
  simp only at h1 h2
  linarith

/-! ## Rounding to `float` -/

/-- Values of `float32` that are known of binary32: `0.1f` and the `float`
nearest to `1/3`; a tie goes to the even neighbour (`1 + 2⁻²⁴` to `1`,
`1 + 3 * 2⁻²⁴` to `1 + 2⁻²²`); `b2_epsilon`, the largest `float` and the
smallest positive one are `float` numbers; half the smallest positive one goes
to `0`; and `2¹²⁸ - 2¹⁰³`, halfway between the largest `float` and `2¹²⁸`, is
not finite.  The constant `twoPi` is a `float`, the one nearest to
`6.28318530718`. -/
theorem Binary32.float32_values :
    Binary32.float32 (1/10) = some (13421773/134217728) ∧
    Binary32.float32 (1/3) = some (11184811/33554432) ∧
    Binary32.float32 (1 + 1/2^24) = some 1 ∧
    Binary32.float32 (1 + 3/2^24) = some (1 + 1/2^22) ∧
    Binary32.float32 (-(1 + 3/2^24)) = some (-(1 + 1/2^22)) ∧
    Binary32.float32 b2_epsilon = some b2_epsilon ∧
    Binary32.float32 ((2^24 - 1) * 2^104) = some ((2^24 - 1) * 2^104) ∧
    Binary32.float32 (1/2^149) = some (1/2^149) ∧
    Binary32.float32 (1/2^150) = some 0 ∧
    Binary32.float32 (2^128 - 2^103) = none ∧
    Binary32.float32 PhysicsUtils.twoPi = some PhysicsUtils.twoPi ∧
    Binary32.float32 (628318530718/100000000000) = some PhysicsUtils.twoPi := by
  refine ⟨by decide!, by decide!, by decide!, by decide!, by decide!, by decide!, by decide!,
    by decide!, by decide!, by decide!, by decide!, by decide!⟩

/-! ## The clipper in `float` arithmetic -/

theorem Binary32.FindIntersectionOfFixtures_polygons (m : Libm ℚ) (S C : List (b2Vec2 ℚ))
    (cp1 : b2Vec2 ℚ) (hl : C.getLast? = some cp1) :
    Binary32.FindIntersectionOfFixtures m (polygonFixture S) (polygonFixture C) []
      = Binary32.clipLoop cp1 C S := by
  simp [Binary32.FindIntersectionOfFixtures, Binary32.fillVertices, polygonFixture, bodyAtRest,
    hl]

/-! ## A circle sampled as one point -/

/-- A circle of radius `1/16` on a body at `(x, y)` is sampled as the one point
`(x + 1/16, y)`; when that point is strictly inside the unit square the
clipper reports it as the intersection with the unit square, and
`HandleBuoyancy` fails the assertion of `ComputeCentroid`. -/
theorem HandleBuoyancy_one_point_circle (x y : ℝ) (hx0 : 0 < x + 1/16) (hx1 : x + 1/16 < 1)
    (hy0 : 0 < y) (hy1 : y < 1)
    (gravity : b2Vec2 ℝ) (flipGravity : Bool)
    (density dragMultiplier flowMagnitude flowAngleInRadians : ℝ) :
    FindIntersectionOfFixtures (⟨Real.cos, Real.sin, Real.sqrt⟩ : Libm ℝ)
      (circleFixture ⟨x, y⟩ (1/16)) (polygonFixture unitSquare) []
      = (true, [⟨x + 1/16, y⟩]) ∧
    HandleBuoyancy (⟨Real.cos, Real.sin, Real.sqrt⟩ : Libm ℝ)
      (circleFixture ⟨x, y⟩ (1/16)) (polygonFixture unitSquare) gravity flipGravity density
      dragMultiplier flowMagnitude flowAngleInRadians = none := by
  have hfill : fillVertices (⟨Real.cos, Real.sin, Real.sqrt⟩ : Libm ℝ)
      (circleFixture ⟨x, y⟩ (1/16)) [] = some [⟨x + 1/16, y⟩] := by
    simp only [fillVertices, circleFixture, VerticesFromCircle_circle]
    have hc : ⌈(16 : ℝ) * (1/16)⌉ = 1 := by norm_num
    rw [hc]
    have h1 : (1 : ℤ).toNat = 1 := rfl
    simp only [h1, List.range_succ, List.range_zero, List.map_cons, List.map_nil,
      List.nil_append, Nat.cast_zero, mul_zero, Real.cos_zero, Real.sin_zero]
    refine congrArg some (congrArg (fun v => [v]) (b2Vec2.ext ?_ ?_)) <;> norm_num
  have hfound : FindIntersectionOfFixtures (⟨Real.cos, Real.sin, Real.sqrt⟩ : Libm ℝ)
      (circleFixture ⟨x, y⟩ (1/16)) (polygonFixture unitSquare) []
      = (true, [⟨x + 1/16, y⟩]) := by
    have hl : (unitSquare : List (b2Vec2 ℝ)).getLast? = some ⟨0, 1⟩ := by simp [unitSquare]
    rw [FindIntersectionOfFixtures_eq_clipLoop _ _ _ _ unitSquare ⟨0, 1⟩ hfill
      (fillVertices_polygon _ unitSquare []) hl]
    refine (clipLoop_all_inside unitSquare ⟨0, 1⟩ [⟨x + 1/16, y⟩] (by simp) ?_).1
    intro e he v hv
    rw [List.mem_singleton] at hv
    subst hv
    simp only [unitSquare, edgesFrom, List.mem_cons, List.mem_singleton, List.not_mem_nil,
      or_false] at he
    rcases he with rfl | rfl | rfl | rfl <;>
      simp only [Inside, decide_eq_true_eq] <;> norm_num <;> linarith
  have hnone : ComputeCentroid ([⟨x + 1/16, y⟩] : List (b2Vec2 ℝ)) = none := by
    simp [ComputeCentroid]
  refine ⟨hfound, ?_⟩
  simp only [HandleBuoyancy, hfound, hnone, if_true]

/-! ## The buoyancy force -/

/-- When `FindIntersectionOfFixtures` reports an intersection,
`ComputeCentroid` returns a centroid and an area for it if it has at least
three points, and whenever `ComputeCentroid` returns `centroid` and `area`, the
first call `HandleBuoyancy` makes on the body is `ApplyForce` with the force
`density * area * gravityMultiplier * (-gravity)`, where `gravityMultiplier`
is `-1` if `flipGravity` and `1` otherwise, at `centroid`, with the wake flag
set. -/
theorem HandleBuoyancy_buoyancy_force_first [FloorRing K] (m : Libm K) (fluid fixture : b2Fixture K)
    (gravity : b2Vec2 K) (flipGravity : Bool)
    (density dragMultiplier flowMagnitude flowAngleInRadians : K)
    (pts : List (b2Vec2 K))
    (hfound : FindIntersectionOfFixtures m fluid fixture [] = (true, pts)) :
    (3 ≤ pts.length → ∃ centroid area, ComputeCentroid pts = some (centroid, area)) ∧
    ∀ centroid area, ComputeCentroid pts = some (centroid, area) →
      ∃ rest, HandleBuoyancy m fluid fixture gravity flipGravity density dragMultiplier
          flowMagnitude flowAngleInRadians =
        some (ForceCall.ApplyForce
          ((density * area * (if flipGravity then (-1 : K) else 1)) * (-gravity)) centroid true
          :: rest) := by
  refine ⟨fun h3 => ?_, fun centroid area hc => ?_⟩
  · have := ComputeCentroid_isSome pts h3
    obtain ⟨r, hr⟩ := Option.isSome_iff_exists.1 this
    exact ⟨r.1, r.2, hr⟩
  · exact ⟨_, HandleBuoyancy_of_found m fluid fixture gravity flipGravity density dragMultiplier
      flowMagnitude flowAngleInRadians pts centroid area hfound hc⟩

/-! ## The flow force -/

/-- Whenever the clipper reports an intersection for which `ComputeCentroid`
returns, as it does for three or more points, `HandleBuoyancy` makes exactly
one `ApplyForceToCenter` call, the second call, with the flow force
`flowMagnitude * (cos(flowAngle), sin(flowAngle))`; when the area reported is
`0` the buoyancy force of the first call is the zero vector. -/
theorem HandleBuoyancy_one_flow_force [FloorRing K] (m : Libm K)
    (fluid fixture : b2Fixture K) (gravity : b2Vec2 K) (flipGravity : Bool)
    (density dragMultiplier flowMagnitude flowAngleInRadians : K)
    (pts : List (b2Vec2 K))
    (hfound : FindIntersectionOfFixtures m fluid fixture [] = (true, pts)) :
    (3 ≤ pts.length → ∃ centroid area, ComputeCentroid pts = some (centroid, area)) ∧
    ∀ centroid area, ComputeCentroid pts = some (centroid, area) →
      ∃ buoyancyForce edgeCalls,
        HandleBuoyancy m fluid fixture gravity flipGravity density dragMultiplier
            flowMagnitude flowAngleInRadians =
          some (ForceCall.ApplyForce buoyancyForce centroid true ::
            ForceCall.ApplyForceToCenter (flowMagnitude *
              (⟨m.cos flowAngleInRadians, m.sin flowAngleInRadians⟩ : b2Vec2 K)) true ::
            edgeCalls) ∧
        (ForceCall.ApplyForce buoyancyForce centroid true ::
            ForceCall.ApplyForceToCenter (flowMagnitude *
              (⟨m.cos flowAngleInRadians, m.sin flowAngleInRadians⟩ : b2Vec2 K)) true ::
            edgeCalls).filter isApplyForceToCenter =
          [ForceCall.ApplyForceToCenter (flowMagnitude *
            (⟨m.cos flowAngleInRadians, m.sin flowAngleInRadians⟩ : b2Vec2 K)) true] ∧
        (area = 0 → buoyancyForce = 0) := by
  refine ⟨fun h3 => ?_, fun centroid area hc => ?_⟩
  · have := ComputeCentroid_isSome pts h3
    obtain ⟨r, hr⟩ := Option.isSome_iff_exists.1 this
    exact ⟨r.1, r.2, hr⟩
  · refine ⟨_, _, HandleBuoyancy_of_found m fluid fixture gravity flipGravity density
      dragMultiplier flowMagnitude flowAngleInRadians pts centroid area hfound hc, ?_, ?_⟩
    · have hnone : ∀ c ∈ ((List.range pts.length).map
          (edgeForces m fluid fixture (gravityMultiplierOf flipGravity) density dragMultiplier
            pts)).flatten, ¬ (isApplyForceToCenter c = true) := by
        intro c hcm
        simp only [List.mem_flatten, List.mem_map, List.mem_range] at hcm
        obtain ⟨l, ⟨i, _, rfl⟩, hcl⟩ := hcm
        rw [edgeForces_not_toCenter m fluid fixture _ density dragMultiplier pts i c hcl]
        simp
      rw [List.filter_cons_of_neg (by simp [isApplyForceToCenter]),
        List.filter_cons_of_pos (by simp [isApplyForceToCenter]),
        List.filter_eq_nil_iff.2 hnone]
    · intro h0
      subst h0
      refine b2Vec2.ext ?_ ?_ <;> simp

end Lemmas

/-! ## The claims -/

section Claims

open PhysicsUtils

/-- C1: for a subject `S` and a convex clip polygon `C` (at least three
vertices, not flat, in either winding order) that do not overlap (their hulls
have no point in common, or `S` is a convex polygon too and no point is
strictly inside both, as for polygons that only touch),
`FindIntersectionOfFixtures`, called with an empty output vector, returns
`false` and leaves the output vector empty. -/
theorem C1_disjoint_polygons_give_empty [FloorRing K] (m : Libm K) (fA fB : b2Fixture K)
    (S C : List (b2Vec2 K))
    (hA : fillVertices m fA [] = some S) (hB : fillVertices m fB [] = some C)
    (hC : ConvexPolygon C) (h : DoNotOverlap S C) :
    FindIntersectionOfFixtures m fA fB [] = (false, []) :=
  FindIntersectionOfFixtures_doNotOverlap m fA fB S C hA hB hC h

/-- C1, at the unit square and the unit square moved by `(1, 0)`, which share
an edge. -/
theorem C1_disjoint_polygons_give_empty_witness :
    FindIntersectionOfFixtures (⟨Real.cos, Real.sin, Real.sqrt⟩ : Libm ℝ) (polygonFixture unitSquare)
      (polygonFixture touchingSquare) [] = (false, []) :=
  C1_disjoint_polygons_give_empty _ _ _ unitSquare touchingSquare (fillVertices_polygon _ _ _)
    (fillVertices_polygon _ _ _) convexPolygon_touchingSquare
    doNotOverlap_unitSquare_touchingSquare

/-- C2: for the unit square as subject and the unit square moved by
`(0.5, 0.5)` as clip, `FindIntersectionOfFixtures` returns `true` with exactly
four output vertices, and `ComputeCentroid` on that output reports area `0.25`
and the centroid `(0.75, 0.75)`, the centre of the overlap. -/
theorem C2_overlapping_unit_squares [FloorRing K] (m : Libm K) :
    FindIntersectionOfFixtures m (polygonFixture unitSquare) (polygonFixture shiftedSquare) []
        = (true, [⟨1/2, 1/2⟩, ⟨1, 1/2⟩, ⟨1, 1⟩, ⟨1/2, 1⟩])
      ∧ (FindIntersectionOfFixtures m (polygonFixture unitSquare)
          (polygonFixture shiftedSquare) []).2.length = 4
      ∧ ComputeCentroid (FindIntersectionOfFixtures m (polygonFixture unitSquare)
          (polygonFixture shiftedSquare) []).2 = some (⟨3/4, 3/4⟩, 1/4) := by
  rw [FindIntersectionOfFixtures_squares]
  exact ⟨rfl, rfl, ComputeCentroid_overlapSquare⟩

/-- C3 as the spec has it fails in the `float` arithmetic of the source.  The
triangle `(64, 64), (64 + 1/64, 64), (64, 64 + 1/64)`, whose vertices are
`float` numbers, is counter-clockwise with area `1/8192`, above `b2_epsilon`;
`ComputeCentroid` in `float` arithmetic reports the area `0` and returns
`(1365/524288, 1365/524288)`, about `(0.0026, 0.0026)`, where the claim has
the area `1/8192` and the centroid `(64 + 1/192, 64 + 1/192)`: the sums of the
fan from the origin lose the digits of the area.  For the triangle
`(0,0), (3,0), (0,4)` the `float` result is the area `6` and the centroid
`(1, 11184811/8388608)`, whose second coordinate is the `float` nearest to
`4/3`. -/
theorem C3_float_triangle_reports_zero_area :
    Binary32.float32 64 = some 64 ∧ Binary32.float32 (64 + 1/64) = some (64 + 1/64) ∧
    (b2_epsilon : ℚ) < (1/2) * b2Cross ((⟨64 + 1/64, 64⟩ : b2Vec2 ℚ) - ⟨64, 64⟩)
      (⟨64, 64 + 1/64⟩ - ⟨64, 64⟩) ∧
    (1/2 : ℚ) * b2Cross ((⟨64 + 1/64, 64⟩ : b2Vec2 ℚ) - ⟨64, 64⟩) (⟨64, 64 + 1/64⟩ - ⟨64, 64⟩)
      = 1/8192 ∧
    Binary32.ComputeCentroid [⟨64, 64⟩, ⟨64 + 1/64, 64⟩, ⟨64, 64 + 1/64⟩]
      = some (⟨1365/524288, 1365/524288⟩, 0) ∧
    Binary32.ComputeCentroid [⟨0, 0⟩, ⟨3, 0⟩, ⟨0, 4⟩] = some (⟨1, 11184811/8388608⟩, 6) ∧
    Binary32.float32 (4/3) = some (11184811/8388608) := by
  refine ⟨by decide!, by decide!, ?_, ?_, by decide!, by decide!, by decide!⟩
  · norm_num [b2_epsilon, b2Cross]
  · norm_num [b2Cross]

/-- C3 as the code has it, in exact arithmetic: for a triangle `a, b, c` whose
area `1/2 * cross(b - a, c - a)` exceeds
`b2_epsilon` (so it is in counter-clockwise order), `ComputeCentroid` reports
that area and returns the centroid `(a + b + c) / 3`. -/
theorem C3_triangle_centroid (a b c : b2Vec2 K)
    (h : b2_epsilon < (1/2) * b2Cross (b - a) (c - a)) :
    ComputeCentroid [a, b, c]
      = some (⟨(a.x + b.x + c.x) / 3, (a.y + b.y + c.y) / 3⟩, (1/2) * b2Cross (b - a) (c - a)) := by
  have hpos : (0 : K) < (1/2) * b2Cross (b - a) (c - a) := lt_trans b2_epsilon_pos h
  have hne : b2Cross (b - a) (c - a) ≠ 0 := by
    intro h0; rw [h0] at hpos; simp at hpos
  have hacc := ComputeCentroid_triangle_acc a b c
  simp only [ComputeCentroid, List.length_cons, List.length_nil]
  norm_num only [hacc]
  simp only [gt_iff_lt, h, if_true, if_false, b2Vec2.mulAssign]
  refine congrArg some (Prod.ext (b2Vec2.ext ?_ ?_) rfl)
  · simp only [b2Cross, b2Vec2.sub_x, b2Vec2.sub_y] at hne ⊢
    field_simp
    ring
  · simp only [b2Cross, b2Vec2.sub_x, b2Vec2.sub_y] at hne ⊢
    field_simp
    ring

/-- C3 as the code has it, at the right triangle with legs 3 and 4: the area
is `6` and the centroid is `(1, 4/3)`. -/
theorem C3_triangle_centroid_witness :
    (b2_epsilon : ℚ) < (1/2) * b2Cross ((⟨3, 0⟩ : b2Vec2 ℚ) - ⟨0, 0⟩) (⟨0, 4⟩ - ⟨0, 0⟩)
      ∧ ComputeCentroid [(⟨0, 0⟩ : b2Vec2 ℚ), ⟨3, 0⟩, ⟨0, 4⟩] = some (⟨1, 4/3⟩, 6) := by
  have h : (b2_epsilon : ℚ) < (1/2) * b2Cross ((⟨3, 0⟩ : b2Vec2 ℚ) - ⟨0, 0⟩) (⟨0, 4⟩ - ⟨0, 0⟩) := by
    norm_num [b2_epsilon, b2Cross]
  refine ⟨h, ?_⟩
  have := C3_triangle_centroid (⟨0, 0⟩ : b2Vec2 ℚ) ⟨3, 0⟩ ⟨0, 4⟩ h
  rw [this]
  norm_num [b2Cross]

/-- C4 as the spec has it fails in the `float` arithmetic of the source.  For
the subject triangle `(0,0), (1,0), (2,3)` and the convex clip triangle
`(0,0), (1,0), (0,1)` the clipper in `float` arithmetic outputs the vertex
`(13421773/33554432, 5033165/8388608)`, the rounded value of the crossing
point `(0.4, 0.6)`: it is on the outer side of the clip edge from `(1,0)` to
`(0,1)`, so outside the clip polygon, and it is not in the convex hull of the
subject. -/
theorem C4_float_vertex_outside_both_inputs :
    Binary32.FindIntersectionOfFixtures Binary32.libmAtZero
      (polygonFixture [⟨0, 0⟩, ⟨1, 0⟩, ⟨2, 3⟩]) (polygonFixture [⟨0, 0⟩, ⟨1, 0⟩, ⟨0, 1⟩]) []
      = some (true, [⟨13421773/33554432, 5033165/8388608⟩, ⟨0, 0⟩, ⟨1, 0⟩]) ∧
    ConvexPolygon [(⟨0, 0⟩ : b2Vec2 ℚ), ⟨1, 0⟩, ⟨0, 1⟩] ∧
    ((⟨1, 0⟩, ⟨0, 1⟩) : b2Vec2 ℚ × b2Vec2 ℚ) ∈ clipEdges [(⟨0, 0⟩ : b2Vec2 ℚ), ⟨1, 0⟩, ⟨0, 1⟩] ∧
    ¬ OnInnerSide (⟨1, 0⟩ : b2Vec2 ℚ) ⟨0, 1⟩ ⟨13421773/33554432, 5033165/8388608⟩ ∧
    toPair (⟨13421773/33554432, 5033165/8388608⟩ : b2Vec2 ℚ) ∉
      hull [(⟨0, 0⟩ : b2Vec2 ℚ), ⟨1, 0⟩, ⟨2, 3⟩] := by
  refine ⟨by decide!, Or.inl (convexCCW_triangle _ _ _ (by norm_num [b2Cross])), ?_, ?_, ?_⟩
  · simp [clipEdges, edgesFrom]
  · norm_num [OnInnerSide]
  · intro h
    have := hull_pos [(⟨0, 0⟩ : b2Vec2 ℚ), ⟨1, 0⟩, ⟨2, 3⟩] 3 (-2) (1/10^9) (by
      intro v hv
      simp only [List.mem_cons, List.mem_singleton, List.not_mem_nil, or_false] at hv
      rcases hv with rfl | rfl | rfl <;> norm_num) _ h
    norm_num at this

/-- C4 as the code has it, in exact arithmetic: every vertex
`FindIntersectionOfFixtures` outputs (called with an empty
output vector) lies on the inner side of, or on, every edge of the clip
polygon, lies in the convex hull of the subject's vertices and, when the clip
polygon is convex, lies in the clip polygon (the convex hull of its vertices). -/
theorem C4_output_within_both_inputs [FloorRing K] (m : Libm K) (fA fB : b2Fixture K)
    (S C : List (b2Vec2 K))
    (hA : fillVertices m fA [] = some S) (hB : fillVertices m fB [] = some C)
    (p : b2Vec2 K) (hp : p ∈ (FindIntersectionOfFixtures m fA fB []).2) :
    (∀ e ∈ clipEdges C, OnInnerSide e.1 e.2 p) ∧ toPair p ∈ hull S ∧
      (ConvexPolygon C → toPair p ∈ hull C) := by
  cases hl : C.getLast? with
  | none =>
    have hC : C = [] := List.getLast?_eq_none_iff.1 hl
    subst hC
    simp only [FindIntersectionOfFixtures, hA, hB, List.getLast?_nil] at hp
    refine ⟨by simp [clipEdges], mem_hull_of_mem hp, ?_⟩
    intro hC
    obtain ⟨c, hc⟩ := convexPolygon_exists_last hC
    simp at hc
  | some cp1 =>
    rw [FindIntersectionOfFixtures_eq_clipLoop m fA fB S C cp1 hA hB hl] at hp
    obtain ⟨hin, hS⟩ := clipLoop_output C S cp1 hl p hp
    refine ⟨hin, hS, ?_⟩
    rintro (hccw | hcw)
    · exact inner_subset_hull C hccw p hin
    · exact (inner_empty_of_cw C hcw p hin).elim

/-- C4 as the code has it, at the two overlapping unit squares and the output
vertex `(1, 0.5)`. -/
theorem C4_output_within_both_inputs_witness :
    (∀ e ∈ clipEdges (shiftedSquare : List (b2Vec2 ℝ)), OnInnerSide e.1 e.2 ⟨1, 1/2⟩) ∧
      toPair (⟨1, 1/2⟩ : b2Vec2 ℝ) ∈ hull unitSquare ∧
      (ConvexPolygon (shiftedSquare : List (b2Vec2 ℝ)) →
        toPair (⟨1, 1/2⟩ : b2Vec2 ℝ) ∈ hull shiftedSquare) :=
  C4_output_within_both_inputs (⟨Real.cos, Real.sin, Real.sqrt⟩ : Libm ℝ) (polygonFixture unitSquare)
    (polygonFixture shiftedSquare) unitSquare shiftedSquare (fillVertices_polygon _ _ _)
    (fillVertices_polygon _ _ _) ⟨1, 1/2⟩ (by
      rw [FindIntersectionOfFixtures_squares]
      simp [overlapSquare])

/-- C5 fails on the code: with a circle of radius `1/16` on a body at
`(1/2, 1/4)` as the fluid fixture and the unit square as the fixture of the
body, `FindIntersectionOfFixtures` reports an intersection, the one point
`(9/16, 1/4)`, the assertion `count >= 3` of `ComputeCentroid` fails, and
`HandleBuoyancy` ends there without a call on the body: no buoyancy force is
applied for this non-empty intersection. -/
theorem C5_no_force_for_one_point_intersection :
    FindIntersectionOfFixtures (⟨Real.cos, Real.sin, Real.sqrt⟩ : Libm ℝ)
      (circleFixture ⟨1/2, 1/4⟩ (1/16)) (polygonFixture unitSquare) []
      = (true, [⟨1/2 + 1/16, 1/4⟩]) ∧
    ComputeCentroid ([⟨1/2 + 1/16, 1/4⟩] : List (b2Vec2 ℝ)) = none ∧
    HandleBuoyancy (⟨Real.cos, Real.sin, Real.sqrt⟩ : Libm ℝ)
      (circleFixture ⟨1/2, 1/4⟩ (1/16)) (polygonFixture unitSquare) ⟨0, -10⟩ false 2 1 0 0
      = none := by
  have h := HandleBuoyancy_one_point_circle (1/2) (1/4) (by norm_num) (by norm_num)
    (by norm_num) (by norm_num) ⟨0, -10⟩ false 2 1 0 0
  exact ⟨h.1, by simp [ComputeCentroid], h.2⟩

/-- C6 as the code has it: in the drag loop of `HandleBuoyancy` an edge whose
`dragDot` is negative is skipped, with no drag and no lift force applied for
it, and every edge whose `dragDot` is zero or positive contributes one drag
force and one lift force, both applied at the midpoint `0.5 * (v0 + v1)` of the
edge with the wake flag set: the drag force `dragMag * dragMultiplier * -velDir`
and the lift force `liftMag * liftDir` of the source; the calls of
`HandleBuoyancy` after the first two are the contributions of the edges in
order. -/
theorem C6_negative_dragDot_skipped [FloorRing K] (m : Libm K) (fluid fixture : b2Fixture K)
    (gravity : b2Vec2 K) (flipGravity : Bool)
    (density dragMultiplier flowMagnitude flowAngleInRadians : K)
    (pts : List (b2Vec2 K)) (centroid : b2Vec2 K) (area : K)
    (hfound : FindIntersectionOfFixtures m fluid fixture [] = (true, pts))
    (hc : ComputeCentroid pts = some (centroid, area)) :
    (∃ buoyancy flow, HandleBuoyancy m fluid fixture gravity flipGravity density dragMultiplier
        flowMagnitude flowAngleInRadians =
      some (buoyancy :: flow :: ((List.range pts.length).map
        (edgeForces m fluid fixture (gravityMultiplierOf flipGravity) density dragMultiplier
          pts)).flatten)) ∧
    ∀ i : ℕ,
      (edgeDragDot fluid fixture (gravityMultiplierOf flipGravity) pts i < 0 →
        edgeForces m fluid fixture (gravityMultiplierOf flipGravity) density dragMultiplier
          pts i = []) ∧
      (0 ≤ edgeDragDot fluid fixture (gravityMultiplierOf flipGravity) pts i →
        edgeForces m fluid fixture (gravityMultiplierOf flipGravity) density dragMultiplier
            pts i =
          let v0 := pts.getD i 0
          let v1 := pts.getD ((i + 1) % pts.length) 0
          let midPoint := (1 / 2 : K) * (v0 + v1)
          let dragDot := edgeDragDot fluid fixture (gravityMultiplierOf flipGravity) pts i
          let vel := ((edgeVelDir fluid fixture pts i).Normalize m).1
          let velDir := ((edgeVelDir fluid fixture pts i).Normalize m).2
          let edgeLength := ((v1 - v0).Normalize m).1
          let edge := ((v1 - v0).Normalize m).2
          let dragMag := dragDot * edgeLength * density * vel * vel
          [ForceCall.ApplyForce ((dragMag * dragMultiplier) * (-velDir)) midPoint true,
           ForceCall.ApplyForce ((b2Dot edge velDir * dragMag) *
             b2CrossSV (gravityMultiplierOf flipGravity) velDir) midPoint true]) := by
  refine ⟨⟨_, _, HandleBuoyancy_of_found m fluid fixture gravity flipGravity density
    dragMultiplier flowMagnitude flowAngleInRadians pts centroid area hfound hc⟩, fun i => ⟨?_, ?_⟩⟩
  · exact edgeForces_of_neg m fluid fixture _ density dragMultiplier pts i
  · intro h
    have hn : ¬ edgeDragDot fluid fixture (gravityMultiplierOf flipGravity) pts i < 0 :=
      not_lt.2 h
    simp only [edgeForces, hn, if_false]

/-- C6 as the code has it, at the unit square of fluid and the sinking square:
the call list starts with the buoyancy and flow calls, the top edge (index 2,
`dragDot` negative) contributes nothing, and the bottom edge (index 0,
`dragDot` not negative) contributes two forces at its midpoint `(0.75, 0.5)`. -/
theorem C6_negative_dragDot_skipped_witness :
    (∃ buoyancy flow, HandleBuoyancy (⟨Real.cos, Real.sin, Real.sqrt⟩ : Libm ℝ)
        (polygonFixture unitSquare) (sinkingFixture shiftedSquare) ⟨0, -10⟩ false 1 1 0 0 =
      some (buoyancy :: flow :: ((List.range (overlapSquare : List (b2Vec2 ℝ)).length).map
        (edgeForces ⟨Real.cos, Real.sin, Real.sqrt⟩ (polygonFixture unitSquare)
          (sinkingFixture shiftedSquare) (gravityMultiplierOf false) 1 1
          overlapSquare)).flatten)) ∧
    edgeDragDot (polygonFixture unitSquare) (sinkingFixture shiftedSquare)
      (gravityMultiplierOf false) (overlapSquare : List (b2Vec2 ℝ)) 2 < 0 ∧
    edgeForces (⟨Real.cos, Real.sin, Real.sqrt⟩ : Libm ℝ) (polygonFixture unitSquare)
      (sinkingFixture shiftedSquare) (gravityMultiplierOf false) 1 1 overlapSquare 2 = [] ∧
    0 ≤ edgeDragDot (polygonFixture unitSquare) (sinkingFixture shiftedSquare)
      (gravityMultiplierOf false) (overlapSquare : List (b2Vec2 ℝ)) 0 ∧
    ∃ dragForce liftForce,
      edgeForces (⟨Real.cos, Real.sin, Real.sqrt⟩ : Libm ℝ) (polygonFixture unitSquare)
        (sinkingFixture shiftedSquare) (gravityMultiplierOf false) 1 1 overlapSquare 0 =
      [ForceCall.ApplyForce dragForce ⟨3/4, 1/2⟩ true,
       ForceCall.ApplyForce liftForce ⟨3/4, 1/2⟩ true] := by
  have h := C6_negative_dragDot_skipped (⟨Real.cos, Real.sin, Real.sqrt⟩ : Libm ℝ)
    (polygonFixture unitSquare) (sinkingFixture shiftedSquare) ⟨0, -10⟩ false 1 1 0 0
    overlapSquare ⟨3/4, 3/4⟩ (1/4) (FindIntersectionOfFixtures_sinking _)
    ComputeCentroid_overlapSquare
  have hneg : edgeDragDot (polygonFixture unitSquare) (sinkingFixture shiftedSquare)
      (gravityMultiplierOf false) (overlapSquare : List (b2Vec2 ℝ)) 2 < 0 := by
    norm_num [edgeDragDot, edgeVelDir, overlapSquare, sinkingFixture, sinkingBody,
      polygonFixture, bodyAtRest, b2CrossSV, b2Dot, gravityMultiplierOf]
  have hpos : 0 ≤ edgeDragDot (polygonFixture unitSquare) (sinkingFixture shiftedSquare)
      (gravityMultiplierOf false) (overlapSquare : List (b2Vec2 ℝ)) 0 := by
    norm_num [edgeDragDot, edgeVelDir, overlapSquare, sinkingFixture, sinkingBody,
      polygonFixture, bodyAtRest, b2CrossSV, b2Dot, gravityMultiplierOf]
  refine ⟨h.1, hneg, (h.2 2).1 hneg, hpos, ?_⟩
  have hmid : (1 / 2 : ℝ) * ((overlapSquare : List (b2Vec2 ℝ)).getD 0 0 +
      (overlapSquare : List (b2Vec2 ℝ)).getD ((0 + 1) % (overlapSquare : List (b2Vec2 ℝ)).length) 0)
      = ⟨3/4, 1/2⟩ := by
    refine b2Vec2.ext ?_ ?_ <;> norm_num [overlapSquare]
  have h0 := (h.2 0).2 hpos
  simp only [hmid] at h0
  exact ⟨_, _, h0⟩

/-- C6 as the spec has it fails: at the unit square of fluid and the sinking
square, the bottom edge (index 0) of the intersection has `dragDot = 1/2`,
which is not negative, and the loop applies two forces for it; in all
`HandleBuoyancy` makes eight calls, two before the loop and two for each of
the three edges whose `dragDot` is not negative. -/
theorem C6_nonnegative_dragDot_contributes :
    edgeDragDot (polygonFixture unitSquare) (sinkingFixture shiftedSquare)
      (gravityMultiplierOf false) (overlapSquare : List (b2Vec2 ℝ)) 0 = 1/2 ∧
    (edgeForces (⟨Real.cos, Real.sin, Real.sqrt⟩ : Libm ℝ) (polygonFixture unitSquare)
      (sinkingFixture shiftedSquare) (gravityMultiplierOf false) 1 1 overlapSquare 0).length
      = 2 ∧
    Option.map List.length (HandleBuoyancy (⟨Real.cos, Real.sin, Real.sqrt⟩ : Libm ℝ)
      (polygonFixture unitSquare) (sinkingFixture shiftedSquare) ⟨0, -10⟩ false 1 1 0 0)
      = some 8 := by
  have h0 : edgeDragDot (polygonFixture unitSquare) (sinkingFixture shiftedSquare)
      (gravityMultiplierOf false) (overlapSquare : List (b2Vec2 ℝ)) 0 = 1/2 := by
    norm_num [edgeDragDot, edgeVelDir, overlapSquare, sinkingFixture, sinkingBody,
      polygonFixture, bodyAtRest, b2CrossSV, b2Dot, gravityMultiplierOf]
  have h1 : edgeDragDot (polygonFixture unitSquare) (sinkingFixture shiftedSquare)
      (gravityMultiplierOf false) (overlapSquare : List (b2Vec2 ℝ)) 1 = 0 := by
    norm_num [edgeDragDot, edgeVelDir, overlapSquare, sinkingFixture, sinkingBody,
      polygonFixture, bodyAtRest, b2CrossSV, b2Dot, gravityMultiplierOf]
  have h2 : edgeDragDot (polygonFixture unitSquare) (sinkingFixture shiftedSquare)
      (gravityMultiplierOf false) (overlapSquare : List (b2Vec2 ℝ)) 2 = -(1/2) := by
    norm_num [edgeDragDot, edgeVelDir, overlapSquare, sinkingFixture, sinkingBody,
      polygonFixture, bodyAtRest, b2CrossSV, b2Dot, gravityMultiplierOf]
  have h3 : edgeDragDot (polygonFixture unitSquare) (sinkingFixture shiftedSquare)
      (gravityMultiplierOf false) (overlapSquare : List (b2Vec2 ℝ)) 3 = 0 := by
    norm_num [edgeDragDot, edgeVelDir, overlapSquare, sinkingFixture, sinkingBody,
      polygonFixture, bodyAtRest, b2CrossSV, b2Dot, gravityMultiplierOf]
  refine ⟨h0, ?_, ?_⟩
  · simp only [edgeForces, h0]
    norm_num
  · rw [HandleBuoyancy_of_found _ _ _ _ _ _ _ _ _ overlapSquare ⟨3/4, 3/4⟩ (1/4)
      (FindIntersectionOfFixtures_sinking _) ComputeCentroid_overlapSquare]
    have hlen : (overlapSquare : List (b2Vec2 ℝ)).length = 4 := rfl
    simp only [hlen, List.range_succ, List.range_zero, List.nil_append, List.cons_append,
      List.map_cons, List.map_nil, List.flatten_cons, List.flatten_nil, Option.map_some',
      edgeForces, h0, h1, h2, h3]
    norm_num

/-- C7 as the spec has it fails in the `float` arithmetic of the source.  The
triangle `(1, 2.25), (1, 2.5), (0.875, 2.5)` lies on the side `3x - y > 0` of
the line `y = 3x`, the triangle `(-2²⁴, -3·2²⁴), (2²⁴, 3·2²⁴), (-2²⁴, 3·2²⁴)`
on the other side with an edge on the line: both are convex and listed
counter-clockwise, all coordinates are `float` numbers, and the two have no
point in common.  In `float` arithmetic the differences `p.x + 2²⁴` and
`p.y + 3·2²⁴` of `Inside` are rounded, every vertex of the first triangle
passes the test of every clip edge, and `FindIntersectionOfFixtures` returns
`true` with the three vertices, the condition under which `HandleBuoyancy`
applies forces. -/
theorem C7_float_disjoint_triangles_intersect :
    ConvexPolygon [(⟨-16777216, -50331648⟩ : b2Vec2 ℚ), ⟨16777216, 50331648⟩,
      ⟨-16777216, 50331648⟩] ∧
    ConvexPolygon [(⟨1, 9/4⟩ : b2Vec2 ℚ), ⟨1, 5/2⟩, ⟨7/8, 5/2⟩] ∧
    Disjoint (hull [(⟨1, 9/4⟩ : b2Vec2 ℚ), ⟨1, 5/2⟩, ⟨7/8, 5/2⟩])
      (hull [(⟨-16777216, -50331648⟩ : b2Vec2 ℚ), ⟨16777216, 50331648⟩,
        ⟨-16777216, 50331648⟩]) ∧
    Binary32.FindIntersectionOfFixtures Binary32.libmAtZero
      (polygonFixture [⟨1, 9/4⟩, ⟨1, 5/2⟩, ⟨7/8, 5/2⟩])
      (polygonFixture [⟨-16777216, -50331648⟩, ⟨16777216, 50331648⟩, ⟨-16777216, 50331648⟩]) []
      = some (true, [⟨1, 9/4⟩, ⟨1, 5/2⟩, ⟨7/8, 5/2⟩]) := by
  refine ⟨Or.inl (convexCCW_triangle _ _ _ (by norm_num [b2Cross])),
    Or.inl (convexCCW_triangle _ _ _ (by norm_num [b2Cross])), ?_, by decide!⟩
  apply disjoint_hull_of_separated _ _ 3 (-1) (-(1/16))
  · intro v hv
    simp only [List.mem_cons, List.mem_singleton, List.not_mem_nil, or_false] at hv
    rcases hv with rfl | rfl | rfl <;> norm_num
  · intro v hv
    simp only [List.mem_cons, List.mem_singleton, List.not_mem_nil, or_false] at hv
    rcases hv with rfl | rfl | rfl <;> norm_num

/-- C7 as the code has it: `HandleBuoyancy` makes no call at all on the body
when `FindIntersectionOfFixtures` reports no intersection, and that is what it
reports when the shape of either fixture is neither a polygon nor a circle
and, in exact arithmetic, when the two shapes are disjoint (the clip polygon
convex and the two not overlapping). -/
theorem C7_no_force_without_intersection [FloorRing K] (m : Libm K)
    (fluid fixture : b2Fixture K) (gravity : b2Vec2 K) (flipGravity : Bool)
    (density dragMultiplier flowMagnitude flowAngleInRadians : K)
    (h : (FindIntersectionOfFixtures m fluid fixture []).1 = false ∨
      isPolygonOrCircle fluid.GetShape = false ∨ isPolygonOrCircle fixture.GetShape = false ∨
      ∃ S C, fillVertices m fluid [] = some S ∧ fillVertices m fixture [] = some C ∧
        ConvexPolygon C ∧ DoNotOverlap S C) :
    (FindIntersectionOfFixtures m fluid fixture []).1 = false ∧
    HandleBuoyancy m fluid fixture gravity flipGravity density dragMultiplier flowMagnitude
      flowAngleInRadians = some [] := by
  have hflag : (FindIntersectionOfFixtures m fluid fixture []).1 = false := by
    rcases h with h | h | h | ⟨S, C, hA, hB, hC, hdis⟩
    · exact h
    · exact FindIntersectionOfFixtures_unsupported m fluid fixture [] (Or.inl h)
    · exact FindIntersectionOfFixtures_unsupported m fluid fixture [] (Or.inr h)
    · rw [FindIntersectionOfFixtures_doNotOverlap m fluid fixture S C hA hB hC hdis]
  exact ⟨hflag, HandleBuoyancy_of_not_found m fluid fixture gravity flipGravity density
    dragMultiplier flowMagnitude flowAngleInRadians hflag⟩

/-- C7 as the code has it, at a fluid square with a body whose fixture is an
edge shape, and at a fluid square with a body square one unit apart from it. -/
theorem C7_no_force_without_intersection_witness :
    ((FindIntersectionOfFixtures (⟨Real.cos, Real.sin, Real.sqrt⟩ : Libm ℝ) (polygonFixture unitSquare)
        edgeFixture []).1 = false ∧
      HandleBuoyancy (⟨Real.cos, Real.sin, Real.sqrt⟩ : Libm ℝ) (polygonFixture unitSquare) edgeFixture
        ⟨0, -10⟩ false 1 1 1 0 = some []) ∧
    ((FindIntersectionOfFixtures (⟨Real.cos, Real.sin, Real.sqrt⟩ : Libm ℝ) (polygonFixture unitSquare)
        (polygonFixture farSquare) []).1 = false ∧
      HandleBuoyancy (⟨Real.cos, Real.sin, Real.sqrt⟩ : Libm ℝ) (polygonFixture unitSquare)
        (polygonFixture farSquare) ⟨0, -10⟩ false 1 1 1 0 = some []) :=
  ⟨C7_no_force_without_intersection _ _ _ _ _ _ _ _ _ (Or.inr (Or.inr (Or.inl rfl))),
   C7_no_force_without_intersection _ _ _ _ _ _ _ _ _ (Or.inr (Or.inr (Or.inr
    ⟨unitSquare, farSquare, fillVertices_polygon _ _ _, fillVertices_polygon _ _ _,
      convexPolygon_farSquare, Or.inl disjoint_unitSquare_farSquare⟩)))⟩

/-- C8 fails on the code: with a circle of radius `1/16` as the fluid fixture,
which `VerticesFromCircle` samples as the single point `(5/16, 1/2)`, inside
the unit square of the body, `FindIntersectionOfFixtures` returns `true` with
a one-point polygon, and `HandleBuoyancy` passes it to `ComputeCentroid`,
whose assertion `count >= 3` fails. -/
theorem C8_assertion_fails_for_small_circle :
    FindIntersectionOfFixtures (⟨Real.cos, Real.sin, Real.sqrt⟩ : Libm ℝ)
      (circleFixture ⟨1/4, 1/2⟩ (1/16)) (polygonFixture unitSquare) []
      = (true, [⟨5/16, 1/2⟩]) ∧
    ComputeCentroid ([⟨5/16, 1/2⟩] : List (b2Vec2 ℝ)) = none ∧
    HandleBuoyancy (⟨Real.cos, Real.sin, Real.sqrt⟩ : Libm ℝ)
      (circleFixture ⟨1/4, 1/2⟩ (1/16)) (polygonFixture unitSquare) ⟨0, -10⟩ false 1 1 0 0
      = none := by
  have hfill : fillVertices (⟨Real.cos, Real.sin, Real.sqrt⟩ : Libm ℝ)
      (circleFixture ⟨1/4, 1/2⟩ (1/16)) [] = some [⟨5/16, 1/2⟩] := by
    simp only [fillVertices, circleFixture, VerticesFromCircle_circle]
    have hc : ⌈(16 : ℝ) * (1/16)⌉ = 1 := by norm_num
    rw [hc]
    have h1 : (1 : ℤ).toNat = 1 := rfl
    simp only [h1, List.range_succ, List.range_zero, List.map_cons, List.map_nil,
      List.nil_append, Nat.cast_zero, mul_zero, Real.cos_zero, Real.sin_zero]
    refine congrArg some (congrArg (fun v => [v]) (b2Vec2.ext ?_ ?_)) <;> norm_num
  have hfound : FindIntersectionOfFixtures (⟨Real.cos, Real.sin, Real.sqrt⟩ : Libm ℝ)
      (circleFixture ⟨1/4, 1/2⟩ (1/16)) (polygonFixture unitSquare) []
      = (true, [⟨5/16, 1/2⟩]) := by
    have hl : (unitSquare : List (b2Vec2 ℝ)).getLast? = some ⟨0, 1⟩ := by simp [unitSquare]
    rw [FindIntersectionOfFixtures_eq_clipLoop _ _ _ _ unitSquare ⟨0, 1⟩ hfill
      (fillVertices_polygon _ unitSquare []) hl]
    norm_num [unitSquare, clipLoop, clipWalk, Inside, Intersection]
  have hnone : ComputeCentroid ([⟨5/16, 1/2⟩] : List (b2Vec2 ℝ)) = none := by
    simp [ComputeCentroid]
  refine ⟨hfound, hnone, ?_⟩
  simp only [HandleBuoyancy, hfound, hnone, if_true]

/-- C9 as the spec has it fails.  For a circle of radius `0` and resolution
`16`, `VerticesFromCircle` appends no point, in exact and in `float`
arithmetic, while `max(1, ceil(16 * 0))` is `1`.  In the `float` arithmetic of
the source the product is rounded before the ceiling is taken: for resolution
`3` and the `float` radius `11184811/33554432` (the `float` nearest to `1/3`)
the exact product is `1 + 2⁻²⁵`, with ceiling `2`, the `float` product is `1`,
and one point is appended.  And for resolution `16` and radius `150000000` the
count `2400000000` does not fit the 32-bit `int` it is cast to, and the call
does not return. -/
theorem C9_point_count_not_as_claimed :
    (0 : ℝ) ≤ 0 ∧ (0 : ℝ) < 16 ∧
    (VerticesFromCircle (⟨Real.cos, Real.sin, Real.sqrt⟩ : Libm ℝ)
      (circleFixture ⟨0, 0⟩ 0) [] 16).2 = [] ∧
    (((VerticesFromCircle (⟨Real.cos, Real.sin, Real.sqrt⟩ : Libm ℝ)
      (circleFixture ⟨0, 0⟩ 0) [] 16).2.length : ℤ) ≠ max 1 ⌈(16 : ℝ) * 0⌉) ∧
    Binary32.VerticesFromCircle Binary32.libmAtZero (circleFixture ⟨0, 0⟩ 0) [] 16
      = some (true, []) ∧
    Binary32.float32 (11184811/33554432) = some (11184811/33554432) ∧
    max 1 ⌈(3 : ℚ) * (11184811/33554432)⌉ = 2 ∧
    Binary32.VerticesFromCircle Binary32.libmAtZero
      (circleFixture ⟨0, 0⟩ (11184811/33554432)) [] 3
      = some (true, [⟨11184811/33554432, 0⟩]) ∧
    Binary32.float32 150000000 = some 150000000 ∧
    max 1 ⌈(16 : ℚ) * 150000000⌉ = 2400000000 ∧
    Binary32.VerticesFromCircle Binary32.libmAtZero (circleFixture ⟨0, 0⟩ 150000000) [] 16
      = none := by
  have h : (VerticesFromCircle (⟨Real.cos, Real.sin, Real.sqrt⟩ : Libm ℝ)
      (circleFixture ⟨0, 0⟩ 0) [] 16).2 = [] := by
    simp [circleFixture, VerticesFromCircle_circle]
  refine ⟨le_refl _, by norm_num, h, ?_, by decide!, by decide!, by decide!, by decide!,
    by decide!, by decide!, by decide!⟩
  rw [h]
  simp

/-- C9 as the code has it, in exact arithmetic and for a count that fits a
32-bit `int`: for every circle fixture with `radius >= 0` and every
`resolution > 0` with `ceil(resolution * radius) < 2³¹`, `VerticesFromCircle`
returns `true` and appends exactly `ceil(resolution * radius)` points to the
vertex list, with no lower bound of one: that is
`max(1, ceil(resolution * radius))` points when `radius > 0`, and no point when
`radius = 0`. -/
theorem C9_point_count [FloorRing K] (m : Libm K) (c : b2Vec2 K) (body : b2Body K)
    (vertices : List (b2Vec2 K)) (radius resolution : K)
    (hr : 0 ≤ radius) (hres : 0 < resolution)
    (hint : ⌈resolution * radius⌉ < 2 ^ 31) :
    (VerticesFromCircle m ⟨b2Shape.e_circle c radius, body⟩ vertices resolution).1 = true ∧
    ∃ appended, (VerticesFromCircle m ⟨b2Shape.e_circle c radius, body⟩ vertices
        resolution).2 = vertices ++ appended ∧
      (appended.length : ℤ) = ⌈resolution * radius⌉ ∧
      (appended.length : ℤ) < 2 ^ 31 ∧
      (0 < radius → (appended.length : ℤ) = max 1 ⌈resolution * radius⌉) ∧
      (radius = 0 → appended = []) := by
  rw [VerticesFromCircle_circle]
  have hnn : 0 ≤ ⌈resolution * radius⌉ := Int.ceil_nonneg (mul_nonneg (le_of_lt hres) hr)
  have hlen : (((List.range ⌈resolution * radius⌉.toNat).map fun (i : ℕ) =>
      body.GetPosition + radius *
        (⟨m.cos (twoPi / (⌈resolution * radius⌉ : K) * (i : K)),
          m.sin (twoPi / (⌈resolution * radius⌉ : K) * (i : K))⟩ : b2Vec2 K)).length : ℤ)
      = ⌈resolution * radius⌉ := by
    simp only [List.length_map, List.length_range]
    exact Int.toNat_of_nonneg hnn
  refine ⟨rfl, _, rfl, hlen, ?_, ?_, ?_⟩
  · rw [hlen]; exact hint
  · intro hpos
    have h1 : 0 < ⌈resolution * radius⌉ := Int.ceil_pos.2 (mul_pos hres hpos)
    rw [hlen, max_eq_right (by omega)]
  · intro h0
    subst h0
    simp

/-- C9 as the code has it, at radius `2` and resolution `16`: `32` points. -/
theorem C9_point_count_witness :
    (VerticesFromCircle (⟨Real.cos, Real.sin, Real.sqrt⟩ : Libm ℝ) (circleFixture ⟨0, 0⟩ 2) [] 16).1 = true ∧
    ∃ appended, (VerticesFromCircle (⟨Real.cos, Real.sin, Real.sqrt⟩ : Libm ℝ) (circleFixture ⟨0, 0⟩ 2) []
        16).2 = [] ++ appended ∧
      (appended.length : ℤ) = ⌈(16 : ℝ) * 2⌉ ∧
      (appended.length : ℤ) < 2 ^ 31 ∧
      (0 < (2 : ℝ) → (appended.length : ℤ) = max 1 ⌈(16 : ℝ) * 2⌉) ∧
      ((2 : ℝ) = 0 → appended = []) :=
  C9_point_count (⟨Real.cos, Real.sin, Real.sqrt⟩ : Libm ℝ) 0 ⟨⟨0, 0⟩, id, fun _ => 0⟩ [] 2 16 (by norm_num)
    (by norm_num) (by
      rw [show (16 : ℝ) * 2 = ((32 : ℤ) : ℝ) by norm_num, Int.ceil_intCast]
      norm_num)

/-- C10 as the spec has it fails.  A circle of radius `2` with local centre
`(5, 5)` on a body at the origin, not rotated, has its centre at `(5, 5)`, yet
the first of the 32 points sampled is `(2, 0)`, at squared distance `34` from
that centre, not `4`: the points are laid around the body position.  And for
the circle with local centre `(0, 0)` the second point has
`x = 2 * cos(twoPi / 32)`, which is not `2 * cos(2 * pi / 32)`.  In the `float`
arithmetic of the source the distance is not exactly the radius either: for a
body at `(1, 0)`, radius `2⁻²⁴` and resolution `16` the one point sampled, at
angle `0`, is `(1 + 2⁻²⁴, 0)` rounded, which is the body position `(1, 0)`
itself, at distance `0`. -/
theorem C10_points_not_around_circle_centre :
    (⟨⟨0, 0⟩, id, fun _ => 0⟩ : b2Body ℝ).GetWorldPoint ⟨5, 5⟩ = ⟨5, 5⟩ ∧
    ⌈(16 : ℝ) * 2⌉ = 32 ∧
    (VerticesFromCircle ⟨Real.cos, Real.sin, Real.sqrt⟩
      ⟨b2Shape.e_circle ⟨5, 5⟩ 2, ⟨⟨0, 0⟩, id, fun _ => 0⟩⟩ [] 16).2.getD 0 0
      = (⟨2, 0⟩ : b2Vec2 ℝ) ∧
    ((2 : ℝ) - 5) ^ 2 + (0 - 5) ^ 2 ≠ 2 ^ 2 ∧
    ((VerticesFromCircle ⟨Real.cos, Real.sin, Real.sqrt⟩
      ⟨b2Shape.e_circle ⟨0, 0⟩ 2, ⟨⟨0, 0⟩, id, fun _ => 0⟩⟩ [] 16).2.getD 1 0).x
      = 0 + 2 * Real.cos (1 * twoPi / 32) ∧
    (0 : ℝ) + 2 * Real.cos (1 * twoPi / 32) ≠ 0 + 2 * Real.cos (1 * (2 * Real.pi) / 32) ∧
    Binary32.float32 (1/16777216) = some (1/16777216) ∧
    Binary32.VerticesFromCircle Binary32.libmAtZero (circleFixture ⟨1, 0⟩ (1/16777216)) [] 16
      = some (true, [⟨1, 0⟩]) := by
  have hc : ⌈(16 : ℝ) * 2⌉ = 32 := by
    rw [show (16 : ℝ) * 2 = ((32 : ℤ) : ℝ) by norm_num, Int.ceil_intCast]
  have h32 : (32 : ℤ).toNat = 32 := rfl
  refine ⟨rfl, hc, ?_, by norm_num, ?_, ?_, by decide!, by decide!⟩
  · rw [VerticesFromCircle_circle, hc, h32]
    have := getD_append_map_range ([] : List (b2Vec2 ℝ))
      (fun (i : ℕ) => (⟨0, 0⟩ : b2Vec2 ℝ) + (2 : ℝ) *
        (⟨Real.cos (twoPi / ((32 : ℤ) : ℝ) * (i : ℝ)),
          Real.sin (twoPi / ((32 : ℤ) : ℝ) * (i : ℝ))⟩ : b2Vec2 ℝ)) 32 0 (by norm_num)
    simp only [List.length_nil, Nat.add_zero] at this
    rw [this]
    refine b2Vec2.ext ?_ ?_ <;> simp
  · rw [VerticesFromCircle_circle, hc, h32]
    have := getD_append_map_range ([] : List (b2Vec2 ℝ))
      (fun (i : ℕ) => (⟨0, 0⟩ : b2Vec2 ℝ) + (2 : ℝ) *
        (⟨Real.cos (twoPi / ((32 : ℤ) : ℝ) * (i : ℝ)),
          Real.sin (twoPi / ((32 : ℤ) : ℝ) * (i : ℝ))⟩ : b2Vec2 ℝ)) 32 1 (by norm_num)
    simp only [List.length_nil, Nat.zero_add] at this
    rw [this]
    simp only [b2Vec2.add_x, b2Vec2.smul_x]
    norm_num
  · intro h
    have h2 : Real.cos (1 * twoPi / 32) = Real.cos (1 * (2 * Real.pi) / 32) := by linarith
    have hpi := Real.pi_gt_three
    have hpi4 := Real.pi_le_four
    have htp := twoPi_close
    have hinj := Real.injOn_cos
      (show (1 * twoPi / 32 : ℝ) ∈ Set.Icc 0 Real.pi by
        constructor
        · unfold twoPi; norm_num
        · unfold twoPi; norm_num; linarith)
      (show (1 * (2 * Real.pi) / 32 : ℝ) ∈ Set.Icc 0 Real.pi by
        constructor <;> linarith) h2
    have : (twoPi : ℝ) = 2 * Real.pi := by linarith
    have := htp.1
    norm_num at this
    linarith

/-- C10 as the code has it: for a circle fixture with any local centre and
`n = ceil(resolution * radius)` with `1 <= n < 2³¹`, so that `n` fits the
32-bit `int` of the source, in exact arithmetic with `cos` and `sin` the
real functions, the `i`-th point (`0 <= i < n`) that `VerticesFromCircle`
appends is `position + radius * (cos(i * twoPi / n), sin(i * twoPi / n))`,
where `position` is the position of the owning body and `twoPi` is the
constant of the source, which exceeds `2 * pi` by about `1.75 * 10⁻⁷`; so the
first point is at angle `0`, consecutive points are one step `twoPi / n` apart,
and every point is at distance exactly `radius` from the body position (the
squared distance is `radius²`, the distance `|radius|`). -/
theorem C10_circle_points (c : b2Vec2 ℝ) (body : b2Body ℝ) (vertices : List (b2Vec2 ℝ))
    (radius resolution : ℝ) (i : ℕ) (hi : i < ⌈resolution * radius⌉.toNat)
    (hint : ⌈resolution * radius⌉ < 2 ^ 31) :
    (1 ≤ ⌈resolution * radius⌉ ∧ ⌈resolution * radius⌉ < 2 ^ 31) ∧
    ((VerticesFromCircle ⟨Real.cos, Real.sin, Real.sqrt⟩ ⟨b2Shape.e_circle c radius, body⟩
        vertices resolution).2.length = vertices.length + ⌈resolution * radius⌉.toNat) ∧
    ((VerticesFromCircle ⟨Real.cos, Real.sin, Real.sqrt⟩ ⟨b2Shape.e_circle c radius, body⟩
        vertices resolution).2.getD (vertices.length + i) 0 =
      ⟨body.GetPosition.x + radius * Real.cos (i * twoPi / ⌈resolution * radius⌉),
       body.GetPosition.y + radius * Real.sin (i * twoPi / ⌈resolution * radius⌉)⟩) ∧
    ((VerticesFromCircle ⟨Real.cos, Real.sin, Real.sqrt⟩ ⟨b2Shape.e_circle c radius, body⟩
        vertices resolution).2.getD (vertices.length + 0) 0 =
      ⟨body.GetPosition.x + radius, body.GetPosition.y⟩) ∧
    (((VerticesFromCircle ⟨Real.cos, Real.sin, Real.sqrt⟩ ⟨b2Shape.e_circle c radius, body⟩
        vertices resolution).2.getD (vertices.length + i) 0).x - body.GetPosition.x) ^ 2 +
      (((VerticesFromCircle ⟨Real.cos, Real.sin, Real.sqrt⟩ ⟨b2Shape.e_circle c radius, body⟩
        vertices resolution).2.getD (vertices.length + i) 0).y - body.GetPosition.y) ^ 2
      = radius ^ 2 ∧
    Real.sqrt ((((VerticesFromCircle ⟨Real.cos, Real.sin, Real.sqrt⟩
        ⟨b2Shape.e_circle c radius, body⟩ vertices resolution).2.getD
          (vertices.length + i) 0).x - body.GetPosition.x) ^ 2 +
      (((VerticesFromCircle ⟨Real.cos, Real.sin, Real.sqrt⟩ ⟨b2Shape.e_circle c radius, body⟩
        vertices resolution).2.getD (vertices.length + i) 0).y - body.GetPosition.y) ^ 2)
      = |radius| ∧
    (17 / 10 ^ 8 < (twoPi : ℝ) - 2 * Real.pi ∧ (twoPi : ℝ) - 2 * Real.pi < 18 / 10 ^ 8) := by
  have hn : 1 ≤ ⌈resolution * radius⌉ := by omega
  have h0 : 0 < ⌈resolution * radius⌉.toNat := by omega
  rw [VerticesFromCircle_circle]
  simp only [getD_append_map_range _ _ _ _ hi, getD_append_map_range _ _ _ _ h0]
  have hsq : (((body.GetPosition + radius *
      (⟨Real.cos (twoPi / (⌈resolution * radius⌉ : ℝ) * (i : ℝ)),
        Real.sin (twoPi / (⌈resolution * radius⌉ : ℝ) * (i : ℝ))⟩ : b2Vec2 ℝ)).x
        - body.GetPosition.x) ^ 2 +
      ((body.GetPosition + radius *
      (⟨Real.cos (twoPi / (⌈resolution * radius⌉ : ℝ) * (i : ℝ)),
        Real.sin (twoPi / (⌈resolution * radius⌉ : ℝ) * (i : ℝ))⟩ : b2Vec2 ℝ)).y
        - body.GetPosition.y) ^ 2) = radius ^ 2 := by
    simp only [b2Vec2.add_x, b2Vec2.smul_x, b2Vec2.add_y, b2Vec2.smul_y]
    have := Real.cos_sq_add_sin_sq (twoPi / (⌈resolution * radius⌉ : ℝ) * (i : ℝ))
    linear_combination radius ^ 2 * this
  refine ⟨⟨hn, hint⟩, by simp, ?_, ?_, hsq, by rw [hsq, Real.sqrt_sq_eq_abs], twoPi_close⟩
  · refine b2Vec2.ext ?_ ?_
    · simp only [b2Vec2.add_x, b2Vec2.smul_x]
      rw [show (twoPi : ℝ) / (⌈resolution * radius⌉ : ℝ) * (i : ℝ)
        = (i : ℝ) * twoPi / (⌈resolution * radius⌉ : ℝ) by ring]
    · simp only [b2Vec2.add_y, b2Vec2.smul_y]
      rw [show (twoPi : ℝ) / (⌈resolution * radius⌉ : ℝ) * (i : ℝ)
        = (i : ℝ) * twoPi / (⌈resolution * radius⌉ : ℝ) by ring]
  · refine b2Vec2.ext ?_ ?_ <;> simp

/-- C10 as the code has it, at a body at `(0, 0)`, radius `2` and resolution
`16`: `32` points, the last of them (index `31`) at squared distance `4` from
the body position. -/
theorem C10_circle_points_witness :
    (31 < ⌈(16 : ℝ) * 2⌉.toNat) ∧
    (VerticesFromCircle ⟨Real.cos, Real.sin, Real.sqrt⟩ (circleFixture (⟨0, 0⟩ : b2Vec2 ℝ) 2)
      [] 16).2.length = 32 ∧
    (((VerticesFromCircle ⟨Real.cos, Real.sin, Real.sqrt⟩ (circleFixture (⟨0, 0⟩ : b2Vec2 ℝ) 2)
      [] 16).2.getD 31 0).x - 0) ^ 2 +
    (((VerticesFromCircle ⟨Real.cos, Real.sin, Real.sqrt⟩ (circleFixture (⟨0, 0⟩ : b2Vec2 ℝ) 2)
      [] 16).2.getD 31 0).y - 0) ^ 2 = (2 : ℝ) ^ 2 := by
  have hc : ⌈(16 : ℝ) * 2⌉ = 32 := by
    rw [show (16 : ℝ) * 2 = ((32 : ℤ) : ℝ) by norm_num, Int.ceil_intCast]
  have hi : 31 < ⌈(16 : ℝ) * 2⌉.toNat := by rw [hc]; decide
  have h := C10_circle_points 0 ⟨⟨0, 0⟩, id, fun _ => 0⟩ [] 2 16 31 hi (by rw [hc]; norm_num)
  refine ⟨hi, ?_, ?_⟩
  · have := h.2.1
    rw [hc] at this
    simpa [circleFixture] using this
  · have := h.2.2.2.2.1
    simpa [circleFixture] using this

/-- C11: for every polygon with at least three points `ComputeCentroid` returns,
and the area it reports is never negative: it is exactly `0` or greater than
`b2_epsilon`.  When the fan sum of the signed triangle areas is at most
`b2_epsilon` the reported area is exactly `0` and the centroid returned is the
accumulator as it is; otherwise the reported area is the fan sum and the
centroid is the accumulator divided by it. -/
theorem C11_area_zero_or_above_epsilon (vs : List (b2Vec2 K)) (h3 : 3 ≤ vs.length) :
    ∃ c area, ComputeCentroid vs = some (c, area) ∧
      0 ≤ area ∧ (area = 0 ∨ b2_epsilon < area) ∧
      ((centroidSums vs).2 ≤ b2_epsilon → area = 0 ∧ c = (centroidSums vs).1) ∧
      (b2_epsilon < (centroidSums vs).2 → area = (centroidSums vs).2 ∧
        c = ⟨(centroidSums vs).1.x / (centroidSums vs).2,
          (centroidSums vs).1.y / (centroidSums vs).2⟩) := by
  have hlen : ¬ vs.length < 3 := by omega
  rw [ComputeCentroid_eq_sums]
  simp only [hlen, if_false]
  by_cases h : (centroidSums vs).2 > b2_epsilon
  · rw [if_pos h]
    refine ⟨_, _, rfl, le_of_lt (lt_trans b2_epsilon_pos h), Or.inr h, ?_, ?_⟩
    · intro hle; exact absurd h (not_lt.2 hle)
    · intro _
      refine ⟨rfl, ?_⟩
      simp only [b2Vec2.mulAssign, one_div, div_eq_mul_inv, one_mul]
  · rw [if_neg h]
    refine ⟨_, _, rfl, le_refl _, Or.inl rfl, ?_, ?_⟩
    · intro _; exact ⟨rfl, rfl⟩
    · intro hlt; exact absurd hlt h

/-- C11, at the triangle `(0,4), (3,0), (0,0)`, listed clockwise: the fan sum
is `-6` and the area reported is `0`. -/
theorem C11_area_zero_or_above_epsilon_witness :
    (centroidSums [(⟨0, 4⟩ : b2Vec2 ℚ), ⟨3, 0⟩, ⟨0, 0⟩]).2 = -6 ∧
    ∃ c, ComputeCentroid [(⟨0, 4⟩ : b2Vec2 ℚ), ⟨3, 0⟩, ⟨0, 0⟩] = some (c, 0) := by
  have hs : (centroidSums [(⟨0, 4⟩ : b2Vec2 ℚ), ⟨3, 0⟩, ⟨0, 0⟩]).2 = -6 := by
    norm_num [centroidSums, List.range_succ, centroidStep, b2Cross]
  obtain ⟨c, area, h, _, _, hle, _⟩ := C11_area_zero_or_above_epsilon
    [(⟨0, 4⟩ : b2Vec2 ℚ), ⟨3, 0⟩, ⟨0, 0⟩] (by simp)
  have h0 := (hle (by rw [hs]; norm_num [b2_epsilon])).1
  subst h0
  exact ⟨hs, c, h⟩

/-- C13 as the spec has it fails: with the unit square as subject and a circle
of radius `0`, which is sampled as no point, as clip shape, the clipper returns
`false` and the output vector holds the four vertices of the unit square. -/
theorem C13_empty_clip_leaves_subject_vertices :
    FindIntersectionOfFixtures (⟨Real.cos, Real.sin, Real.sqrt⟩ : Libm ℝ)
        (polygonFixture unitSquare) (circleFixture ⟨1/2, 1/2⟩ 0) []
      = (false, unitSquare) ∧ (unitSquare : List (b2Vec2 ℝ)) ≠ [] := by
  refine ⟨?_, by simp [unitSquare]⟩
  have h := FindIntersectionOfFixtures_empty_clip (⟨Real.cos, Real.sin, Real.sqrt⟩ : Libm ℝ)
    (polygonFixture unitSquare) (circleFixture ⟨1/2, 1/2⟩ 0) [] unitSquare
    (fillVertices_polygon _ _ _) (fillVertices_circle_zero _ _)
  simpa using h

/-- C13 as the code has it: when `shapeB` resolves to an empty clip polygon,
`FindIntersectionOfFixtures` returns `false`, whatever the subject polygon is,
and the output vector is left holding what it held on entry followed by the
world-space vertices of the subject; it holds no vertices only when it was
empty on entry and the subject resolves to no vertices. -/
theorem C13_empty_clip_returns_false_and_keeps_subject [FloorRing K] (m : Libm K)
    (fA fB : b2Fixture K) (out S : List (b2Vec2 K))
    (hA : fillVertices m fA [] = some S) (hB : fillVertices m fB [] = some []) :
    FindIntersectionOfFixtures m fA fB out = (false, out ++ S) ∧
      ((FindIntersectionOfFixtures m fA fB out).2 = [] ↔ out = [] ∧ S = []) := by
  rw [FindIntersectionOfFixtures_empty_clip m fA fB out S hA hB]
  exact ⟨rfl, by simp⟩

/-- C13 as the code has it, at the unit square clipped by a circle of radius
`0`, with the vertex `(7, 7)` in the vector on entry. -/
theorem C13_empty_clip_returns_false_and_keeps_subject_witness :
    FindIntersectionOfFixtures (⟨Real.cos, Real.sin, Real.sqrt⟩ : Libm ℝ)
        (polygonFixture unitSquare) (circleFixture 0 0) [⟨7, 7⟩]
      = (false, [⟨7, 7⟩] ++ unitSquare) :=
  (C13_empty_clip_returns_false_and_keeps_subject (⟨Real.cos, Real.sin, Real.sqrt⟩ : Libm ℝ)
    (polygonFixture unitSquare) (circleFixture 0 0) [⟨7, 7⟩] unitSquare
    (fillVertices_polygon _ _ _) (fillVertices_circle_zero _ _)).1

/-- C15 as the spec has it fails: for the two overlapping unit squares, both
on bodies at rest, with gravity `(0, -10)`, density `1`, flow magnitude `1`
and flow angle `0`, the second call applies the flow force `(1, 0)`, which is
not the zero vector. -/
theorem C15_flow_force_at_rest_not_zero :
    AtRest (polygonFixture (unitSquare : List (b2Vec2 ℝ))).GetBody ∧
    AtRest (polygonFixture (shiftedSquare : List (b2Vec2 ℝ))).GetBody ∧
    (∃ rest, HandleBuoyancy (⟨Real.cos, Real.sin, Real.sqrt⟩ : Libm ℝ)
        (polygonFixture unitSquare) (polygonFixture shiftedSquare) ⟨0, -10⟩ false 1 1 1 0 =
      some (ForceCall.ApplyForce ⟨0, 5/2⟩ ⟨3/4, 3/4⟩ true ::
        ForceCall.ApplyForceToCenter ⟨1, 0⟩ true :: rest)) ∧
    forceOf (ForceCall.ApplyForceToCenter (⟨1, 0⟩ : b2Vec2 ℝ) true) ≠ 0 := by
  have h := HandleBuoyancy_of_found (⟨Real.cos, Real.sin, Real.sqrt⟩ : Libm ℝ)
    (polygonFixture unitSquare) (polygonFixture shiftedSquare) ⟨0, -10⟩ false 1 1 1 0
    overlapSquare ⟨3/4, 3/4⟩ (1/4) (FindIntersectionOfFixtures_squares _)
    ComputeCentroid_overlapSquare
  have e1 : ((1 : ℝ) * (1/4) * gravityMultiplierOf false) * (-(⟨0, -10⟩ : b2Vec2 ℝ))
      = ⟨0, 5/2⟩ := by
    refine b2Vec2.ext ?_ ?_ <;> norm_num [gravityMultiplierOf]
  have e2 : (1 : ℝ) * (⟨Real.cos 0, Real.sin 0⟩ : b2Vec2 ℝ) = ⟨1, 0⟩ := by
    refine b2Vec2.ext ?_ ?_ <;> simp
  rw [e1, e2] at h
  refine ⟨fun _ => rfl, fun _ => rfl, ⟨_, h⟩, ?_⟩
  intro h0
  have := congrArg b2Vec2.x h0
  simp [forceOf] at this

/-- C15 as the code has it: with a gravity of negative `y`, `flipGravity`
false, a density above `0` and an intersection of area above `0`, the buoyancy
force applied first has a strictly positive `y`-component, and the second call
applies the flow force `flowMagnitude * (cos, sin)`, which is the zero vector
when `flowMagnitude` is `0`; when both bodies are at rest, every drag and lift
force applied after it is the zero vector. -/
theorem C15_buoyancy_up_drag_lift_zero_at_rest [FloorRing K] (m : Libm K)
    (fluid fixture : b2Fixture K) (gravity : b2Vec2 K)
    (density dragMultiplier flowMagnitude flowAngleInRadians : K)
    (pts : List (b2Vec2 K)) (centroid : b2Vec2 K) (area : K)
    (hfound : FindIntersectionOfFixtures m fluid fixture [] = (true, pts))
    (hc : ComputeCentroid pts = some (centroid, area))
    (hg : gravity.y < 0) (hd : 0 < density) (ha : 0 < area) :
    ∃ buoyancyForce edgeCalls,
      HandleBuoyancy m fluid fixture gravity false density dragMultiplier flowMagnitude
          flowAngleInRadians =
        some (ForceCall.ApplyForce buoyancyForce centroid true ::
          ForceCall.ApplyForceToCenter (flowMagnitude *
            (⟨m.cos flowAngleInRadians, m.sin flowAngleInRadians⟩ : b2Vec2 K)) true ::
          edgeCalls) ∧
      0 < buoyancyForce.y ∧
      (flowMagnitude = 0 → flowMagnitude *
        (⟨m.cos flowAngleInRadians, m.sin flowAngleInRadians⟩ : b2Vec2 K) = 0) ∧
      (AtRest fluid.GetBody → AtRest fixture.GetBody → ∀ c ∈ edgeCalls, forceOf c = 0) := by
  refine ⟨_, _, HandleBuoyancy_of_found m fluid fixture gravity false density dragMultiplier
    flowMagnitude flowAngleInRadians pts centroid area hfound hc, ?_, ?_, ?_⟩
  · simp only [gravityMultiplierOf, b2Vec2.smul_y, b2Vec2.neg_y, Bool.false_eq_true, if_false,
      mul_one]
    exact mul_pos (mul_pos hd ha) (neg_pos.2 hg)
  · intro h0
    subst h0
    refine b2Vec2.ext ?_ ?_ <;> simp
  · intro hfl hfx c hcm
    simp only [List.mem_flatten, List.mem_map, List.mem_range] at hcm
    obtain ⟨l, ⟨i, _, rfl⟩, hcl⟩ := hcm
    exact edgeForces_at_rest m fluid fixture _ density dragMultiplier pts i hfl hfx c hcl

/-- C15 as the code has it, at the two overlapping unit squares at rest with
gravity `(0, -10)`, density `2` and no flow: the first force has a positive
`y`-component and every force after the flow force is the zero vector. -/
theorem C15_buoyancy_up_drag_lift_zero_at_rest_witness :
    ∃ buoyancyForce edgeCalls,
      HandleBuoyancy (⟨Real.cos, Real.sin, Real.sqrt⟩ : Libm ℝ) (polygonFixture unitSquare)
          (polygonFixture shiftedSquare) ⟨0, -10⟩ false 2 1 0 0 =
        some (ForceCall.ApplyForce buoyancyForce ⟨3/4, 3/4⟩ true ::
          ForceCall.ApplyForceToCenter ((0 : ℝ) * (⟨Real.cos 0, Real.sin 0⟩ : b2Vec2 ℝ)) true ::
          edgeCalls) ∧
      0 < buoyancyForce.y ∧ ∀ c ∈ edgeCalls, forceOf c = 0 := by
  obtain ⟨b, e, h, hb, _, he⟩ := C15_buoyancy_up_drag_lift_zero_at_rest
    (⟨Real.cos, Real.sin, Real.sqrt⟩ : Libm ℝ) (polygonFixture unitSquare)
    (polygonFixture shiftedSquare) ⟨0, -10⟩ 2 1 0 0 overlapSquare ⟨3/4, 3/4⟩ (1/4)
    (FindIntersectionOfFixtures_squares _) ComputeCentroid_overlapSquare
    (by norm_num) (by norm_num) (by norm_num)
  exact ⟨b, e, h, hb, he (fun _ => rfl) (fun _ => rfl)⟩

/-- C16 fails on the code: with a circle of radius `1/16` on a body at
`(1/2, 1/2)` as the fluid fixture, the unit square as the fixture of the body,
flow magnitude `3` and flow angle `0`, `FindIntersectionOfFixtures` reports an
intersection, the one point `(9/16, 1/2)`, the assertion `count >= 3` of
`ComputeCentroid` fails, and `HandleBuoyancy` ends there without a call on the
body: the flow force `3 * (cos 0, sin 0) = (3, 0)` is not applied for this
non-empty intersection. -/
theorem C16_no_flow_force_for_one_point_intersection :
    FindIntersectionOfFixtures (⟨Real.cos, Real.sin, Real.sqrt⟩ : Libm ℝ)
      (circleFixture ⟨1/2, 1/2⟩ (1/16)) (polygonFixture unitSquare) []
      = (true, [⟨1/2 + 1/16, 1/2⟩]) ∧
    HandleBuoyancy (⟨Real.cos, Real.sin, Real.sqrt⟩ : Libm ℝ)
      (circleFixture ⟨1/2, 1/2⟩ (1/16)) (polygonFixture unitSquare) ⟨0, -10⟩ false 1 1 3 0
      = none ∧
    (3 : ℝ) * (⟨Real.cos 0, Real.sin 0⟩ : b2Vec2 ℝ) = ⟨3, 0⟩ := by
  have h := HandleBuoyancy_one_point_circle (1/2) (1/2) (by norm_num) (by norm_num)
    (by norm_num) (by norm_num) ⟨0, -10⟩ false 1 1 3 0
  refine ⟨h.1, h.2, ?_⟩
  refine b2Vec2.ext ?_ ?_ <;> simp

/-- C17 as the spec has it fails: called with the same two fixtures, the
overlapping unit squares, the clipper returns the four overlap vertices when
the vector is empty on entry and eight vertices when it is handed the vector
the first call filled; and with the far square as subject it returns `false`
for an empty vector and `true` for a vector holding the vertex `(0.5, 0.5)`. -/
theorem C17_entry_contents_change_result :
    FindIntersectionOfFixtures (⟨Real.cos, Real.sin, Real.sqrt⟩ : Libm ℝ)
      (polygonFixture unitSquare) (polygonFixture shiftedSquare) [] = (true, overlapSquare) ∧
    FindIntersectionOfFixtures (⟨Real.cos, Real.sin, Real.sqrt⟩ : Libm ℝ)
      (polygonFixture unitSquare) (polygonFixture shiftedSquare) overlapSquare
      = (true, overlapSquare ++ overlapSquare) ∧
    FindIntersectionOfFixtures (⟨Real.cos, Real.sin, Real.sqrt⟩ : Libm ℝ)
      (polygonFixture farSquare) (polygonFixture unitSquare) [] = (false, []) ∧
    FindIntersectionOfFixtures (⟨Real.cos, Real.sin, Real.sqrt⟩ : Libm ℝ)
      (polygonFixture farSquare) (polygonFixture unitSquare) [⟨1/2, 1/2⟩]
      = (true, [⟨1, 2/3⟩, ⟨1/2, 1/2⟩, ⟨1, 1/3⟩]) := by
  have hl : (shiftedSquare : List (b2Vec2 ℝ)).getLast? = some ⟨1/2, 3/2⟩ := by
    simp [shiftedSquare]
  have hu : (unitSquare : List (b2Vec2 ℝ)).getLast? = some ⟨0, 1⟩ := by
    simp [unitSquare]
  refine ⟨FindIntersectionOfFixtures_squares _, ?_, ?_, ?_⟩
  · exact (FindIntersectionOfFixtures_entry _ _ _ overlapSquare unitSquare shiftedSquare
      ⟨1/2, 3/2⟩ (fillVertices_polygon _ _ _) (fillVertices_polygon _ _ _) hl).trans
      clipLoop_squares_again
  · exact (FindIntersectionOfFixtures_eq_clipLoop _ _ _ farSquare unitSquare
      ⟨0, 1⟩ (fillVertices_polygon _ _ _) (fillVertices_polygon _ _ _) hu).trans
      clipLoop_far
  · exact (FindIntersectionOfFixtures_entry _ _ _ [⟨1/2, 1/2⟩] farSquare unitSquare
      ⟨0, 1⟩ (fillVertices_polygon _ _ _) (fillVertices_polygon _ _ _) hu).trans
      clipLoop_far_entry

/-- C17 as the code has it: the result is a function of the two fixtures and
of what `outputVertices` holds on entry.  The vertices held on entry stay in
front of the subject vertices and are clipped with them: the call returns
`false` with entry and subject vertices left in the vector when the clip
polygon is empty, and otherwise what the clipping loop gives for the entry
vertices followed by the subject vertices.  For an empty vector that is the
clipping of the subject alone. -/
theorem C17_result_determined_by_entry_contents [FloorRing K] (m : Libm K)
    (fA fB : b2Fixture K) (out S C : List (b2Vec2 K))
    (hA : fillVertices m fA [] = some S) (hB : fillVertices m fB [] = some C) :
    FindIntersectionOfFixtures m fA fB out =
      (match C.getLast? with
        | none => (false, out ++ S)
        | some cp1 => clipLoop cp1 C (out ++ S)) ∧
    FindIntersectionOfFixtures m fA fB [] =
      (match C.getLast? with
        | none => (false, S)
        | some cp1 => clipLoop cp1 C S) := by
  have hA2 : fillVertices m fA out = some (out ++ S) := by
    rw [fillVertices_append, hA]; rfl
  cases h : C.getLast? with
  | none => exact ⟨by simp only [FindIntersectionOfFixtures, hA2, hB, h],
      by simp only [FindIntersectionOfFixtures, hA, hB, h]⟩
  | some cp1 => exact ⟨by simp only [FindIntersectionOfFixtures, hA2, hB, h],
      by simp only [FindIntersectionOfFixtures, hA, hB, h]⟩

/-- C17 as the code has it, at the two overlapping unit squares with the
overlap already in the vector: the call gives the clipping of the overlap
followed by the unit square. -/
theorem C17_result_determined_by_entry_contents_witness :
    FindIntersectionOfFixtures (⟨Real.cos, Real.sin, Real.sqrt⟩ : Libm ℝ)
      (polygonFixture unitSquare) (polygonFixture shiftedSquare) overlapSquare
      = clipLoop ⟨1/2, 3/2⟩ shiftedSquare (overlapSquare ++ unitSquare) :=
  (C17_result_determined_by_entry_contents (⟨Real.cos, Real.sin, Real.sqrt⟩ : Libm ℝ)
    (polygonFixture unitSquare) (polygonFixture shiftedSquare) overlapSquare unitSquare
    shiftedSquare (fillVertices_polygon _ _ _) (fillVertices_polygon _ _ _)).1.trans
    (by simp [shiftedSquare])

/-- C18: for all points `cp1`, `cp2`, `s`, `e` for which the denominator
`(cp1.x-cp2.x)*(s.y-e.y) - (cp1.y-cp2.y)*(s.x-e.x)` is not zero, the point
`Intersection(cp1, cp2, s, e)` returns is the intersection of the two lines:
it is collinear with `cp1` and `cp2`, collinear with `s` and `e`, and the only
point that is both. -/
theorem C18_intersection_on_both_lines (cp1 cp2 s e : b2Vec2 K)
    (hden : (cp1.x - cp2.x) * (s.y - e.y) - (cp1.y - cp2.y) * (s.x - e.x) ≠ 0) :
    b2Cross (cp2 - cp1) (Intersection cp1 cp2 s e - cp1) = 0 ∧
      b2Cross (e - s) (Intersection cp1 cp2 s e - s) = 0 ∧
      ∀ p : b2Vec2 K, b2Cross (cp2 - cp1) (p - cp1) = 0 → b2Cross (e - s) (p - s) = 0 →
        p = Intersection cp1 cp2 s e := by
  have h1 : b2Cross (cp2 - cp1) (Intersection cp1 cp2 s e - cp1) = 0 := by
    simp only [Intersection, b2Cross, b2Vec2.sub_x, b2Vec2.sub_y]
    field_simp
    ring
  have h2 : b2Cross (e - s) (Intersection cp1 cp2 s e - s) = 0 := by
    simp only [Intersection, b2Cross, b2Vec2.sub_x, b2Vec2.sub_y]
    field_simp
    ring
  refine ⟨h1, h2, fun p g1 g2 => ?_⟩
  generalize Intersection cp1 cp2 s e = q at h1 h2
  simp only [b2Cross, b2Vec2.sub_x, b2Vec2.sub_y] at h1 h2 g1 g2
  have hx : (p.x - q.x) *
      ((cp1.x - cp2.x) * (s.y - e.y) - (cp1.y - cp2.y) * (s.x - e.x)) = 0 := by
    linear_combination (e.x - s.x) * (g1 - h1) - (cp2.x - cp1.x) * (g2 - h2)
  have hy : (p.y - q.y) *
      ((cp1.x - cp2.x) * (s.y - e.y) - (cp1.y - cp2.y) * (s.x - e.x)) = 0 := by
    linear_combination (e.y - s.y) * (g1 - h1) - (cp2.y - cp1.y) * (g2 - h2)
  refine b2Vec2.ext ?_ ?_
  · exact sub_eq_zero.1 ((mul_eq_zero.1 hx).resolve_right hden)
  · exact sub_eq_zero.1 ((mul_eq_zero.1 hy).resolve_right hden)

/-- C18, at the line through `(0,0)` and `(1,0)` and the line through `(2,-1)`
and `(4,3)`, which meet at `(2.5, 0)`. -/
theorem C18_intersection_on_both_lines_witness :
    b2Cross ((⟨1, 0⟩ : b2Vec2 ℚ) - ⟨0, 0⟩) (Intersection ⟨0, 0⟩ ⟨1, 0⟩ ⟨2, -1⟩ ⟨4, 3⟩ - ⟨0, 0⟩) = 0 ∧
      b2Cross ((⟨4, 3⟩ : b2Vec2 ℚ) - ⟨2, -1⟩) (Intersection ⟨0, 0⟩ ⟨1, 0⟩ ⟨2, -1⟩ ⟨4, 3⟩ - ⟨2, -1⟩) = 0 :=
  let h := C18_intersection_on_both_lines (⟨0, 0⟩ : b2Vec2 ℚ) ⟨1, 0⟩ ⟨2, -1⟩ ⟨4, 3⟩
    (by norm_num)
  ⟨h.1, h.2.1⟩

/-- C19: whenever `Inside(cp1, cp2, s)` and `Inside(cp1, cp2, e)` differ, the
denominator `(cp1.x-cp2.x)*(s.y-e.y) - (cp1.y-cp2.y)*(s.x-e.x)` of
`Intersection(cp1, cp2, s, e)` is not zero, with no assumption on the points;
and every call of `Intersection` the clipping loop makes is at such points, so
none divides by zero. -/
theorem C19_straddling_gives_nonzero_denominator (cp1 cp2 s e : b2Vec2 K) :
    (Inside cp1 cp2 s ≠ Inside cp1 cp2 e →
      (cp1.x - cp2.x) * (s.y - e.y) - (cp1.y - cp2.y) * (s.x - e.x) ≠ 0) ∧
    (∀ (s0 : b2Vec2 K) (inputList : List (b2Vec2 K)),
      (s, e) ∈ intersectionCalls cp1 cp2 s0 inputList →
        Inside cp1 cp2 s ≠ Inside cp1 cp2 e ∧
        (cp1.x - cp2.x) * (s.y - e.y) - (cp1.y - cp2.y) * (s.x - e.x) ≠ 0) := by
  refine ⟨denominator_ne_zero cp1 cp2 s e, fun s0 inputList h => ?_⟩
  have hd := intersectionCalls_differ inputList cp1 cp2 s0 (s, e) h
  exact ⟨hd, denominator_ne_zero cp1 cp2 s e hd⟩

/-- C19, at the clip edge from `(0,0)` to `(1,0)` and the segment from
`(2,-1)` to `(4,3)`, which crosses its line: the denominator is `4`. -/
theorem C19_straddling_gives_nonzero_denominator_witness :
    Inside (⟨0, 0⟩ : b2Vec2 ℚ) ⟨1, 0⟩ ⟨2, -1⟩ ≠ Inside (⟨0, 0⟩ : b2Vec2 ℚ) ⟨1, 0⟩ ⟨4, 3⟩ ∧
      (((0 : ℚ) - 1) * (-1 - 3) - (0 - 0) * (2 - 4) ≠ 0) :=
  ⟨by simp [Inside], (C19_straddling_gives_nonzero_denominator
    (⟨0, 0⟩ : b2Vec2 ℚ) ⟨1, 0⟩ ⟨2, -1⟩ ⟨4, 3⟩).1 (by simp [Inside])⟩

/-- C20: for every polygon `P` with at least three points and every vector `t`,
`ComputeCentroid` returns for `P` and for `P` moved by `t`, the two areas
reported are equal, and when that area exceeds `b2_epsilon` the centroid
returned for the moved polygon is the centroid of `P` plus `t`. -/
theorem C20_translation_invariance (vs : List (b2Vec2 K)) (t : b2Vec2 K)
    (h3 : 3 ≤ vs.length) :
    ∃ c area c2, ComputeCentroid vs = some (c, area) ∧
      ComputeCentroid (translatePolygon t vs) = some (c2, area) ∧
      (b2_epsilon < area → c2 = c + t) := by
  have hlen : ¬ vs.length < 3 := by omega
  have hlen2 : ¬ (translatePolygon t vs).length < 3 := by rw [length_translate]; omega
  have hne : vs ≠ [] := by
    intro h; subst h; simp at h3
  rw [ComputeCentroid_eq_sums, ComputeCentroid_eq_sums, if_neg hlen, if_neg hlen2,
    centroidSums_translate t vs hne]
  by_cases h : (centroidSums vs).2 > b2_epsilon
  · simp only [if_pos h]
    refine ⟨_, _, _, rfl, rfl, fun _ => ?_⟩
    have hpos : (0 : K) < (centroidSums vs).2 := lt_trans b2_epsilon_pos h
    have hne0 : (centroidSums vs).2 ≠ 0 := ne_of_gt hpos
    refine b2Vec2.ext ?_ ?_
    · simp only [b2Vec2.mulAssign, b2Vec2.add_x]
      field_simp
      ring
    · simp only [b2Vec2.mulAssign, b2Vec2.add_y]
      field_simp
      ring
  · simp only [if_neg h]
    refine ⟨_, _, _, rfl, rfl, fun hlt => ?_⟩
    exact absurd hlt (not_lt.2 (le_of_lt b2_epsilon_pos))

/-- C20, at the right triangle with legs 3 and 4 moved by `(10, -7)`: area `6`
in both places, centroid `(1, 4/3)` and `(11, -17/3)`. -/
theorem C20_translation_invariance_witness :
    ComputeCentroid [(⟨0, 0⟩ : b2Vec2 ℚ), ⟨3, 0⟩, ⟨0, 4⟩] = some (⟨1, 4/3⟩, 6) ∧
    ComputeCentroid (translatePolygon ⟨10, -7⟩ [(⟨0, 0⟩ : b2Vec2 ℚ), ⟨3, 0⟩, ⟨0, 4⟩])
      = some (⟨11, -17/3⟩, 6) := by
  obtain ⟨c, area, c2, h1, h2, h3⟩ := C20_translation_invariance
    [(⟨0, 0⟩ : b2Vec2 ℚ), ⟨3, 0⟩, ⟨0, 4⟩] ⟨10, -7⟩ (by simp)
  have e1 : ComputeCentroid [(⟨0, 0⟩ : b2Vec2 ℚ), ⟨3, 0⟩, ⟨0, 4⟩] = some (⟨1, 4/3⟩, 6) := by
    norm_num [ComputeCentroid, List.range_succ, centroidStep, b2Cross, b2_epsilon,
      b2Vec2.mulAssign]
  rw [e1] at h1
  obtain ⟨rfl, rfl⟩ := Prod.mk.inj (Option.some.inj h1)
  refine ⟨e1, ?_⟩
  rw [h2, h3 (by norm_num [b2_epsilon])]
  refine congrArg some (Prod.ext (b2Vec2.ext ?_ ?_) rfl) <;> norm_num

/-- C21: for every subject with at least three vertices and every non-empty
clip polygon, the vector `outputVertices` holds no vertex or at least three
vertices after each clip edge the loop of `FindIntersectionOfFixtures` gets
through, and so does the output at the end, which is the last of these
values. -/
theorem C21_output_empty_or_at_least_three [FloorRing K] (m : Libm K) (fA fB : b2Fixture K)
    (S C : List (b2Vec2 K)) (cp1 : b2Vec2 K)
    (hA : fillVertices m fA [] = some S) (hB : fillVertices m fB [] = some C)
    (hl : C.getLast? = some cp1) (h3 : 3 ≤ S.length) :
    FindIntersectionOfFixtures m fA fB [] = clipLoop cp1 C S ∧
    (clipLoop cp1 C S).2 = (clipStates cp1 C S).getLastD S ∧
    (∀ L ∈ clipStates cp1 C S, L = [] ∨ 3 ≤ L.length) ∧
    ((FindIntersectionOfFixtures m fA fB []).2 = [] ∨
      3 ≤ (FindIntersectionOfFixtures m fA fB []).2.length) := by
  have h := FindIntersectionOfFixtures_eq_clipLoop m fA fB S C cp1 hA hB hl
  refine ⟨h, clipLoop_eq_last_state C cp1 S,
    clipStates_empty_or_three C cp1 S (Or.inr h3), ?_⟩
  rw [h]
  exact clipLoop_empty_or_three C cp1 S (Or.inr h3)

/-- C21, at the two overlapping unit squares: the vector holds four vertices
after each of the four clip edges. -/
theorem C21_output_empty_or_at_least_three_witness :
    clipStates (⟨1/2, 3/2⟩ : b2Vec2 ℝ) shiftedSquare unitSquare
      = [[⟨1/2, 0⟩, ⟨1, 0⟩, ⟨1, 1⟩, ⟨1/2, 1⟩], overlapSquare, overlapSquare, overlapSquare] ∧
    ∀ L ∈ clipStates (⟨1/2, 3/2⟩ : b2Vec2 ℝ) shiftedSquare unitSquare,
      L = [] ∨ 3 ≤ L.length := by
  refine ⟨?_, (C21_output_empty_or_at_least_three (⟨Real.cos, Real.sin, Real.sqrt⟩ : Libm ℝ)
    (polygonFixture unitSquare) (polygonFixture shiftedSquare) unitSquare shiftedSquare
    ⟨1/2, 3/2⟩ (fillVertices_polygon _ _ _) (fillVertices_polygon _ _ _)
    (by simp [shiftedSquare]) (by simp [unitSquare])).2.2.1⟩
  norm_num [unitSquare, shiftedSquare, overlapSquare, clipStates, clipWalk, Inside, Intersection]

/-- C22 as the spec has it fails when one of the two polygons has no vertex,
where every vertex of the subject is inside every clip edge because there is
no vertex or no edge: for the unit square against a circle of radius `0`, which
is sampled as no point, the clipper returns `false`; and so it does for that
circle against the unit square. -/
theorem C22_vacuously_inside_returns_false :
    fillVertices (⟨Real.cos, Real.sin, Real.sqrt⟩ : Libm ℝ) (circleFixture 0 0) [] = some [] ∧
    (∀ e ∈ clipEdges ([] : List (b2Vec2 ℝ)), ∀ v ∈ (unitSquare : List (b2Vec2 ℝ)),
      Inside e.1 e.2 v = true) ∧
    FindIntersectionOfFixtures (⟨Real.cos, Real.sin, Real.sqrt⟩ : Libm ℝ)
      (polygonFixture unitSquare) (circleFixture 0 0) [] = (false, unitSquare) ∧
    (∀ e ∈ clipEdges (unitSquare : List (b2Vec2 ℝ)), ∀ v ∈ ([] : List (b2Vec2 ℝ)),
      Inside e.1 e.2 v = true) ∧
    FindIntersectionOfFixtures (⟨Real.cos, Real.sin, Real.sqrt⟩ : Libm ℝ)
      (circleFixture 0 0) (polygonFixture unitSquare) [] = (false, []) := by
  refine ⟨fillVertices_circle_zero _ _, ?_, ?_, ?_, ?_⟩
  · intro e he
    simp [clipEdges] at he
  · have h := FindIntersectionOfFixtures_empty_clip (⟨Real.cos, Real.sin, Real.sqrt⟩ : Libm ℝ)
      (polygonFixture unitSquare) (circleFixture 0 0) [] unitSquare
      (fillVertices_polygon _ _ _) (fillVertices_circle_zero _ _)
    simpa using h
  · intro e _ v hv
    simp at hv
  · have hl : (unitSquare : List (b2Vec2 ℝ)).getLast? = some ⟨0, 1⟩ := by simp [unitSquare]
    exact (FindIntersectionOfFixtures_eq_clipLoop _ _ _ [] unitSquare ⟨0, 1⟩
      (fillVertices_circle_zero _ _) (fillVertices_polygon _ _ _) hl).trans
      (clipLoop_nil_out _ _)

/-- C22 as the code has it: if the subject polygon and the clip polygon each
have at least one vertex and every vertex of the subject is strictly inside
every edge of the clip polygon (the last clip vertex paired with the first),
then `FindIntersectionOfFixtures` returns `true`, its output is exactly the
subject vertex list, and it makes no call of `Intersection`. -/
theorem C22_subject_inside_clip_is_returned [FloorRing K] (m : Libm K) (fA fB : b2Fixture K)
    (S C : List (b2Vec2 K))
    (hA : fillVertices m fA [] = some S) (hB : fillVertices m fB [] = some C)
    (hS : S ≠ []) (hC : C ≠ [])
    (hin : ∀ e ∈ clipEdges C, ∀ v ∈ S, Inside e.1 e.2 v = true) :
    FindIntersectionOfFixtures m fA fB [] = (true, S) ∧
      IntersectionCallsOfFixtures m fA fB [] = [] := by
  cases hl : C.getLast? with
  | none => simp at hl; exact absurd hl hC
  | some cp1 =>
    simp only [clipEdges, hl] at hin
    obtain ⟨h1, h2⟩ := clipLoop_all_inside C cp1 S hS hin
    simp only [FindIntersectionOfFixtures, IntersectionCallsOfFixtures, hA, hB, hl, h1, h2,
      and_self]

/-- C22 as the code has it, at the square `(0.25,0.25)..(0.75,0.75)` clipped by
the unit square. -/
theorem C22_subject_inside_clip_is_returned_witness :
    FindIntersectionOfFixtures (⟨Real.cos, Real.sin, Real.sqrt⟩ : Libm ℝ)
      (polygonFixture innerSquare) (polygonFixture unitSquare) [] = (true, innerSquare) ∧
    IntersectionCallsOfFixtures (⟨Real.cos, Real.sin, Real.sqrt⟩ : Libm ℝ)
      (polygonFixture innerSquare) (polygonFixture unitSquare) [] = [] :=
  C22_subject_inside_clip_is_returned (⟨Real.cos, Real.sin, Real.sqrt⟩ : Libm ℝ)
    (polygonFixture innerSquare) (polygonFixture unitSquare) innerSquare unitSquare
    (fillVertices_polygon _ _ _) (fillVertices_polygon _ _ _)
    (by simp [innerSquare]) (by simp [unitSquare])
    (by
      intro e he v hv
      simp only [clipEdges, unitSquare, edgesFrom, List.getLast?_cons_cons,
        List.getLast?_singleton, List.mem_cons, List.mem_singleton, List.not_mem_nil,
        or_false] at he
      simp only [innerSquare, List.mem_cons, List.mem_singleton, List.not_mem_nil,
        or_false] at hv
      rcases he with rfl | rfl | rfl | rfl <;> rcases hv with rfl | rfl | rfl | rfl <;>
        norm_num [Inside])

/-- C23: the points `VerticesFromCircle` appends are a function of the position
of the owning body, the radius of the circle and the resolution.  Two circle
fixtures of equal radius, with any local centres, on bodies at the same
position, whatever their rotation and velocity, give the same result, and every
point appended is the body position plus `radius * (cos a, sin a)` for an
angle `a`: with `cos² + sin² = 1` its squared distance from the body position
is `radius²`. -/
theorem C23_circle_points_ignore_local_centre [FloorRing K] (m : Libm K)
    (c1 c2 : b2Vec2 K) (radius resolution : K) (body1 body2 : b2Body K)
    (vertices : List (b2Vec2 K)) (hpos : body1.GetPosition = body2.GetPosition) :
    VerticesFromCircle m ⟨b2Shape.e_circle c1 radius, body1⟩ vertices resolution =
      VerticesFromCircle m ⟨b2Shape.e_circle c2 radius, body2⟩ vertices resolution ∧
    ∃ points, VerticesFromCircle m ⟨b2Shape.e_circle c1 radius, body1⟩ vertices resolution =
        (true, vertices ++ points) ∧
      (∀ p ∈ points, ∃ a : K,
        p = body1.GetPosition + radius * (⟨m.cos a, m.sin a⟩ : b2Vec2 K)) ∧
      ((∀ a, m.cos a * m.cos a + m.sin a * m.sin a = 1) →
        ∀ p ∈ points, (p.x - body1.GetPosition.x) * (p.x - body1.GetPosition.x) +
          (p.y - body1.GetPosition.y) * (p.y - body1.GetPosition.y) = radius * radius) := by
  refine ⟨?_, ?_⟩
  · rw [VerticesFromCircle_circle, VerticesFromCircle_circle, hpos]
  · refine ⟨_, VerticesFromCircle_circle m c1 radius body1 vertices resolution, ?_, ?_⟩
    · intro p hp
      simp only [List.mem_map, List.mem_range] at hp
      obtain ⟨i, _, rfl⟩ := hp
      exact ⟨_, rfl⟩
    · intro hm p hp
      simp only [List.mem_map, List.mem_range] at hp
      obtain ⟨i, _, rfl⟩ := hp
      simp only [b2Vec2.add_x, b2Vec2.add_y, b2Vec2.smul_x, b2Vec2.smul_y]
      linear_combination (radius * radius) *
        hm (twoPi / (⌈resolution * radius⌉ : K) * (i : K))

/-- C23, at two circles of radius `0.25` with local centres `(0, 0)` and
`(5, 5)` on bodies at `(1, 2)`, the second turned by a quarter and moving: the
same points, each at squared distance `0.0625` from `(1, 2)`. -/
theorem C23_circle_points_ignore_local_centre_witness :
    VerticesFromCircle (⟨Real.cos, Real.sin, Real.sqrt⟩ : Libm ℝ)
        ⟨b2Shape.e_circle ⟨0, 0⟩ (1/4), ⟨⟨1, 2⟩, id, fun _ => 0⟩⟩ [] 16 =
      VerticesFromCircle (⟨Real.cos, Real.sin, Real.sqrt⟩ : Libm ℝ)
        ⟨b2Shape.e_circle ⟨5, 5⟩ (1/4),
          ⟨⟨1, 2⟩, fun v => ⟨1 - v.y, 2 + v.x⟩, fun _ => ⟨3, 3⟩⟩⟩ [] 16 ∧
    ∀ p ∈ (VerticesFromCircle (⟨Real.cos, Real.sin, Real.sqrt⟩ : Libm ℝ)
        ⟨b2Shape.e_circle ⟨0, 0⟩ (1/4), ⟨⟨1, 2⟩, id, fun _ => 0⟩⟩ [] 16).2,
      (p.x - 1) * (p.x - 1) + (p.y - 2) * (p.y - 2) = (1/4 : ℝ) * (1/4) := by
  obtain ⟨h1, points, h2, _, h3⟩ := C23_circle_points_ignore_local_centre
    (⟨Real.cos, Real.sin, Real.sqrt⟩ : Libm ℝ)
    ⟨0, 0⟩ ⟨5, 5⟩ (1/4) 16 ⟨⟨1, 2⟩, id, fun _ => 0⟩
    ⟨⟨1, 2⟩, fun v => ⟨1 - v.y, 2 + v.x⟩, fun _ => ⟨3, 3⟩⟩ [] rfl
  refine ⟨h1, ?_⟩
  rw [h2]
  intro p hp
  exact h3 (fun a => by
    have := Real.cos_sq_add_sin_sq a
    simp only [sq] at this
    exact this) p (by simpa using hp)

end Claims

end ArcEngine
